import Mathlib

/-!
# ChookDoor: a verification development

A shallow embedding of the door controller (`Door`), its debounced limit
switches (`Button`), its indicators (`LED`) and its motor driver (`Motor`),
followed by theorems about them.

Conventions of the embedding
* `byte` fields and the `int` state of `Door` are natural numbers; the
  symbolic constants keep their source values (`HIGH = 1`, `LOW = 0`,
  `OPENING = 2`, ...). The `int` blink duration of `LED` is an integer.
* `unsigned long` arithmetic is arithmetic modulo `2 ^ 32` (`usub`).
* `now` is the value `millis()` returns during one call; every read of the
  clock inside one call sees the same tick.
* `digitalRead` results are passed in as arguments (`stateRead`).
* LEDs are objects referred to by address; the store `LEDStore` maps an
  address to the object living there, and `_opposite` is an optional address.
  `on()` and `off()` call each other through `_opposite`, so they carry a
  call-depth budget (`fuel`) and answer `none` when it is exhausted.
* Function pointers (`_buttonPressedFunction`, `_halt`) are external code; the
  embedding counts their invocations and assumes they do not touch the
  objects modelled here.
-/

namespace ChookDoor

/-! ## Arduino basics -/

/-- Electrical level `HIGH` of `Arduino.h`. -/
abbrev HIGH : Nat := 1

/-- Electrical level `LOW` of `Arduino.h`. -/
abbrev LOW : Nat := 0

/-- Number of values of an `unsigned long` on the target (32 bits). -/
abbrev ULONG_RANGE : Nat := 4294967296

/-- Subtraction of two `unsigned long` values: the difference modulo `2 ^ 32`. -/
def usub (a b : Nat) : Nat :=
  (a % ULONG_RANGE + (ULONG_RANGE - b % ULONG_RANGE)) % ULONG_RANGE

/-- Conversion of an `int` to `unsigned long`, as done by the usual
arithmetic conversions when the two are compared. -/
def toULong (i : Int) : Nat :=
  (i % 4294967296).toNat

/-! ## Motor (Motor.h, Motor.cpp) -/

/-- Constant `FORWARDS` of `Motor.h`. -/
abbrev FORWARDS : Nat := HIGH

/-- Constant `BACKWARDS` of `Motor.h`. -/
abbrev BACKWARDS : Nat := LOW

/-- A `Motor` object together with the level of its two output pins.
`running` and `startCalls` are observation fields: `running` is true when
`start` has been called with no later `stop`, `startCalls` counts the calls of
`start`. -/
structure Motor where
  _directionPin : Nat
  _speedPin : Nat
  directionOut : Nat
  speedOut : Nat
  running : Bool
  startCalls : Nat
  deriving DecidableEq, Repr

/-- Constructor `Motor::Motor`: records the pins; nothing is driven yet. -/
def Motor.new (directionPin speedPin : Nat) : Motor :=
  { _directionPin := directionPin
    _speedPin := speedPin
    directionOut := LOW
    speedOut := 0
    running := false
    startCalls := 0 }

/-- Method `Motor::start`. -/
def Motor.start (direction speed : Nat) (m : Motor) : Motor :=
  { m with
    directionOut := direction
    speedOut := speed
    running := true
    startCalls := m.startCalls + 1 }

/-- Method `Motor::stop`. -/
def Motor.stop (m : Motor) : Motor :=
  { m with speedOut := 0, running := false }

/-! ## Button (Button.h, Button.cpp) -/

/-- A `Button` object. `pressedCalls` counts the invocations of
`_buttonPressedFunction`; `_buttonPressedFunction` itself records whether the
pointer is non-null. -/
structure Button where
  _pin : Nat
  _normallyClosed : Bool
  _buttonPressedFunction : Bool
  _state : Nat
  _previousState : Nat
  _lastDebounceTime : Nat
  _debounceDelay : Nat
  pressedCalls : Nat
  deriving DecidableEq, Repr

/-- Constructor `Button::Button`. `_state = -99` stored in a `byte` is `157`;
the other fields take their default member initialisers. -/
def Button.new (normallyClosed : Bool) (pin : Nat) (buttonPressedFunction : Bool) : Button :=
  { _pin := pin
    _normallyClosed := normallyClosed
    _buttonPressedFunction := buttonPressedFunction
    _state := 157
    _previousState := 77
    _lastDebounceTime := 0
    _debounceDelay := 50
    pressedCalls := 0 }

/-- Method `Button::isPressed`. -/
def Button.isPressed (b : Button) : Bool :=
  if b._normallyClosed then b._state == HIGH else b._state == LOW

/-- Method `Button::interact`, with `stateRead` the result of
`digitalRead(_pin)` and `now` the value of `millis()`. -/
def Button.interact (stateRead now : Nat) (b : Button) : Button :=
  let b1 : Button :=
    if stateRead ≠ b._previousState then { b with _lastDebounceTime := now } else b
  let b2 : Button :=
    if usub now b1._lastDebounceTime > b1._debounceDelay then
      if b1._state ≠ stateRead then
        let b3 : Button := { b1 with _state := stateRead % 256 }
        if b3._buttonPressedFunction && b3.isPressed then
          { b3 with pressedCalls := b3.pressedCalls + 1 }
        else b3
      else b1
    else b1
  { b2 with _previousState := stateRead % 256 }

/-! ## LED (LED.h, LED.cpp) -/

/-- An `LED` object together with the level last written to its pin.
`_state` holds one of `LED.OFF`, `LED.ON`, `LED.BLINK`; `_isOff` is a `byte`
used only as a truth value. -/
structure LED where
  _pin : Nat
  _state : Nat
  _duration : Int
  _isOff : Bool
  _timeLastChange : Nat
  _opposite : Option Nat
  pinOut : Nat
  deriving DecidableEq, Repr

/-- Constant `LED::ON`. -/
abbrev LED.ON : Nat := 1

/-- Constant `LED::OFF`. -/
abbrev LED.OFF : Nat := 0

/-- Constant `LED::BLINK`. -/
abbrev LED.BLINK : Nat := 2

/-- The LED objects of the program, by address. -/
abbrev LEDStore := Nat → LED

/-- Constructor `LED::LED`. It assigns `_pin` and `_state` and writes
`initialState` to the pin; the remaining fields are not assigned by the
constructor and keep whatever `raw` holds. -/
def LED.new (pin initialState : Nat) (raw : LED) : LED :=
  { raw with _pin := pin, _state := LED.OFF, pinOut := initialState }

mutual
/-- Method `LED::on` called on the object at address `p`. -/
def LED.on : Nat → LEDStore → Nat → Option LEDStore
  | 0, _, _ => none
  | fuel + 1, σ, p =>
    let σ1 : LEDStore :=
      Function.update σ p { σ p with pinOut := HIGH, _state := LED.ON, _isOff := false }
    match (σ1 p)._opposite with
    | some q => LED.off fuel σ1 q
    | none => some σ1
/-- Method `LED::off` called on the object at address `p`. -/
def LED.off : Nat → LEDStore → Nat → Option LEDStore
  | 0, _, _ => none
  | fuel + 1, σ, p =>
    let σ1 : LEDStore :=
      Function.update σ p { σ p with pinOut := LOW, _state := LED.OFF, _isOff := true }
    match (σ1 p)._opposite with
    | some q => LED.on fuel σ1 q
    | none => some σ1
end

/-- Method `LED::blink` called on the object at address `p`. -/
def LED.blink (fuel : Nat) (duration : Int) (now : Nat) (σ : LEDStore) (p : Nat) :
    Option LEDStore :=
  let σ1 : LEDStore :=
    Function.update σ p { σ p with _duration := duration, _isOff := true, _timeLastChange := now }
  match LED.off fuel σ1 p with
  | some σ2 => some (Function.update σ2 p { σ2 p with _state := LED.BLINK })
  | none => none

/-- Method `LED::slowBlink`. -/
def LED.slowBlink (fuel now : Nat) (σ : LEDStore) (p : Nat) : Option LEDStore :=
  LED.blink fuel 1000 now σ p

/-- Method `LED::fastBlink`. -/
def LED.fastBlink (fuel now : Nat) (σ : LEDStore) (p : Nat) : Option LEDStore :=
  LED.blink fuel 250 now σ p

/-- Method `LED::setOpposite` called on the object at address `p` with the
(non-null) address `q`. -/
def LED.setOpposite (fuel : Nat) (σ : LEDStore) (p q : Nat) : Option LEDStore :=
  let σ1 : LEDStore := Function.update σ p { σ p with _opposite := some q }
  if (σ1 p)._isOff then LED.on fuel σ1 q else LED.off fuel σ1 q

/-- Method `LED::removeOpposite`. -/
def LED.removeOpposite (σ : LEDStore) (p : Nat) : LEDStore :=
  Function.update σ p { σ p with _opposite := none }

/-- Method `LED::interact` called on the object at address `p`. -/
def LED.interact (fuel now : Nat) (σ : LEDStore) (p : Nat) : Option LEDStore :=
  if (σ p)._state = LED.BLINK then
    if usub now (σ p)._timeLastChange ≥ toULong (σ p)._duration then
      let r : Option LEDStore :=
        if (σ p)._isOff then
          let σ1 : LEDStore := Function.update σ p { σ p with pinOut := HIGH }
          match (σ1 p)._opposite with
          | some q => LED.off fuel σ1 q
          | none => some σ1
        else
          let σ1 : LEDStore := Function.update σ p { σ p with pinOut := LOW }
          match (σ1 p)._opposite with
          | some q => LED.on fuel σ1 q
          | none => some σ1
      match r with
      | some σ2 =>
        some (Function.update σ2 p
          { σ2 p with _timeLastChange := now, _isOff := !(σ2 p)._isOff })
      | none => none
    else some σ
  else some σ

/-! ## Door (Door.h, Door.cpp) -/

/-- Constant `UNKNOWN` of `Door.h`. -/
abbrev UNKNOWN : Nat := 0

/-- Constant `OPEN` of `Door.h`. -/
abbrev OPEN : Nat := 1

/-- Constant `OPENING` of `Door.h`. -/
abbrev OPENING : Nat := 2

/-- Constant `CLOSED` of `Door.h`. -/
abbrev CLOSED : Nat := 3

/-- Constant `CLOSING` of `Door.h`. -/
abbrev CLOSING : Nat := 4

/-- Constant `HALTED` of `Door.h`. -/
abbrev HALTED : Nat := 5

/-- A `Door` object. The two buttons and the motor are owned by the door and
stored in it; `_redLED` and `_greenLED` are addresses into `leds`, the store
holding the LED objects of the program. `haltCalls` counts the invocations of
the `_halt` callback. -/
structure Door where
  _closedButton : Button
  _openButton : Button
  _motor : Motor
  _redLED : Nat
  _greenLED : Nat
  _state : Nat
  _motorStartTime : Nat
  _manualOverride : Bool
  haltCalls : Nat
  leds : LEDStore

/-- Constructor `Door::Door`. `closedRead` and `openRead` are the levels the two
limit-switch pins read, `now` the value of `millis()`, `σ` the LED store at
the time of the call and `rawStartTime` the content of the unassigned field
`_motorStartTime`. -/
def Door.new (closedButtonPin openButtonPin motorDirectionPin motorSpeedPin : Nat)
    (redLED greenLED : Nat) (closedRead openRead now rawStartTime : Nat) (σ : LEDStore) : Door :=
  let closedButton : Button := (Button.new true closedButtonPin false).interact closedRead now
  let s1 : Nat := if closedButton.isPressed then CLOSED else UNKNOWN
  let openButton : Button := (Button.new true openButtonPin false).interact openRead now
  let s2 : Nat := if openButton.isPressed then OPEN else s1
  { _closedButton := closedButton
    _openButton := openButton
    _motor := Motor.new motorDirectionPin motorSpeedPin
    _redLED := redLED
    _greenLED := greenLED
    _state := s2
    _motorStartTime := rawStartTime
    _manualOverride := false
    haltCalls := 0
    leds := σ }

/-- Method `Door::changeLEDState`. -/
def Door.changeLEDState (fuel now : Nat) (d : Door) : Option Door :=
  if d._state = OPEN then
    if d._manualOverride then
      (LED.fastBlink fuel now d.leds d._greenLED).map fun σ => { d with leds := σ }
    else
      (LED.on fuel d.leds d._greenLED).map fun σ => { d with leds := σ }
  else if d._state = CLOSED then
    if d._manualOverride then
      (LED.fastBlink fuel now d.leds d._redLED).map fun σ => { d with leds := σ }
    else
      (LED.on fuel d.leds d._redLED).map fun σ => { d with leds := σ }
  else some d

/-- Method `Door::checkForJam`. -/
def Door.checkForJam (now : Nat) (d : Door) : Door :=
  if usub now d._motorStartTime > 120000 then
    { d with _motor := d._motor.stop, _state := HALTED, haltCalls := d.haltCalls + 1 }
  else d

/-- The first two statements of `Door::interact`: both limit switches are
polled. -/
def Door.poll (closedRead openRead now : Nat) (d : Door) : Door :=
  { d with
    _closedButton := d._closedButton.interact closedRead now
    _openButton := d._openButton.interact openRead now }

/-- Method `Door::interact`, with the levels read on the two limit-switch pins
and the value of `millis()`. -/
def Door.interact (fuel closedRead openRead now : Nat) (d : Door) : Option Door :=
  let d1 : Door :=
    { d with
      _closedButton := d._closedButton.interact closedRead now
      _openButton := d._openButton.interact openRead now }
  if d1._state = OPENING then
    if d1._openButton.isPressed then
      Door.changeLEDState fuel now { d1 with _state := OPEN, _motor := d1._motor.stop }
    else some (d1.checkForJam now)
  else if d1._state = CLOSING then
    if d1._closedButton.isPressed then
      Door.changeLEDState fuel now { d1 with _state := CLOSED, _motor := d1._motor.stop }
    else some (d1.checkForJam now)
  else some d1

/-- Method `Door::autoCloseOn`. -/
def Door.autoCloseOn (fuel now : Nat) (d : Door) : Option Door :=
  Door.changeLEDState fuel now { d with _manualOverride := false }

/-- Method `Door::closeDoor`. -/
def Door.closeDoor (fuel : Nat) (manual : Bool) (now : Nat) (d : Door) : Option Door :=
  if d._state ≠ CLOSED ∧ d._state ≠ CLOSING then
    match LED.off fuel d.leds d._greenLED with
    | none => none
    | some σ1 =>
      match LED.slowBlink fuel now σ1 d._redLED with
      | none => none
      | some σ2 =>
        some { d with
               _state := CLOSING
               _motor := d._motor.start BACKWARDS 255
               _motorStartTime := now
               leds := σ2
               _manualOverride := manual }
  else some d

/-- Method `Door::openDoor`. -/
def Door.openDoor (fuel : Nat) (manual : Bool) (now : Nat) (d : Door) : Option Door :=
  if d._state ≠ OPEN ∧ d._state ≠ OPENING then
    match LED.off fuel d.leds d._redLED with
    | none => none
    | some σ1 =>
      match LED.slowBlink fuel now σ1 d._greenLED with
      | none => none
      | some σ2 =>
        some { d with
               _state := OPENING
               _motor := d._motor.start FORWARDS 255
               _motorStartTime := now
               leds := σ2
               _manualOverride := manual }
  else some d

/-- Method `Door::stop`. -/
def Door.stop (fuel : Nat) (d : Door) : Option Door :=
  match LED.off fuel d.leds d._redLED with
  | none => none
  | some σ1 =>
    match LED.off fuel σ1 d._greenLED with
    | none => none
    | some σ2 => some { d with _motor := d._motor.stop, leds := σ2 }

/-- Method `Door::isOpenOrOpening`. -/
def Door.isOpenOrOpening (d : Door) : Bool :=
  d._state == OPEN || d._state == OPENING

/-- Method `Door::isClosedOrClosing`. -/
def Door.isClosedOrClosing (d : Door) : Bool :=
  d._state == CLOSED || d._state == CLOSING

/-! ## Calls made on a door by its driver -/

/-- One call of a public method of `Door`, with the values the environment
supplies during the call (pin readings, clock). -/
inductive Op where
  | interact (closedRead openRead now : Nat)
  | openDoor (manual : Bool) (now : Nat)
  | closeDoor (manual : Bool) (now : Nat)
  | autoCloseOn (now : Nat)
  | changeLEDState (now : Nat)
  | stop
  deriving DecidableEq, Repr

/-- Effect of one call on a door. -/
def Door.step (fuel : Nat) (d : Door) : Op → Option Door
  | .interact c o now => d.interact fuel c o now
  | .openDoor m now => d.openDoor fuel m now
  | .closeDoor m now => d.closeDoor fuel m now
  | .autoCloseOn now => d.autoCloseOn fuel now
  | .changeLEDState now => d.changeLEDState fuel now
  | .stop => d.stop fuel

/-- Effect of a sequence of calls, oldest first. -/
def Door.run (fuel : Nat) (d : Door) : List Op → Option Door
  | [] => some d
  | op :: ops =>
    match d.step fuel op with
    | some d1 => d1.run fuel ops
    | none => none

/-- The calls `interact`, `openDoor`, `closeDoor`, `autoCloseOn` and `stop`. -/
def Op.isCommand : Op → Bool
  | .changeLEDState _ => false
  | _ => true

/-- The calls `interact`, `openDoor`, `closeDoor` and `autoCloseOn`. -/
def Op.isCommandNoStop : Op → Bool
  | .changeLEDState _ => false
  | .stop => false
  | _ => true

/-- States a door can be in after construction followed by calls that all
satisfy `allowed` and all return. -/
inductive Door.Reachable (allowed : Op → Bool) : Door → Prop where
  | init (closedButtonPin openButtonPin motorDirectionPin motorSpeedPin : Nat)
      (redLED greenLED : Nat) (closedRead openRead now rawStartTime : Nat) (σ : LEDStore) :
      Door.Reachable allowed
        (Door.new closedButtonPin openButtonPin motorDirectionPin motorSpeedPin
          redLED greenLED closedRead openRead now rawStartTime σ)
  | step {d d1 : Door} (fuel : Nat) (op : Op) :
      Door.Reachable allowed d → allowed op = true → d.step fuel op = some d1 →
      Door.Reachable allowed d1

/-! ## Sequences of polls -/

/-- A button after a sequence of `interact()` calls, oldest first; each call
is given as the pair of the sample read and the clock value. -/
def Button.run (b : Button) : List (Nat × Nat) → Button
  | [] => b
  | x :: xs => (b.interact x.1 x.2).run xs

/-- After none of the `interact()` calls of the sequence the button is
pressed. -/
def Button.neverPressed : Button → List (Nat × Nat) → Bool
  | _, [] => true
  | b, x :: xs => !(b.interact x.1 x.2).isPressed && (b.interact x.1 x.2).neverPressed xs

/-- What the environment supplies during one `Door::interact()` call: the
levels of the two limit-switch pins and the clock value. -/
structure Poll where
  closedRead : Nat
  openRead : Nat
  now : Nat
  deriving DecidableEq, Repr

/-- The `interact()` call made with these values. -/
def Poll.toOp (p : Poll) : Op := Op.interact p.closedRead p.openRead p.now

/-- What the closed-limit button sees during the call. -/
def Poll.closedSample (p : Poll) : Nat × Nat := (p.closedRead, p.now)

/-- What the open-limit button sees during the call. -/
def Poll.openSample (p : Poll) : Nat × Nat := (p.openRead, p.now)

/-- The door after its two buttons have been polled through a sequence of
calls, everything else left as it is. -/
def Door.polls (d : Door) : List Poll → Door
  | [] => d
  | p :: ps => (d.poll p.closedRead p.openRead p.now).polls ps

/-! ## Invariants of the door -/

/-- A running motor belongs to a door in motion, and drives in the direction
of that motion. -/
def Door.MotorInv (d : Door) : Prop :=
  d._motor.running = true →
    (d._state = OPENING ∧ d._motor.directionOut = FORWARDS)
    ∨ (d._state = CLOSING ∧ d._motor.directionOut = BACKWARDS)

/-- The motor runs exactly when the door is in motion. -/
def Door.MotorIff (d : Door) : Prop :=
  d._motor.running = true ↔ (d._state = OPENING ∨ d._state = CLOSING)

/-- Neither the red nor the green LED of the door has a mirror peer. -/
def Door.NoPeers (d : Door) : Prop :=
  (d.leds d._redLED)._opposite = none ∧ (d.leds d._greenLED)._opposite = none

/-- The mirror relation of every LED is the same in both stores. -/
def LEDStore.SamePeers (σ σ1 : LEDStore) : Prop :=
  ∀ q, (σ1 q)._opposite = (σ q)._opposite

/-- Debounce bookkeeping between a commit at clock value `t0` and a later
clock value `T`: either no raw change has been seen since the commit (the last
raw sample is the debounced value) or the debounce timer was restarted between
`t0` and `T`. -/
def Button.SettledSince (t0 T : Nat) (b : Button) : Prop :=
  b._previousState = b._state ∨ (t0 ≤ b._lastDebounceTime ∧ b._lastDebounceTime ≤ T)

/-- Number of calls in the sequence at which the button goes from not pressed
to pressed. -/
def Button.pressEdges : Button → List (Nat × Nat) → Nat
  | _, [] => 0
  | b, x :: xs =>
    (if !b.isPressed && (b.interact x.1 x.2).isPressed then 1 else 0)
      + (b.interact x.1 x.2).pressEdges xs

/-- The chain of mirror peers that starts at the LED at address `p` ends, at an
LED without peer, within `fuel` LEDs. This is the condition under which
`on()` and `off()` called on `p` return. -/
def LED.returns : Nat → LEDStore → Nat → Bool
  | 0, _, _ => false
  | fuel + 1, σ, p =>
    match (σ p)._opposite with
    | some q => LED.returns fuel σ q
    | none => true

/-! ## Calls made on LEDs by their driver -/

/-- One call of a public method of `LED` on the object at address `p`, with
the clock value where the method reads the clock. -/
inductive LEDCall where
  | on (p : Nat)
  | off (p : Nat)
  | blink (p : Nat) (duration : Int) (now : Nat)
  | interact (p : Nat) (now : Nat)
  deriving DecidableEq, Repr

/-- Effect of one call on the LED store. -/
def LEDStore.call (fuel : Nat) (σ : LEDStore) : LEDCall → Option LEDStore
  | .on p => LED.on fuel σ p
  | .off p => LED.off fuel σ p
  | .blink p duration now => LED.blink fuel duration now σ p
  | .interact p now => LED.interact fuel now σ p

/-- Effect of a sequence of calls, oldest first. -/
def LEDStore.calls (fuel : Nat) (σ : LEDStore) : List LEDCall → Option LEDStore
  | [] => some σ
  | c :: cs =>
    match σ.call fuel c with
    | some σ1 => LEDStore.calls fuel σ1 cs
    | none => none

/-- The commands `on()`, `off()` and `blink(p)` on the LED at address `a`. -/
def LEDCall.isCommandOn (a : Nat) : LEDCall → Bool
  | .on p => p == a
  | .off p => p == a
  | .blink p _ _ => p == a
  | .interact _ _ => false

/-- The calls `a.on()`, `a.off()`, `a.blink(p)`, `a.interact()` and
`b.interact()`. -/
def LEDCall.isMirrorCall (a b : Nat) : LEDCall → Bool
  | .on p => p == a
  | .off p => p == a
  | .blink p _ _ => p == a
  | .interact p _ => p == a || p == b

/-- The pin of `b` carries the negation of the level on the pin of `a`. -/
def LEDStore.Opposed (σ : LEDStore) (a b : Nat) : Prop :=
  ((σ a).pinOut = HIGH ∧ (σ b).pinOut = LOW) ∨ ((σ a).pinOut = LOW ∧ (σ b).pinOut = HIGH)

/-- The mirror relation from `a` to `b` in a settled state: `b` is the peer of
`a` and has no peer itself, `b` does not blink, `_isOff` of `a` agrees with the
pin of `a`, and the pin of `b` carries the opposite level. -/
def LEDStore.Mirrored (σ : LEDStore) (a b : Nat) : Prop :=
  (σ a)._opposite = some b ∧ (σ b)._opposite = none ∧ (σ b)._state ≠ LED.BLINK
  ∧ (((σ a)._isOff = true ∧ (σ a).pinOut = LOW ∧ (σ b).pinOut = HIGH)
    ∨ ((σ a)._isOff = false ∧ (σ a).pinOut = HIGH ∧ (σ b).pinOut = LOW))

/-- The phase flag `_isOff` of the LED agrees with the level on its pin. -/
def LED.InPhase (l : LED) : Prop :=
  (l._isOff = true ∧ l.pinOut = LOW) ∨ (l._isOff = false ∧ l.pinOut = HIGH)

/-- The polls of the LED at address `p` made at the given clock values. -/
def LEDCall.polls (p : Nat) (ts : List Nat) : List LEDCall :=
  ts.map (LEDCall.interact p)

/-! ## Calls made by the driver loop on a door and its two indicators -/

/-- One call of the driver: a call of a public method of the door, or a poll
(`LED::interact`) of its red or green LED. -/
inductive DriverCall where
  | door (op : Op)
  | pollRed (now : Nat)
  | pollGreen (now : Nat)
  deriving DecidableEq, Repr

/-- Effect of one driver call. -/
def Door.drive (fuel : Nat) (d : Door) : DriverCall → Option Door
  | .door op => d.step fuel op
  | .pollRed now => (LED.interact fuel now d.leds d._redLED).map fun σ => { d with leds := σ }
  | .pollGreen now => (LED.interact fuel now d.leds d._greenLED).map fun σ => { d with leds := σ }

/-- Effect of a sequence of driver calls, oldest first. -/
def Door.drives (fuel : Nat) (d : Door) : List DriverCall → Option Door
  | [] => some d
  | c :: cs =>
    match d.drive fuel c with
    | some d1 => d1.drives fuel cs
    | none => none

/-- Every driver call of the sequence returns, and after each of them the
door is in state `s`. -/
def Door.drivesStayIn (s fuel : Nat) : Door → List DriverCall → Bool
  | _, [] => true
  | d, c :: cs =>
    match d.drive fuel c with
    | some d1 => d1._state == s && Door.drivesStayIn s fuel d1 cs
    | none => false

/-- The driver call is `autoCloseOn()` on the door. -/
def DriverCall.isAutoCloseOn : DriverCall → Bool
  | .door (.autoCloseOn _) => true
  | _ => false

/-- The red and the green LED are two LEDs without mirror peer, at most one of
them is not `OFF`, the red one is `OFF` while the door is opening or open and
the green one is `OFF` while the door is closing or closed. -/
def Door.IndicatorInv (d : Door) : Prop :=
  d.NoPeers ∧ d._redLED ≠ d._greenLED
  ∧ ((d.leds d._redLED)._state = LED.OFF ∨ (d.leds d._greenLED)._state = LED.OFF)
  ∧ ((d._state = OPENING ∨ d._state = OPEN) → (d.leds d._redLED)._state = LED.OFF)
  ∧ ((d._state = CLOSING ∨ d._state = CLOSED) → (d.leds d._greenLED)._state = LED.OFF)

/-! ## Sample objects used to exercise the theorems -/

/-- An LED object with no mirror peer, off. -/
def sampleLED : LED :=
  { _pin := 0, _state := LED.OFF, _duration := 0, _isOff := false,
    _timeLastChange := 0, _opposite := none, pinOut := LOW }

/-- A store in which no LED has a mirror peer. -/
def sampleStore : LEDStore := fun _ => sampleLED

/-- A door built on pins 2 to 5 with the red LED at address 10 and the green
LED at address 11, both limit-switch pins reading `LOW`, at clock value 0. -/
def sampleDoor : Door := Door.new 2 3 4 5 10 11 LOW LOW 0 0 sampleStore

/-- The sample door after `openDoor(false)` at clock value 0. -/
def sampleOpeningDoor : Door := (sampleDoor.openDoor 1 false 0).getD sampleDoor

/-- The sample door after `openDoor(false)` at clock value 0 and an
`interact()` at clock value 120001 with both limit switches released: the
jam check has halted it. -/
def sampleHaltedDoor : Door := (sampleOpeningDoor.interact 1 LOW LOW 120001).getD sampleDoor

/-- A poll at clock value 120000 with both limit switches released. -/
def samplePollsBefore : List Poll := [{ closedRead := LOW, openRead := LOW, now := 120000 }]

/-- A poll at clock value 120001 with both limit switches released. -/
def samplePollJam : Poll := { closedRead := LOW, openRead := LOW, now := 120001 }

/-- Two later polls, at clock values 120002 and 500000. -/
def samplePollsAfter : List Poll :=
  [{ closedRead := LOW, openRead := LOW, now := 120002 },
   { closedRead := LOW, openRead := HIGH, now := 500000 }]

/-- A fresh normally-closed button on pin 2. -/
def sampleButton : Button := Button.new true 2 false

/-- A fresh normally-closed button on pin 2 with a registered callback. -/
def sampleCallbackButton : Button := Button.new true 2 true

/-- A store in which address 10 holds an LED just constructed on pin 13 with
`initialState` `LOW`, its unassigned fields being zero, and every other
address an LED without mirror peer. -/
def sampleFreshStore : LEDStore := Function.update sampleStore 10 (LED.new 13 LOW sampleLED)

/-- The sample store after `on()` on the LED at address 10. -/
def sampleOnStore : LEDStore := (sampleStore.call 1 (LEDCall.on 10)).getD sampleStore

/-- The sample store after `on()` on the LED at address 10 followed by
`setOpposite` making the LED at address 11 its mirror peer. -/
def sampleMirrorStore : LEDStore := (LED.setOpposite 1 sampleOnStore 10 11).getD sampleStore

/-- The store in which `setOpposite` called on the LED at address 11 with the
address 10 finds itself once it has executed its assignment
`_opposite = opposite`, the sample store being the one in which the LED at
address 10 already mirrors the one at address 11: the two LEDs mirror each
other. -/
def sampleCycleStore : LEDStore :=
  Function.update sampleMirrorStore 11 { sampleMirrorStore 11 with _opposite := some 10 }

/-- The sample store after `blink(100)` at clock value 1000 on the LED at
address 10. -/
def sampleBlinkStore : LEDStore := (LED.blink 1 100 1000 sampleStore 10).getD sampleStore

/-- The sample door whose open-limit pin has read `HIGH` at clock value 10 and
which was then opened at clock value 20. -/
def sampleLateDoor : Door :=
  ((sampleDoor.interact 1 LOW HIGH 10).bind (fun d => d.openDoor 1 false 20)).getD sampleDoor

/-- The sample door while opening, with a motion-start timestamp 296 ms before
the rollover of the 32-bit clock. -/
def sampleRolloverDoor : Door := { sampleOpeningDoor with _motorStartTime := 4294967000 }

/-- The sample door after `openDoor(false)` at clock value 7. -/
def sampleOpenedDoor : Door := (sampleDoor.openDoor 1 false 7).getD sampleDoor

/-- Driver calls made while the sample door opens: an `interact()` at clock
value 500 with both limit switches released, a poll of the green LED at 1007
(its blink period has elapsed, it toggles), a poll of the red LED at 1010 and
an `interact()` at 2000 in which the open-limit pin first reads `HIGH`. -/
def sampleOpeningCalls : List DriverCall :=
  [DriverCall.door (Op.interact LOW LOW 500), DriverCall.pollGreen 1007,
   DriverCall.pollRed 1010, DriverCall.door (Op.interact LOW HIGH 2000)]

/-- The sample door after `openDoor(false)` at clock value 7 and the calls made
while it opens. -/
def sampleTravellingDoor : Door :=
  (sampleOpenedDoor.drives 1 sampleOpeningCalls).getD sampleDoor

/-- The sample door after `closeDoor(true)` at clock value 20. -/
def sampleClosingDoor : Door := (sampleDoor.closeDoor 1 true 20).getD sampleDoor

/-- Driver calls made while the sample door closes: an `interact()` at clock
value 100 with both limit switches released, a poll of the red LED at 1020
(its blink period has elapsed, it toggles), a poll of the green LED at 1030 and
an `interact()` at 5000 in which the closed-limit pin first reads `HIGH`. -/
def sampleClosingCalls : List DriverCall :=
  [DriverCall.door (Op.interact LOW LOW 100), DriverCall.pollRed 1020,
   DriverCall.pollGreen 1030, DriverCall.door (Op.interact HIGH LOW 5000)]

/-- The sample door after `closeDoor(true)` at clock value 20 and the calls
made while it closes. -/
def sampleArrivingDoor : Door :=
  (sampleClosingDoor.drives 1 sampleClosingCalls).getD sampleDoor

/-- The sample door once the `interact()` at clock value 5051 has found the
closed-limit button debounced-pressed. -/
def sampleClosedDoor : Door := (sampleArrivingDoor.interact 1 HIGH LOW 5051).getD sampleDoor

/-- Driver calls made while the sample door rests closed: a poll of the red
LED at clock value 5400 (its fast-blink period has elapsed, it toggles) and an
`interact()` at 5500. -/
def sampleClosedCalls : List DriverCall :=
  [DriverCall.pollRed 5400, DriverCall.door (Op.interact HIGH LOW 5500)]

/-- The sample door, closed by hand, after the calls made while it rests. -/
def sampleRestingDoor : Door :=
  (sampleClosedDoor.drives 1 sampleClosedCalls).getD sampleDoor

/-! ## Theorems -/

/-! ### Unsigned clock arithmetic -/

theorem usub_self (a : Nat) : usub a a = 0 := by
  unfold usub
  have h : a % ULONG_RANGE < ULONG_RANGE := Nat.mod_lt _ (by decide)
  have e : a % ULONG_RANGE + (ULONG_RANGE - a % ULONG_RANGE) = ULONG_RANGE := by omega
  rw [e]; exact Nat.mod_self _

theorem usub_eq_sub {a b : Nat} (hba : b ≤ a) (ha : a < ULONG_RANGE) : usub a b = a - b := by
  unfold usub
  have hb : b < ULONG_RANGE := lt_of_le_of_lt hba ha
  rw [Nat.mod_eq_of_lt ha, Nat.mod_eq_of_lt hb]
  have e : a + (ULONG_RANGE - b) = (a - b) + ULONG_RANGE := by omega
  rw [e, Nat.add_mod_right]
  exact Nat.mod_eq_of_lt (by omega)

/-! ### Fields of a button after one poll -/

theorem Button.interact_state (r now : Nat) (b : Button) :
    (b.interact r now)._state =
      if usub now (if r ≠ b._previousState then now else b._lastDebounceTime) > b._debounceDelay
          ∧ b._state ≠ r then r % 256 else b._state := by
  unfold Button.interact
  by_cases h1 : r = b._previousState <;>
    by_cases h2 : usub now b._lastDebounceTime > b._debounceDelay <;>
    by_cases h3 : b._state = r <;>
    by_cases h4 : usub now now > b._debounceDelay <;>
    simp [h1, h2, h3, h4] <;> split_ifs <;> rfl

theorem Button.interact_previousState (r now : Nat) (b : Button) :
    (b.interact r now)._previousState = r % 256 := by
  unfold Button.interact
  rfl

theorem Button.interact_lastDebounceTime (r now : Nat) (b : Button) :
    (b.interact r now)._lastDebounceTime =
      if r ≠ b._previousState then now else b._lastDebounceTime := by
  unfold Button.interact
  by_cases h1 : r = b._previousState <;> simp [h1] <;> split_ifs <;> rfl

theorem Button.interact_normallyClosed (r now : Nat) (b : Button) :
    (b.interact r now)._normallyClosed = b._normallyClosed := by
  unfold Button.interact
  by_cases h1 : r = b._previousState <;> simp [h1] <;> split_ifs <;> rfl

theorem Button.interact_debounceDelay (r now : Nat) (b : Button) :
    (b.interact r now)._debounceDelay = b._debounceDelay := by
  unfold Button.interact
  by_cases h1 : r = b._previousState <;> simp [h1] <;> split_ifs <;> rfl

/-! ### A button polled for the first time -/

/-- The first `interact()` on a freshly constructed button never leaves it
pressed: a `LOW` or `HIGH` sample differs from the initial `_previousState`
(77), so the debounce timer restarts at `now` and nothing is committed. -/
theorem Button.new_interact_isPressed (normallyClosed : Bool) (pin : Nat) (cb : Bool)
    (stateRead now : Nat) :
    ((Button.new normallyClosed pin cb).interact stateRead now).isPressed = false := by
  have hs := Button.interact_state stateRead now (Button.new normallyClosed pin cb)
  have hn := Button.interact_normallyClosed stateRead now (Button.new normallyClosed pin cb)
  unfold Button.isPressed
  rw [hn, hs]
  by_cases h : stateRead = 77
  · subst h
    cases normallyClosed <;> simp [Button.new] <;> split_ifs <;> simp
  · cases normallyClosed <;> simp [Button.new, h, usub_self]

/-! ### LEDs without a mirror peer -/

theorem LED.on_noPeer (fuel : Nat) (σ : LEDStore) (p : Nat) (h : (σ p)._opposite = none) :
    LED.on (fuel + 1) σ p =
      some (Function.update σ p
        { σ p with pinOut := HIGH, _state := LED.ON, _isOff := false }) := by
  simp [LED.on, h]

theorem LED.off_noPeer (fuel : Nat) (σ : LEDStore) (p : Nat) (h : (σ p)._opposite = none) :
    LED.off (fuel + 1) σ p =
      some (Function.update σ p
        { σ p with pinOut := LOW, _state := LED.OFF, _isOff := true }) := by
  simp [LED.off, h]

theorem LED.blink_noPeer (fuel : Nat) (duration : Int) (now : Nat) (σ : LEDStore) (p : Nat)
    (h : (σ p)._opposite = none) :
    LED.blink (fuel + 1) duration now σ p =
      some (Function.update σ p
        { σ p with
          pinOut := LOW, _state := LED.BLINK, _isOff := true
          _duration := duration, _timeLastChange := now }) := by
  simp only [LED.blink]
  rw [LED.off_noPeer _ _ _ (by simp [h])]
  simp

/-! ### What one call changes in a door -/

theorem Door.changeLEDState_eq_some {fuel now : Nat} {d d1 : Door}
    (h : d.changeLEDState fuel now = some d1) : ∃ σ, d1 = { d with leds := σ } := by
  unfold Door.changeLEDState at h
  split_ifs at h
  all_goals first
    | (rw [Option.map_eq_some'] at h
       obtain ⟨σ, -, rfl⟩ := h
       exact ⟨σ, rfl⟩)
    | (cases h; exact ⟨d.leds, rfl⟩)

theorem Door.openDoor_eq_some {fuel : Nat} {manual : Bool} {now : Nat} {d d1 : Door}
    (h : d.openDoor fuel manual now = some d1) :
    (d._state ≠ OPEN ∧ d._state ≠ OPENING ∧
      ∃ σ, d1 = { d with
        _state := OPENING, _motor := d._motor.start FORWARDS 255
        _motorStartTime := now, leds := σ, _manualOverride := manual })
    ∨ ((d._state = OPEN ∨ d._state = OPENING) ∧ d1 = d) := by
  unfold Door.openDoor at h
  split_ifs at h with hg
  · left
    refine ⟨hg.1, hg.2, ?_⟩
    split at h
    · cases h
    · split at h
      · cases h
      · cases h; exact ⟨_, rfl⟩
  · right
    cases h
    exact ⟨by omega, rfl⟩

theorem Door.closeDoor_eq_some {fuel : Nat} {manual : Bool} {now : Nat} {d d1 : Door}
    (h : d.closeDoor fuel manual now = some d1) :
    (d._state ≠ CLOSED ∧ d._state ≠ CLOSING ∧
      ∃ σ, d1 = { d with
        _state := CLOSING, _motor := d._motor.start BACKWARDS 255
        _motorStartTime := now, leds := σ, _manualOverride := manual })
    ∨ ((d._state = CLOSED ∨ d._state = CLOSING) ∧ d1 = d) := by
  unfold Door.closeDoor at h
  split_ifs at h with hg
  · left
    refine ⟨hg.1, hg.2, ?_⟩
    split at h
    · cases h
    · split at h
      · cases h
      · cases h; exact ⟨_, rfl⟩
  · right
    cases h
    exact ⟨by omega, rfl⟩

theorem Door.stop_eq_some {fuel : Nat} {d d1 : Door} (h : d.stop fuel = some d1) :
    ∃ σ, d1 = { d with _motor := d._motor.stop, leds := σ } := by
  unfold Door.stop at h
  split at h
  · cases h
  · split at h
    · cases h
    · cases h; exact ⟨_, rfl⟩

theorem Door.autoCloseOn_eq_some {fuel now : Nat} {d d1 : Door}
    (h : d.autoCloseOn fuel now = some d1) :
    ∃ σ, d1 = { d with _manualOverride := false, leds := σ } := by
  unfold Door.autoCloseOn at h
  obtain ⟨σ, rfl⟩ := Door.changeLEDState_eq_some h
  exact ⟨σ, rfl⟩

theorem Door.interact_eq_some {fuel closedRead openRead now : Nat} {d d1 : Door}
    (h : d.interact fuel closedRead openRead now = some d1) :
    (d._state = OPENING ∧ (d._openButton.interact openRead now).isPressed = true ∧
      ∃ σ, d1 = { d.poll closedRead openRead now with
        _state := OPEN, _motor := d._motor.stop, leds := σ })
    ∨ (d._state = OPENING ∧ (d._openButton.interact openRead now).isPressed = false ∧
      d1 = (d.poll closedRead openRead now).checkForJam now)
    ∨ (d._state = CLOSING ∧ (d._closedButton.interact closedRead now).isPressed = true ∧
      ∃ σ, d1 = { d.poll closedRead openRead now with
        _state := CLOSED, _motor := d._motor.stop, leds := σ })
    ∨ (d._state = CLOSING ∧ (d._closedButton.interact closedRead now).isPressed = false ∧
      d1 = (d.poll closedRead openRead now).checkForJam now)
    ∨ (d._state ≠ OPENING ∧ d._state ≠ CLOSING ∧ d1 = d.poll closedRead openRead now) := by
  unfold Door.interact at h
  simp only at h
  split_ifs at h with h1 h2 h3 h4
  · obtain ⟨σ, rfl⟩ := Door.changeLEDState_eq_some h
    exact Or.inl ⟨h1, h2, σ, rfl⟩
  · cases h
    exact Or.inr (Or.inl ⟨h1, by simpa using h2, rfl⟩)
  · obtain ⟨σ, rfl⟩ := Door.changeLEDState_eq_some h
    exact Or.inr (Or.inr (Or.inl ⟨h3, h4, σ, rfl⟩))
  · cases h
    exact Or.inr (Or.inr (Or.inr (Or.inl ⟨h3, by simpa using h4, rfl⟩)))
  · cases h
    exact Or.inr (Or.inr (Or.inr (Or.inr ⟨h1, h3, rfl⟩)))

/-! ### C1: the state seeded by the constructor -/

/-- C1 (evaluation of the code): a door constructed while the closed-limit pin
reads `HIGH` (pressed) and the open-limit pin reads `LOW` is in state
`UNKNOWN`, not `CLOSED`, whatever the clock value; its motor has not been
started and the LED store is untouched. -/
theorem Door.new_closed_pressed_state_unknown
    (closedButtonPin openButtonPin motorDirectionPin motorSpeedPin redLED greenLED : Nat)
    (now rawStartTime : Nat) (σ : LEDStore) :
    (Door.new closedButtonPin openButtonPin motorDirectionPin motorSpeedPin redLED greenLED
        HIGH LOW now rawStartTime σ)._state = UNKNOWN
    ∧ (Door.new closedButtonPin openButtonPin motorDirectionPin motorSpeedPin redLED greenLED
        HIGH LOW now rawStartTime σ)._closedButton.isPressed = false
    ∧ (Door.new closedButtonPin openButtonPin motorDirectionPin motorSpeedPin redLED greenLED
        HIGH LOW now rawStartTime σ)._motor.startCalls = 0
    ∧ (Door.new closedButtonPin openButtonPin motorDirectionPin motorSpeedPin redLED greenLED
        HIGH LOW now rawStartTime σ).leds = σ := by
  simp [Door.new, Button.new_interact_isPressed, Motor.new]

/-! ### Reachable states -/

theorem Door.new_state (closedButtonPin openButtonPin motorDirectionPin motorSpeedPin : Nat)
    (redLED greenLED closedRead openRead now rawStartTime : Nat) (σ : LEDStore) :
    (Door.new closedButtonPin openButtonPin motorDirectionPin motorSpeedPin redLED greenLED
      closedRead openRead now rawStartTime σ)._state = UNKNOWN := by
  simp [Door.new, Button.new_interact_isPressed]

theorem Door.new_motor (closedButtonPin openButtonPin motorDirectionPin motorSpeedPin : Nat)
    (redLED greenLED closedRead openRead now rawStartTime : Nat) (σ : LEDStore) :
    (Door.new closedButtonPin openButtonPin motorDirectionPin motorSpeedPin redLED greenLED
      closedRead openRead now rawStartTime σ)._motor =
      Motor.new motorDirectionPin motorSpeedPin := rfl

theorem Door.run_reachable {allowed : Op → Bool} {fuel : Nat} (ops : List Op) :
    ∀ {d d1 : Door}, Door.Reachable allowed d → (∀ op ∈ ops, allowed op = true) →
      d.run fuel ops = some d1 → Door.Reachable allowed d1 := by
  induction ops with
  | nil =>
    intro d d1 hd _ h
    simp only [Door.run] at h
    cases h
    exact hd
  | cons op ops ih =>
    intro d d1 hd hall h
    simp only [Door.run] at h
    cases hstep : d.step fuel op with
    | none => rw [hstep] at h; cases h
    | some d2 =>
      rw [hstep] at h
      exact ih (Door.Reachable.step fuel op hd (hall op (List.mem_cons_self _ _)) hstep)
        (fun o ho => hall o (List.mem_cons_of_mem _ ho)) h

theorem Door.step_motorInv {fuel : Nat} {op : Op} {d d1 : Door}
    (hinv : d.MotorInv) (h : d.step fuel op = some d1) : d1.MotorInv := by
  unfold Door.MotorInv at hinv ⊢
  cases op with
  | interact c o now =>
    rcases Door.interact_eq_some h with ⟨_, _, σ, rfl⟩ | ⟨h1, _, rfl⟩ | ⟨_, _, σ, rfl⟩ |
      ⟨h1, _, rfl⟩ | ⟨h1, h2, rfl⟩
    · simp [Motor.stop]
    · simp only [Door.checkForJam, Door.poll]
      split_ifs
      · simp [Motor.stop]
      · simpa using hinv
    · simp [Motor.stop]
    · simp only [Door.checkForJam, Door.poll]
      split_ifs
      · simp [Motor.stop]
      · simpa using hinv
    · simpa [Door.poll] using hinv
  | openDoor m now =>
    rcases Door.openDoor_eq_some h with ⟨_, _, σ, rfl⟩ | ⟨_, rfl⟩
    · simp [Motor.start]
    · exact hinv
  | closeDoor m now =>
    rcases Door.closeDoor_eq_some h with ⟨_, _, σ, rfl⟩ | ⟨_, rfl⟩
    · simp [Motor.start]
    · exact hinv
  | autoCloseOn now =>
    obtain ⟨σ, rfl⟩ := Door.autoCloseOn_eq_some h
    simpa using hinv
  | changeLEDState now =>
    obtain ⟨σ, rfl⟩ := Door.changeLEDState_eq_some h
    simpa using hinv
  | stop =>
    obtain ⟨σ, rfl⟩ := Door.stop_eq_some h
    simp [Motor.stop]

theorem Door.reachable_motorInv {allowed : Op → Bool} {d : Door}
    (h : Door.Reachable allowed d) : d.MotorInv := by
  induction h with
  | init => simp [Door.MotorInv, Door.new_motor, Motor.new]
  | step fuel op _ _ hstep ih => exact Door.step_motorInv ih hstep

theorem Door.step_motorIff {fuel : Nat} {op : Op} {d d1 : Door}
    (hinv : d.MotorIff) (hop : op ≠ Op.stop) (h : d.step fuel op = some d1) : d1.MotorIff := by
  unfold Door.MotorIff at hinv ⊢
  cases op with
  | interact c o now =>
    rcases Door.interact_eq_some h with ⟨_, _, σ, rfl⟩ | ⟨h1, _, rfl⟩ | ⟨_, _, σ, rfl⟩ |
      ⟨h1, _, rfl⟩ | ⟨h1, h2, rfl⟩
    · simp [Motor.stop]
    · simp only [Door.checkForJam, Door.poll]
      split_ifs
      · simp [Motor.stop]
      · simpa using hinv
    · simp [Motor.stop]
    · simp only [Door.checkForJam, Door.poll]
      split_ifs
      · simp [Motor.stop]
      · simpa using hinv
    · simpa [Door.poll] using hinv
  | openDoor m now =>
    rcases Door.openDoor_eq_some h with ⟨_, _, σ, rfl⟩ | ⟨_, rfl⟩
    · simp [Motor.start]
    · exact hinv
  | closeDoor m now =>
    rcases Door.closeDoor_eq_some h with ⟨_, _, σ, rfl⟩ | ⟨_, rfl⟩
    · simp [Motor.start]
    · exact hinv
  | autoCloseOn now =>
    obtain ⟨σ, rfl⟩ := Door.autoCloseOn_eq_some h
    simpa using hinv
  | changeLEDState now =>
    obtain ⟨σ, rfl⟩ := Door.changeLEDState_eq_some h
    simpa using hinv
  | stop => exact absurd rfl hop

theorem Door.reachable_motorIff {d : Door}
    (h : Door.Reachable Op.isCommandNoStop d) : d.MotorIff := by
  induction h with
  | init => simp [Door.MotorIff, Door.new_motor, Door.new_state, Motor.new]
  | step fuel op _ hop hstep ih =>
    refine Door.step_motorIff ih ?_ hstep
    rintro rfl
    simp [Op.isCommandNoStop] at hop

/-! ### The mirror relation is not changed by LED commands -/

theorem LEDStore.SamePeers.refl (σ : LEDStore) : LEDStore.SamePeers σ σ := fun _ => rfl

theorem LEDStore.SamePeers.trans {σ σ1 σ2 : LEDStore}
    (h1 : LEDStore.SamePeers σ σ1) (h2 : LEDStore.SamePeers σ1 σ2) :
    LEDStore.SamePeers σ σ2 := fun q => (h2 q).trans (h1 q)

theorem LEDStore.SamePeers.update (σ : LEDStore) (p : Nat) (l : LED)
    (h : l._opposite = (σ p)._opposite) : LEDStore.SamePeers σ (Function.update σ p l) := by
  intro q
  by_cases e : q = p
  · subst e; simpa using h
  · simp [Function.update_noteq e]

theorem LED.on_off_samePeers (fuel : Nat) :
    ∀ (σ : LEDStore) (p : Nat) (σ1 : LEDStore),
      (LED.on fuel σ p = some σ1 → LEDStore.SamePeers σ σ1)
      ∧ (LED.off fuel σ p = some σ1 → LEDStore.SamePeers σ σ1) := by
  induction fuel with
  | zero =>
    intro σ p σ1
    constructor <;> intro h <;> simp [LED.on, LED.off] at h
  | succ n ih =>
    intro σ p σ1
    constructor
    · intro h
      simp only [LED.on] at h
      have hu := LEDStore.SamePeers.update σ p
        { σ p with pinOut := HIGH, _state := LED.ON, _isOff := false } rfl
      split at h
      · exact hu.trans ((ih _ _ _).2 h)
      · cases h; exact hu
    · intro h
      simp only [LED.off] at h
      have hu := LEDStore.SamePeers.update σ p
        { σ p with pinOut := LOW, _state := LED.OFF, _isOff := true } rfl
      split at h
      · exact hu.trans ((ih _ _ _).1 h)
      · cases h; exact hu

theorem LED.on_samePeers {fuel : Nat} {σ σ1 : LEDStore} {p : Nat}
    (h : LED.on fuel σ p = some σ1) : LEDStore.SamePeers σ σ1 :=
  (LED.on_off_samePeers fuel σ p σ1).1 h

theorem LED.off_samePeers {fuel : Nat} {σ σ1 : LEDStore} {p : Nat}
    (h : LED.off fuel σ p = some σ1) : LEDStore.SamePeers σ σ1 :=
  (LED.on_off_samePeers fuel σ p σ1).2 h

theorem LED.blink_samePeers {fuel : Nat} {duration : Int} {now : Nat} {σ σ1 : LEDStore}
    {p : Nat} (h : LED.blink fuel duration now σ p = some σ1) : LEDStore.SamePeers σ σ1 := by
  simp only [LED.blink] at h
  have hu := LEDStore.SamePeers.update σ p
    { σ p with _duration := duration, _isOff := true, _timeLastChange := now } rfl
  split at h
  · next σ2 hoff =>
    cases h
    exact (hu.trans (LED.off_samePeers hoff)).trans
      (LEDStore.SamePeers.update σ2 p { σ2 p with _state := LED.BLINK } rfl)
  · cases h

theorem Door.changeLEDState_samePeers {fuel now : Nat} {d d1 : Door}
    (h : d.changeLEDState fuel now = some d1) : LEDStore.SamePeers d.leds d1.leds := by
  unfold Door.changeLEDState at h
  split_ifs at h
  all_goals first
    | (rw [Option.map_eq_some'] at h
       obtain ⟨σ, hσ, rfl⟩ := h
       first
         | exact LED.blink_samePeers hσ
         | exact LED.on_samePeers hσ)
    | (cases h; exact LEDStore.SamePeers.refl _)

theorem Door.step_samePeers {fuel : Nat} {op : Op} {d d1 : Door}
    (h : d.step fuel op = some d1) :
    d1._redLED = d._redLED ∧ d1._greenLED = d._greenLED
    ∧ LEDStore.SamePeers d.leds d1.leds := by
  cases op with
  | interact c o now =>
    simp only [Door.step, Door.interact] at h
    split_ifs at h
    · have hp := Door.changeLEDState_samePeers h
      obtain ⟨σ, rfl⟩ := Door.changeLEDState_eq_some h
      exact ⟨rfl, rfl, hp⟩
    · cases h
      simp only [Door.checkForJam]
      split_ifs <;> exact ⟨rfl, rfl, LEDStore.SamePeers.refl _⟩
    · have hp := Door.changeLEDState_samePeers h
      obtain ⟨σ, rfl⟩ := Door.changeLEDState_eq_some h
      exact ⟨rfl, rfl, hp⟩
    · cases h
      simp only [Door.checkForJam]
      split_ifs <;> exact ⟨rfl, rfl, LEDStore.SamePeers.refl _⟩
    · cases h
      exact ⟨rfl, rfl, LEDStore.SamePeers.refl _⟩
  | openDoor m now =>
    simp only [Door.step, Door.openDoor] at h
    split_ifs at h
    · split at h
      · cases h
      · next σ1 h1 =>
        split at h
        · cases h
        · next σ2 h2 =>
          cases h
          exact ⟨rfl, rfl, (LED.off_samePeers h1).trans (LED.blink_samePeers h2)⟩
    · cases h; exact ⟨rfl, rfl, LEDStore.SamePeers.refl _⟩
  | closeDoor m now =>
    simp only [Door.step, Door.closeDoor] at h
    split_ifs at h
    · split at h
      · cases h
      · next σ1 h1 =>
        split at h
        · cases h
        · next σ2 h2 =>
          cases h
          exact ⟨rfl, rfl, (LED.off_samePeers h1).trans (LED.blink_samePeers h2)⟩
    · cases h; exact ⟨rfl, rfl, LEDStore.SamePeers.refl _⟩
  | autoCloseOn now =>
    have hp := @Door.changeLEDState_samePeers fuel now { d with _manualOverride := false } d1 h
    obtain ⟨σ, rfl⟩ := Door.autoCloseOn_eq_some h
    exact ⟨rfl, rfl, hp⟩
  | changeLEDState now =>
    have hp := @Door.changeLEDState_samePeers fuel now d d1 h
    obtain ⟨σ, rfl⟩ := Door.changeLEDState_eq_some h
    exact ⟨rfl, rfl, hp⟩
  | stop =>
    simp only [Door.step, Door.stop] at h
    split at h
    · cases h
    · next σ1 h1 =>
      split at h
      · cases h
      · next σ2 h2 =>
        cases h
        exact ⟨rfl, rfl, (LED.off_samePeers h1).trans (LED.off_samePeers h2)⟩

/-! ### Commands on a door whose LEDs have no mirror peer -/

theorem Door.openDoor_noPeers (fuel : Nat) (manual : Bool) (now : Nat) (d : Door)
    (hs : d._state ≠ OPEN ∧ d._state ≠ OPENING) (h : d.NoPeers) :
    ∃ σ, d.openDoor (fuel + 1) manual now =
        some { d with
          _state := OPENING, _motor := d._motor.start FORWARDS 255
          _motorStartTime := now, leds := σ, _manualOverride := manual }
      ∧ LEDStore.SamePeers d.leds σ
      ∧ (σ d._greenLED)._state = LED.BLINK ∧ (σ d._greenLED)._duration = 1000
      ∧ (σ d._greenLED).pinOut = LOW ∧ (σ d._greenLED)._timeLastChange = now
      ∧ (d._redLED ≠ d._greenLED →
          (σ d._redLED)._state = LED.OFF ∧ (σ d._redLED).pinOut = LOW) := by
  obtain ⟨cb, ob, m, r, g, st, t0, ov, hc, σ⟩ := d
  obtain ⟨hr, hg⟩ := h
  simp only at hr hg hs
  have hg1 : (Function.update σ r
      { σ r with pinOut := LOW, _state := LED.OFF, _isOff := true } g)._opposite = none := by
    by_cases e : g = r
    · subst e; simpa using hr
    · simpa [Function.update_noteq e] using hg
  unfold Door.openDoor
  simp only
  rw [if_pos hs, LED.off_noPeer _ _ _ hr]
  simp only [LED.slowBlink]
  rw [LED.blink_noPeer _ _ _ _ _ hg1]
  refine ⟨_, rfl, ?_, ?_, ?_, ?_, ?_, ?_⟩
  · refine LEDStore.SamePeers.trans (LEDStore.SamePeers.update σ r _ ?_)
      (LEDStore.SamePeers.update _ g _ ?_) <;> rfl
  · simp
  · simp
  · simp
  · simp
  · intro e
    simp [Function.update_noteq e]

theorem Door.closeDoor_noPeers (fuel : Nat) (manual : Bool) (now : Nat) (d : Door)
    (hs : d._state ≠ CLOSED ∧ d._state ≠ CLOSING) (h : d.NoPeers) :
    ∃ σ, d.closeDoor (fuel + 1) manual now =
        some { d with
          _state := CLOSING, _motor := d._motor.start BACKWARDS 255
          _motorStartTime := now, leds := σ, _manualOverride := manual }
      ∧ LEDStore.SamePeers d.leds σ
      ∧ (σ d._redLED)._state = LED.BLINK ∧ (σ d._redLED)._duration = 1000
      ∧ (σ d._redLED).pinOut = LOW ∧ (σ d._redLED)._timeLastChange = now
      ∧ (d._redLED ≠ d._greenLED →
          (σ d._greenLED)._state = LED.OFF ∧ (σ d._greenLED).pinOut = LOW) := by
  obtain ⟨cb, ob, m, r, g, st, t0, ov, hc, σ⟩ := d
  obtain ⟨hr, hg⟩ := h
  simp only at hr hg hs
  have hr1 : (Function.update σ g
      { σ g with pinOut := LOW, _state := LED.OFF, _isOff := true } r)._opposite = none := by
    by_cases e : r = g
    · subst e; simpa using hg
    · simpa [Function.update_noteq e] using hr
  unfold Door.closeDoor
  simp only
  rw [if_pos hs, LED.off_noPeer _ _ _ hg]
  simp only [LED.slowBlink]
  rw [LED.blink_noPeer _ _ _ _ _ hr1]
  refine ⟨_, rfl, ?_, ?_, ?_, ?_, ?_, ?_⟩
  · refine LEDStore.SamePeers.trans (LEDStore.SamePeers.update σ g _ ?_)
      (LEDStore.SamePeers.update _ r _ ?_) <;> rfl
  · simp
  · simp
  · simp
  · simp
  · intro e
    simp [Function.update_noteq (Ne.symm e)]

theorem Door.changeLEDState_noPeers (fuel now : Nat) (d : Door) (h : d.NoPeers) :
    ∃ σ, d.changeLEDState (fuel + 1) now = some { d with leds := σ }
      ∧ LEDStore.SamePeers d.leds σ
      ∧ (d._state = OPEN → d._manualOverride = false →
          (σ d._greenLED)._state = LED.ON ∧ (σ d._greenLED).pinOut = HIGH)
      ∧ (d._state = OPEN → d._manualOverride = true →
          (σ d._greenLED)._state = LED.BLINK ∧ (σ d._greenLED)._duration = 250)
      ∧ (d._state = CLOSED → d._manualOverride = false →
          (σ d._redLED)._state = LED.ON ∧ (σ d._redLED).pinOut = HIGH)
      ∧ (d._state = CLOSED → d._manualOverride = true →
          (σ d._redLED)._state = LED.BLINK ∧ (σ d._redLED)._duration = 250) := by
  obtain ⟨cb, ob, m, r, g, st, t0, ov, hc, σ⟩ := d
  obtain ⟨hr, hg⟩ := h
  simp only at hr hg
  unfold Door.changeLEDState
  simp only [LED.fastBlink]
  by_cases h1 : st = OPEN
  · subst h1
    cases ov
    · simp only [if_true, Bool.false_eq_true, if_false]
      rw [LED.on_noPeer _ _ _ hg]
      refine ⟨_, rfl, LEDStore.SamePeers.update _ _ _ rfl, ?_, ?_, ?_, ?_⟩ <;> simp
    · simp only [if_true]
      rw [LED.blink_noPeer _ _ _ _ _ hg]
      refine ⟨_, rfl, LEDStore.SamePeers.update _ _ _ rfl, ?_, ?_, ?_, ?_⟩ <;> simp
  · by_cases h2 : st = CLOSED
    · subst h2
      cases ov
      · simp only [if_true, Bool.false_eq_true, if_false]
        rw [if_neg (by decide), LED.on_noPeer _ _ _ hr]
        refine ⟨_, rfl, LEDStore.SamePeers.update _ _ _ rfl, ?_, ?_, ?_, ?_⟩ <;> simp
      · simp only [if_true]
        rw [if_neg (by decide), LED.blink_noPeer _ _ _ _ _ hr]
        refine ⟨_, rfl, LEDStore.SamePeers.update _ _ _ rfl, ?_, ?_, ?_, ?_⟩ <;> simp
    · rw [if_neg h1, if_neg h2]
      exact ⟨σ, rfl, LEDStore.SamePeers.refl _, fun e => absurd e h1, fun e => absurd e h1,
        fun e => absurd e h2, fun e => absurd e h2⟩

theorem Door.commands_return_noPeers (fuel : Nat) (manual : Bool) (now : Nat) (d : Door)
    (h : d.NoPeers) :
    (d.openDoor (fuel + 1) manual now).isSome = true
    ∧ (d.closeDoor (fuel + 1) manual now).isSome = true := by
  constructor
  · by_cases hs : d._state ≠ OPEN ∧ d._state ≠ OPENING
    · obtain ⟨σ, ho, -⟩ := Door.openDoor_noPeers fuel manual now d hs h
      rw [ho]; rfl
    · unfold Door.openDoor
      rw [if_neg hs]; rfl
  · by_cases hs : d._state ≠ CLOSED ∧ d._state ≠ CLOSING
    · obtain ⟨σ, ho, -⟩ := Door.closeDoor_noPeers fuel manual now d hs h
      rw [ho]; rfl
    · unfold Door.closeDoor
      rw [if_neg hs]; rfl

theorem Door.stop_returns_noPeers (fuel : Nat) (d : Door) (h : d.NoPeers) :
    (d.stop (fuel + 1)).isSome = true := by
  obtain ⟨cb, ob, m, r, g, st, t0, ov, hc, σ⟩ := d
  obtain ⟨hr, hg⟩ := h
  simp only at hr hg
  have hg1 : (Function.update σ r
      { σ r with pinOut := LOW, _state := LED.OFF, _isOff := true } g)._opposite = none := by
    by_cases e : g = r
    · subst e; simpa using hr
    · simpa [Function.update_noteq e] using hg
  unfold Door.stop
  simp only
  rw [LED.off_noPeer _ _ _ hr]
  simp only
  rw [LED.off_noPeer _ _ _ hg1]
  rfl

/-! ### C2: motor running versus door in motion -/

/-- C2 (counterexample): after construction, `openDoor(false)` and `stop()`,
the door is in state `OPENING` while the motor is not running, so "running
iff Opening or Closing" fails in a reachable state. -/
theorem Door.motor_idle_while_opening_after_stop :
    ∃ d : Door, sampleDoor.run 1 [Op.openDoor false 0, Op.stop] = some d
      ∧ Door.Reachable Op.isCommand d
      ∧ d._state = OPENING ∧ d._motor.running = false
      ∧ ¬ (d._motor.running = true ↔ (d._state = OPENING ∨ d._state = CLOSING)) := by
  have hv : (sampleDoor.run 1 [Op.openDoor false 0, Op.stop]).map
      (fun d => (d._state, d._motor.running)) = some (OPENING, false) := by decide
  cases hr : sampleDoor.run 1 [Op.openDoor false 0, Op.stop] with
  | none => rw [hr] at hv; cases hv
  | some d =>
    rw [hr] at hv
    simp only [Option.map_some', Option.some.injEq, Prod.mk.injEq] at hv
    refine ⟨d, rfl, ?_, hv.1, hv.2, ?_⟩
    · refine Door.run_reachable _ (Door.Reachable.init 2 3 4 5 10 11 LOW LOW 0 0 sampleStore) ?_ hr
      intro op hop
      simp only [List.mem_cons, List.mem_singleton, List.not_mem_nil, or_false] at hop
      rcases hop with rfl | rfl <;> rfl
    · rw [hv.1, hv.2]; simp

/-- C2 (amended): in every state reachable from construction by `interact()`,
`openDoor(m)`, `closeDoor(m)`, `autoCloseOn()` and `stop()` calls, a running
motor implies state `OPENING` or `CLOSING`; and when the state was reached
without any `stop()` call, the motor runs if and only if the state is
`OPENING` or `CLOSING`. -/
theorem Door.motor_running_iff_moving_without_stop (d : Door)
    (h : Door.Reachable Op.isCommand d) :
    (d._motor.running = true → (d._state = OPENING ∨ d._state = CLOSING))
    ∧ (Door.Reachable Op.isCommandNoStop d →
        (d._motor.running = true ↔ (d._state = OPENING ∨ d._state = CLOSING))) := by
  refine ⟨fun hr => ?_, fun h2 => Door.reachable_motorIff h2⟩
  rcases Door.reachable_motorInv h hr with ⟨hs, _⟩ | ⟨hs, _⟩
  · exact Or.inl hs
  · exact Or.inr hs

/-- C2 (amended), exercised on the sample door after `openDoor(false)`, a state
reached without `stop()`: the motor runs and the state is `OPENING`. -/
theorem Door.motor_running_iff_moving_without_stop_witness :
    Door.Reachable Op.isCommand sampleOpeningDoor
    ∧ Door.Reachable Op.isCommandNoStop sampleOpeningDoor
    ∧ sampleOpeningDoor._motor.running = true
    ∧ (sampleOpeningDoor._motor.running = true ↔
        (sampleOpeningDoor._state = OPENING ∨ sampleOpeningDoor._state = CLOSING)) :=
  have hreach : Door.Reachable Op.isCommand sampleOpeningDoor :=
    Door.Reachable.step 1 (Op.openDoor false 0)
      (Door.Reachable.init 2 3 4 5 10 11 LOW LOW 0 0 sampleStore) rfl rfl
  have hreach2 : Door.Reachable Op.isCommandNoStop sampleOpeningDoor :=
    Door.Reachable.step 1 (Op.openDoor false 0)
      (Door.Reachable.init 2 3 4 5 10 11 LOW LOW 0 0 sampleStore) rfl rfl
  ⟨hreach, hreach2, by decide,
    (Door.motor_running_iff_moving_without_stop sampleOpeningDoor hreach).2 hreach2⟩

/-! ### C3: the state `HALTED` -/

/-- C3 (counterexample): the sample door, halted by the jam check, leaves
`HALTED` on `openDoor(false)`: the state becomes `OPENING` and `Motor::start`
is called. -/
theorem Door.openDoor_leaves_halted :
    sampleHaltedDoor._state = HALTED
    ∧ Door.Reachable Op.isCommand sampleHaltedDoor
    ∧ ∃ d1 : Door, sampleHaltedDoor.openDoor 1 false 120002 = some d1
        ∧ d1._state = OPENING ∧ d1._motor.running = true
        ∧ d1._motor.startCalls = sampleHaltedDoor._motor.startCalls + 1 := by
  refine ⟨by decide, ?_, ?_⟩
  · exact Door.Reachable.step 1 (Op.interact LOW LOW 120001)
      (Door.Reachable.step 1 (Op.openDoor false 0)
        (Door.Reachable.init 2 3 4 5 10 11 LOW LOW 0 0 sampleStore) rfl rfl) rfl rfl
  · have hv : (sampleHaltedDoor.openDoor 1 false 120002).map
        (fun d => (d._state, d._motor.running, d._motor.startCalls)) =
        some (OPENING, true, sampleHaltedDoor._motor.startCalls + 1) := by decide
    cases hr : sampleHaltedDoor.openDoor 1 false 120002 with
    | none => rw [hr] at hv; cases hv
    | some d1 =>
      rw [hr] at hv
      simp only [Option.map_some', Option.some.injEq, Prod.mk.injEq] at hv
      exact ⟨d1, rfl, hv.1, hv.2.1, hv.2.2⟩

/-- C3 (amended): for every door in state `HALTED`, `interact()` (any switch
readings, any clock value) and `autoCloseOn()` return with the state still
`HALTED` and the motor untouched, and `stop()` leaves the state `HALTED`
without starting the motor; `openDoor(m)` and `closeDoor(m)` are not blocked:
they set the state to `OPENING`, respectively `CLOSING`, and start the motor
(`stop()`, `openDoor(m)` and `closeDoor(m)` do return when the LEDs have no
mirror peer). -/
theorem Door.halted_kept_except_by_commands (d : Door) (h : d._state = HALTED) :
    (∀ fuel closedRead openRead now, ∃ d1, d.interact fuel closedRead openRead now = some d1
        ∧ d1._state = HALTED ∧ d1._motor = d._motor ∧ d1.haltCalls = d.haltCalls)
    ∧ (∀ fuel now, ∃ d1, d.autoCloseOn fuel now = some d1
        ∧ d1._state = HALTED ∧ d1._motor = d._motor)
    ∧ (∀ fuel d1, d.stop fuel = some d1 →
        d1._state = HALTED ∧ d1._motor.running = false
        ∧ d1._motor.startCalls = d._motor.startCalls)
    ∧ (∀ fuel manual now d1, d.openDoor fuel manual now = some d1 →
        d1._state = OPENING ∧ d1._motor.running = true
        ∧ d1._motor.startCalls = d._motor.startCalls + 1)
    ∧ (∀ fuel manual now d1, d.closeDoor fuel manual now = some d1 →
        d1._state = CLOSING ∧ d1._motor.running = true
        ∧ d1._motor.startCalls = d._motor.startCalls + 1)
    ∧ (d.NoPeers → ∀ fuel manual now,
        (d.stop (fuel + 1)).isSome = true
        ∧ (d.openDoor (fuel + 1) manual now).isSome = true
        ∧ (d.closeDoor (fuel + 1) manual now).isSome = true) := by
  refine ⟨?_, ?_, ?_, ?_, ?_, fun hp fuel manual now =>
    ⟨Door.stop_returns_noPeers fuel d hp, Door.commands_return_noPeers fuel manual now d hp⟩⟩
  · intro fuel c o now
    refine ⟨d.poll c o now, ?_, by simpa [Door.poll] using h, rfl, rfl⟩
    simp [Door.interact, Door.poll, h]
  · intro fuel now
    refine ⟨{ d with _manualOverride := false }, ?_, h, rfl⟩
    simp [Door.autoCloseOn, Door.changeLEDState, h]
  · intro fuel d1 hs
    obtain ⟨σ, rfl⟩ := Door.stop_eq_some hs
    exact ⟨h, rfl, rfl⟩
  · intro fuel manual now d1 hs
    rcases Door.openDoor_eq_some hs with ⟨_, _, σ, rfl⟩ | ⟨h1, rfl⟩
    · exact ⟨rfl, rfl, rfl⟩
    · rw [h] at h1; simp at h1
  · intro fuel manual now d1 hs
    rcases Door.closeDoor_eq_some hs with ⟨_, _, σ, rfl⟩ | ⟨h1, rfl⟩
    · exact ⟨rfl, rfl, rfl⟩
    · rw [h] at h1; simp at h1

/-- C3 (amended), exercised on the sample door halted by the jam check. -/
theorem Door.halted_kept_except_by_commands_witness :
    sampleHaltedDoor._state = HALTED
    ∧ (∃ d1, sampleHaltedDoor.interact 1 HIGH LOW 200000 = some d1
        ∧ d1._state = HALTED ∧ d1._motor = sampleHaltedDoor._motor
        ∧ d1.haltCalls = sampleHaltedDoor.haltCalls) :=
  ⟨by decide,
    (Door.halted_kept_except_by_commands sampleHaltedDoor (by decide)).1 1 HIGH LOW 200000⟩

/-! ### C9: `stop()` -/

/-- C9: for every door whose red and green LEDs have no mirror peer, whatever
its state value, `stop()` returns; afterwards the motor is stopped (speed
output 0), both LEDs are in state `OFF` with their pin `LOW`, and the state
value, the motion-start timestamp and the override flag are unchanged. -/
theorem Door.stop_effect (fuel : Nat) (d : Door) (h : d.NoPeers) :
    ∃ d1, d.stop (fuel + 1) = some d1
      ∧ d1._motor.running = false ∧ d1._motor.speedOut = 0
      ∧ d1._motor.startCalls = d._motor.startCalls
      ∧ (d1.leds d1._redLED)._state = LED.OFF ∧ (d1.leds d1._redLED).pinOut = LOW
      ∧ (d1.leds d1._greenLED)._state = LED.OFF ∧ (d1.leds d1._greenLED).pinOut = LOW
      ∧ d1._state = d._state ∧ d1._motorStartTime = d._motorStartTime
      ∧ d1._manualOverride = d._manualOverride := by
  obtain ⟨cb, ob, m, r, g, st, t0, ov, hc, σ⟩ := d
  obtain ⟨hr, hg⟩ := h
  simp only at hr hg
  have hg1 : (Function.update σ r
      { σ r with pinOut := LOW, _state := LED.OFF, _isOff := true } g)._opposite = none := by
    by_cases e : g = r
    · subst e; simpa using hr
    · simpa [Function.update_noteq e] using hg
  unfold Door.stop
  simp only
  rw [LED.off_noPeer _ _ _ hr]
  simp only
  rw [LED.off_noPeer _ _ _ hg1]
  refine ⟨_, rfl, rfl, rfl, rfl, ?_, ?_, ?_, ?_, rfl, rfl, rfl⟩
  · by_cases e : r = g
    · subst e; simp
    · simp [Function.update_noteq e]
  · by_cases e : r = g
    · subst e; simp
    · simp [Function.update_noteq e]
  · simp
  · simp

/-- C9, exercised on the sample door while it is opening. -/
theorem Door.stop_effect_witness :
    sampleOpeningDoor.NoPeers
    ∧ ∃ d1, sampleOpeningDoor.stop 1 = some d1
      ∧ d1._motor.running = false ∧ d1._motor.speedOut = 0
      ∧ d1._motor.startCalls = sampleOpeningDoor._motor.startCalls
      ∧ (d1.leds d1._redLED)._state = LED.OFF ∧ (d1.leds d1._redLED).pinOut = LOW
      ∧ (d1.leds d1._greenLED)._state = LED.OFF ∧ (d1.leds d1._greenLED).pinOut = LOW
      ∧ d1._state = sampleOpeningDoor._state
      ∧ d1._motorStartTime = sampleOpeningDoor._motorStartTime
      ∧ d1._manualOverride = sampleOpeningDoor._manualOverride :=
  ⟨⟨rfl, rfl⟩, Door.stop_effect 0 sampleOpeningDoor ⟨rfl, rfl⟩⟩

/-! ### C8: commands at the target -/

/-- C8: in state `OPEN` or `OPENING`, `openDoor(m)` returns the door exactly as
it was (state, motor, motion-start timestamp, override flag, LEDs and all
other fields); in state `CLOSED` or `CLOSING` so does `closeDoor(m)`.
Consequently, from any state, `openDoor(m1)` followed by `openDoor(m2)` at any
clock value has the effect of `openDoor(m1)` alone, and likewise for
`closeDoor` (calls which do return when the LEDs have no mirror peer). -/
theorem Door.command_noop_at_target (d : Door) (fuel : Nat) (m : Bool) (now : Nat) :
    ((d._state = OPEN ∨ d._state = OPENING) → d.openDoor fuel m now = some d)
    ∧ ((d._state = CLOSED ∨ d._state = CLOSING) → d.closeDoor fuel m now = some d)
    ∧ (∀ (m2 : Bool) (t2 : Nat),
        (d.openDoor fuel m now).bind (fun d1 => d1.openDoor fuel m2 t2) = d.openDoor fuel m now)
    ∧ (∀ (m2 : Bool) (t2 : Nat),
        (d.closeDoor fuel m now).bind (fun d1 => d1.closeDoor fuel m2 t2) =
          d.closeDoor fuel m now)
    ∧ (d.NoPeers → 0 < fuel →
        (d.openDoor fuel m now).isSome = true ∧ (d.closeDoor fuel m now).isSome = true) := by
  have hopen : ∀ (e : Door) (m : Bool) (t : Nat),
      (e._state = OPEN ∨ e._state = OPENING) → e.openDoor fuel m t = some e := by
    intro e m t h
    unfold Door.openDoor
    rw [if_neg]
    rintro ⟨h1, h2⟩
    rcases h with h | h
    · exact h1 h
    · exact h2 h
  have hclose : ∀ (e : Door) (m : Bool) (t : Nat),
      (e._state = CLOSED ∨ e._state = CLOSING) → e.closeDoor fuel m t = some e := by
    intro e m t h
    unfold Door.closeDoor
    rw [if_neg]
    rintro ⟨h1, h2⟩
    rcases h with h | h
    · exact h1 h
    · exact h2 h
  refine ⟨hopen d m now, hclose d m now, ?_, ?_, ?_⟩
  rotate_left 2
  · intro hp hf
    obtain ⟨k, rfl⟩ : ∃ k, fuel = k + 1 := ⟨fuel - 1, by omega⟩
    exact Door.commands_return_noPeers k m now d hp
  · intro m2 t2
    cases h : d.openDoor fuel m now with
    | none => rfl
    | some d1 =>
      simp only [Option.some_bind]
      rcases Door.openDoor_eq_some h with ⟨_, _, σ, rfl⟩ | ⟨h1, rfl⟩
      · exact hopen _ m2 t2 (Or.inr rfl)
      · exact hopen _ m2 t2 h1
  · intro m2 t2
    cases h : d.closeDoor fuel m now with
    | none => rfl
    | some d1 =>
      simp only [Option.some_bind]
      rcases Door.closeDoor_eq_some h with ⟨_, _, σ, rfl⟩ | ⟨h1, rfl⟩
      · exact hclose _ m2 t2 (Or.inr rfl)
      · exact hclose _ m2 t2 h1

/-- C8, exercised on the sample door while it is opening: a second
`openDoor(true)` changes nothing. -/
theorem Door.command_noop_at_target_witness :
    (sampleOpeningDoor._state = OPEN ∨ sampleOpeningDoor._state = OPENING)
    ∧ sampleOpeningDoor.openDoor 1 true 9 = some sampleOpeningDoor :=
  ⟨Or.inr (by decide),
    (Door.command_noop_at_target sampleOpeningDoor 1 true 9).1 (Or.inr (by decide))⟩

/-! ### C5: `Motor::start` on a running motor -/

/-- C5 (counterexample): the sample door after `openDoor(false)` is reachable
and its motor is running; `closeDoor(false)` then calls `Motor::start` once
more. -/
theorem Door.closeDoor_starts_running_motor :
    Door.Reachable Op.isCommand sampleOpeningDoor
    ∧ sampleOpeningDoor._motor.running = true
    ∧ ∃ d1, sampleOpeningDoor.closeDoor 1 false 1 = some d1
        ∧ d1._motor.startCalls = sampleOpeningDoor._motor.startCalls + 1 := by
  refine ⟨?_, by decide, ?_⟩
  · exact Door.Reachable.step 1 (Op.openDoor false 0)
      (Door.Reachable.init 2 3 4 5 10 11 LOW LOW 0 0 sampleStore) rfl rfl
  · have hv : (sampleOpeningDoor.closeDoor 1 false 1).map (fun d => d._motor.startCalls) =
        some (sampleOpeningDoor._motor.startCalls + 1) := by decide
    cases hr : sampleOpeningDoor.closeDoor 1 false 1 with
    | none => rw [hr] at hv; cases hv
    | some d1 =>
      rw [hr] at hv
      simp only [Option.map_some', Option.some.injEq] at hv
      exact ⟨d1, rfl, hv⟩

/-- C5 (amended): in every state reachable from construction, a command
`openDoor(m)` or `closeDoor(m)` that calls `Motor::start` finds the motor
either idle or running in the opposite direction (`openDoor` in state
`CLOSING` with the motor driving `BACKWARDS`, `closeDoor` in state `OPENING`
with the motor driving `FORWARDS`); the direction it requests is never the
one the motor is already running in. -/
theorem Door.start_only_idle_or_reversing (d : Door) (h : Door.Reachable Op.isCommand d)
    (fuel : Nat) (m : Bool) (now : Nat) (d1 : Door) :
    (d.openDoor fuel m now = some d1 → d1._motor.startCalls ≠ d._motor.startCalls →
        d1._motor.directionOut = FORWARDS
        ∧ (d._motor.running = false
          ∨ (d._state = CLOSING ∧ d._motor.directionOut = BACKWARDS)))
    ∧ (d.closeDoor fuel m now = some d1 → d1._motor.startCalls ≠ d._motor.startCalls →
        d1._motor.directionOut = BACKWARDS
        ∧ (d._motor.running = false
          ∨ (d._state = OPENING ∧ d._motor.directionOut = FORWARDS))) := by
  have hinv := Door.reachable_motorInv h
  unfold Door.MotorInv at hinv
  constructor
  · intro ho hne
    rcases Door.openDoor_eq_some ho with ⟨_, h2, σ, rfl⟩ | ⟨_, rfl⟩
    · refine ⟨rfl, ?_⟩
      cases hrun : d._motor.running with
      | false => exact Or.inl rfl
      | true =>
        rcases hinv hrun with ⟨hs, _⟩ | hc
        · exact absurd hs h2
        · exact Or.inr hc
    · exact absurd rfl hne
  · intro ho hne
    rcases Door.closeDoor_eq_some ho with ⟨_, h2, σ, rfl⟩ | ⟨_, rfl⟩
    · refine ⟨rfl, ?_⟩
      cases hrun : d._motor.running with
      | false => exact Or.inl rfl
      | true =>
        rcases hinv hrun with hc | ⟨hs, _⟩
        · exact Or.inr hc
        · exact absurd hs h2
    · exact absurd rfl hne

/-- C5 (amended), exercised on the sample door while it is opening. -/
theorem Door.start_only_idle_or_reversing_witness :
    Door.Reachable Op.isCommand sampleOpeningDoor
    ∧ ∀ d1, sampleOpeningDoor.closeDoor 1 true 3 = some d1 →
        d1._motor.startCalls ≠ sampleOpeningDoor._motor.startCalls →
        d1._motor.directionOut = BACKWARDS
        ∧ (sampleOpeningDoor._motor.running = false
          ∨ (sampleOpeningDoor._state = OPENING
            ∧ sampleOpeningDoor._motor.directionOut = FORWARDS)) :=
  have hreach : Door.Reachable Op.isCommand sampleOpeningDoor :=
    Door.Reachable.step 1 (Op.openDoor false 0)
      (Door.Reachable.init 2 3 4 5 10 11 LOW LOW 0 0 sampleStore) rfl rfl
  ⟨hreach, fun d1 =>
    (Door.start_only_idle_or_reversing sampleOpeningDoor hreach 1 true 3 d1).2⟩

/-! ### C4: jam detection -/

theorem Door.run_append (fuel : Nat) (xs ys : List Op) :
    ∀ d : Door, d.run fuel (xs ++ ys) = (d.run fuel xs).bind (fun d1 => d1.run fuel ys) := by
  induction xs with
  | nil => intro d; rfl
  | cons op xs ih =>
    intro d
    simp only [List.cons_append, Door.run]
    cases d.step fuel op with
    | none => rfl
    | some d1 => exact ih d1

theorem Button.neverPressed_append (xs ys : List (Nat × Nat)) :
    ∀ b : Button, b.neverPressed (xs ++ ys) = (b.neverPressed xs && (b.run xs).neverPressed ys) := by
  induction xs with
  | nil => intro b; simp [Button.neverPressed, Button.run]
  | cons x xs ih =>
    intro b
    show (!(b.interact x.1 x.2).isPressed && (b.interact x.1 x.2).neverPressed (xs ++ ys)) =
      ((!(b.interact x.1 x.2).isPressed && (b.interact x.1 x.2).neverPressed xs)
        && ((b.interact x.1 x.2).run xs).neverPressed ys)
    rw [ih, Bool.and_assoc]

theorem Door.polls_fields (ps : List Poll) :
    ∀ d : Door, (d.polls ps)._state = d._state ∧ (d.polls ps)._motor = d._motor
      ∧ (d.polls ps).haltCalls = d.haltCalls
      ∧ (d.polls ps)._motorStartTime = d._motorStartTime
      ∧ (d.polls ps)._openButton = d._openButton.run (ps.map Poll.openSample)
      ∧ (d.polls ps)._closedButton = d._closedButton.run (ps.map Poll.closedSample) := by
  induction ps with
  | nil => intro d; exact ⟨rfl, rfl, rfl, rfl, rfl, rfl⟩
  | cons p ps ih =>
    intro d
    simp only [Door.polls, List.map_cons, Button.run]
    exact ih _

/-- While the door moves, the watched limit button stays released and the
jam timeout has not elapsed, `interact()` only polls the buttons. -/
theorem Door.run_moving (fuel : Nat) (ps : List Poll) :
    ∀ d : Door,
      ((d._state = OPENING ∧ d._openButton.neverPressed (ps.map Poll.openSample) = true)
        ∨ (d._state = CLOSING
          ∧ d._closedButton.neverPressed (ps.map Poll.closedSample) = true)) →
      (∀ p ∈ ps, usub p.now d._motorStartTime ≤ 120000) →
      d.run fuel (ps.map Poll.toOp) = some (d.polls ps) := by
  induction ps with
  | nil => intro d _ _; rfl
  | cons p ps ih =>
    intro d hmove hle
    have hp := hle p (List.mem_cons_self _ _)
    have hstep : d.step fuel p.toOp = some (d.poll p.closedRead p.openRead p.now) := by
      simp only [Door.step, Poll.toOp, Door.interact]
      rcases hmove with ⟨hs, hnp⟩ | ⟨hs, hnp⟩
      · simp only [List.map_cons, Button.neverPressed, Poll.openSample, Bool.and_eq_true,
          Bool.not_eq_true'] at hnp
        rw [if_pos hs, if_neg (by rw [hnp.1]; decide)]
        simp only [Door.checkForJam]
        rw [if_neg (by omega)]
        rfl
      · simp only [List.map_cons, Button.neverPressed, Poll.closedSample, Bool.and_eq_true,
          Bool.not_eq_true'] at hnp
        rw [if_neg (by rw [hs]; decide), if_pos hs, if_neg (by rw [hnp.1]; decide)]
        simp only [Door.checkForJam]
        rw [if_neg (by omega)]
        rfl
    simp only [List.map_cons, Door.run, hstep, Door.polls]
    apply ih
    · rcases hmove with ⟨hs, hnp⟩ | ⟨hs, hnp⟩
      · left
        simp only [List.map_cons, Button.neverPressed, Poll.openSample, Bool.and_eq_true] at hnp
        exact ⟨hs, hnp.2⟩
      · right
        simp only [List.map_cons, Button.neverPressed, Poll.closedSample, Bool.and_eq_true] at hnp
        exact ⟨hs, hnp.2⟩
    · intro q hq
      exact hle q (List.mem_cons_of_mem _ hq)

/-- In state `HALTED`, `interact()` only polls the buttons. -/
theorem Door.run_halted (fuel : Nat) (ps : List Poll) :
    ∀ d : Door, d._state = HALTED → d.run fuel (ps.map Poll.toOp) = some (d.polls ps) := by
  induction ps with
  | nil => intro d _; rfl
  | cons p ps ih =>
    intro d hs
    have hstep : d.step fuel p.toOp = some (d.poll p.closedRead p.openRead p.now) := by
      simp only [Door.step, Poll.toOp, Door.interact]
      rw [if_neg (by rw [hs]; decide), if_neg (by rw [hs]; decide)]
      rfl
    simp only [List.map_cons, Door.run, hstep, Door.polls]
    exact ih _ hs

/-- While the door moves and the watched limit button is released, an
`interact()` after the jam timeout halts the door. -/
theorem Door.step_jam (fuel : Nat) (p : Poll) (d : Door)
    (hmove : (d._state = OPENING ∧ (d._openButton.interact p.openRead p.now).isPressed = false)
      ∨ (d._state = CLOSING
        ∧ (d._closedButton.interact p.closedRead p.now).isPressed = false))
    (hgt : usub p.now d._motorStartTime > 120000) :
    d.step fuel p.toOp =
      some { d.poll p.closedRead p.openRead p.now with
        _motor := d._motor.stop, _state := HALTED, haltCalls := d.haltCalls + 1 } := by
  simp only [Door.step, Poll.toOp, Door.interact]
  rcases hmove with ⟨hs, hnp⟩ | ⟨hs, hnp⟩
  · rw [if_pos hs, if_neg (by rw [hnp]; decide)]
    simp only [Door.checkForJam]
    rw [if_pos hgt]
    rfl
  · rw [if_neg (by rw [hs]; decide), if_pos hs, if_neg (by rw [hnp]; decide)]
    simp only [Door.checkForJam]
    rw [if_pos hgt]
    rfl

/-- C4: take a door in state `OPENING` (resp. `CLOSING`) with motion-start
timestamp `s`, and a sequence of `interact()` calls `pre ++ c :: post` in which
`c` is the first call whose clock value `now` has `now - s > 120000` (unsigned
difference), the open-limit (resp. closed-limit) button being debounced-pressed
after none of the calls up to `c`. Then every call of `pre` returns and leaves
the state, the motor and the number of halt-callback invocations unchanged;
the call `c` returns with the motor stopped, state `HALTED` and the halt
callback invoked once; and after any number of the later calls the state is
still `HALTED`, the motor stopped and the halt callback invoked exactly once
in total. -/
theorem Door.jam_halts_once (fuel : Nat) (d : Door) (pre post : List Poll) (c : Poll)
    (hmove : (d._state = OPENING
        ∧ d._openButton.neverPressed ((pre ++ [c]).map Poll.openSample) = true)
      ∨ (d._state = CLOSING
        ∧ d._closedButton.neverPressed ((pre ++ [c]).map Poll.closedSample) = true))
    (hpre : ∀ p ∈ pre, usub p.now d._motorStartTime ≤ 120000)
    (hc : usub c.now d._motorStartTime > 120000) :
    (∀ p1 p2 : List Poll, pre = p1 ++ p2 →
      ∃ dk, d.run fuel (p1.map Poll.toOp) = some dk
        ∧ dk._state = d._state ∧ dk._motor = d._motor ∧ dk.haltCalls = d.haltCalls)
    ∧ (∀ q1 q2 : List Poll, post = q1 ++ q2 →
      ∃ dk, d.run fuel ((pre ++ c :: q1).map Poll.toOp) = some dk
        ∧ dk._state = HALTED ∧ dk._motor = d._motor.stop ∧ dk._motor.running = false
        ∧ dk.haltCalls = d.haltCalls + 1) := by
  have hsplit : (d._state = OPENING
        ∧ d._openButton.neverPressed (pre.map Poll.openSample) = true
        ∧ ((d._openButton.run (pre.map Poll.openSample)).interact c.openRead c.now).isPressed
            = false)
      ∨ (d._state = CLOSING
        ∧ d._closedButton.neverPressed (pre.map Poll.closedSample) = true
        ∧ ((d._closedButton.run (pre.map Poll.closedSample)).interact
            c.closedRead c.now).isPressed = false) := by
    rcases hmove with ⟨hs, hnp⟩ | ⟨hs, hnp⟩
    · left
      rw [List.map_append, Button.neverPressed_append] at hnp
      simp only [List.map_cons, List.map_nil, Button.neverPressed, Poll.openSample,
        Bool.and_eq_true, Bool.not_eq_true', Bool.and_true] at hnp
      exact ⟨hs, hnp.1, hnp.2⟩
    · right
      rw [List.map_append, Button.neverPressed_append] at hnp
      simp only [List.map_cons, List.map_nil, Button.neverPressed, Poll.closedSample,
        Bool.and_eq_true, Bool.not_eq_true', Bool.and_true] at hnp
      exact ⟨hs, hnp.1, hnp.2⟩
  constructor
  · intro p1 p2 hp
    subst hp
    obtain ⟨h1, h2, h3, -⟩ := Door.polls_fields p1 d
    refine ⟨d.polls p1, ?_, h1, h2, h3⟩
    apply Door.run_moving
    · rcases hsplit with ⟨hs, hnp, -⟩ | ⟨hs, hnp, -⟩
      · left
        rw [List.map_append, Button.neverPressed_append, Bool.and_eq_true] at hnp
        exact ⟨hs, hnp.1⟩
      · right
        rw [List.map_append, Button.neverPressed_append, Bool.and_eq_true] at hnp
        exact ⟨hs, hnp.1⟩
    · intro q hq
      exact hpre q (List.mem_append_left _ hq)
  · intro q1 q2 _
    obtain ⟨h1, h2, h3, h4, h5, h6⟩ := Door.polls_fields pre d
    have hrun1 : d.run fuel (pre.map Poll.toOp) = some (d.polls pre) := by
      apply Door.run_moving _ _ _ _ hpre
      rcases hsplit with ⟨hs, hnp, -⟩ | ⟨hs, hnp, -⟩
      · exact Or.inl ⟨hs, hnp⟩
      · exact Or.inr ⟨hs, hnp⟩
    have hstep := Door.step_jam fuel c (d.polls pre)
      (by
        rw [h1, h5, h6]
        rcases hsplit with ⟨hs, -, hnp⟩ | ⟨hs, -, hnp⟩
        · exact Or.inl ⟨hs, hnp⟩
        · exact Or.inr ⟨hs, hnp⟩)
      (by rw [h4]; exact hc)
    have hrun3 := Door.run_halted fuel q1
      { (d.polls pre).poll c.closedRead c.openRead c.now with
        _motor := (d.polls pre)._motor.stop, _state := HALTED
        haltCalls := (d.polls pre).haltCalls + 1 } rfl
    obtain ⟨g1, g2, g3, -⟩ := Door.polls_fields q1
      { (d.polls pre).poll c.closedRead c.openRead c.now with
        _motor := (d.polls pre)._motor.stop, _state := HALTED
        haltCalls := (d.polls pre).haltCalls + 1 }
    refine ⟨_, ?_, g1, ?_, ?_, ?_⟩
    · rw [List.map_append, Door.run_append, hrun1]
      simp only [Option.some_bind, List.map_cons, Door.run, hstep]
      exact hrun3
    · rw [g2, h2]
    · rw [g2]; rfl
    · rw [g3, h3]

/-- C4, exercised on the sample door opened at clock value 0, with polls at
120000 (no halt yet), 120001 (halt) and 120002, 500000 (no further callback). -/
theorem Door.jam_halts_once_witness :
    ((sampleOpeningDoor._state = OPENING
        ∧ sampleOpeningDoor._openButton.neverPressed
            ((samplePollsBefore ++ [samplePollJam]).map Poll.openSample) = true)
      ∨ (sampleOpeningDoor._state = CLOSING
        ∧ sampleOpeningDoor._closedButton.neverPressed
            ((samplePollsBefore ++ [samplePollJam]).map Poll.closedSample) = true))
    ∧ (∀ p ∈ samplePollsBefore, usub p.now sampleOpeningDoor._motorStartTime ≤ 120000)
    ∧ usub samplePollJam.now sampleOpeningDoor._motorStartTime > 120000
    ∧ (∃ dk, sampleOpeningDoor.run 0 (samplePollsBefore.map Poll.toOp) = some dk
        ∧ dk._state = sampleOpeningDoor._state ∧ dk._motor = sampleOpeningDoor._motor
        ∧ dk.haltCalls = sampleOpeningDoor.haltCalls)
    ∧ (∃ dk, sampleOpeningDoor.run 0
          ((samplePollsBefore ++ samplePollJam :: samplePollsAfter).map Poll.toOp) = some dk
        ∧ dk._state = HALTED ∧ dk._motor = sampleOpeningDoor._motor.stop
        ∧ dk._motor.running = false
        ∧ dk.haltCalls = sampleOpeningDoor.haltCalls + 1) :=
  have hmove : (sampleOpeningDoor._state = OPENING
        ∧ sampleOpeningDoor._openButton.neverPressed
            ((samplePollsBefore ++ [samplePollJam]).map Poll.openSample) = true)
      ∨ (sampleOpeningDoor._state = CLOSING
        ∧ sampleOpeningDoor._closedButton.neverPressed
            ((samplePollsBefore ++ [samplePollJam]).map Poll.closedSample) = true) :=
    Or.inl ⟨by decide, by decide⟩
  have hpre : ∀ p ∈ samplePollsBefore,
      usub p.now sampleOpeningDoor._motorStartTime ≤ 120000 := by
    intro p hp
    rw [samplePollsBefore, List.mem_singleton] at hp
    subst hp
    decide
  have hc : usub samplePollJam.now sampleOpeningDoor._motorStartTime > 120000 := by decide
  have hmain := Door.jam_halts_once 0 sampleOpeningDoor samplePollsBefore samplePollsAfter
    samplePollJam hmove hpre hc
  ⟨hmove, hpre, hc, hmain.1 samplePollsBefore [] (List.append_nil _).symm,
    hmain.2 samplePollsAfter [] (List.append_nil _).symm⟩

/-! ### C10: debounced changes are more than 50 ms apart -/

theorem Button.run_debounceDelay (xs : List (Nat × Nat)) :
    ∀ b : Button, (b.run xs)._debounceDelay = b._debounceDelay := by
  induction xs with
  | nil => intro b; rfl
  | cons x xs ih =>
    intro b
    simp only [Button.run]
    rw [ih, Button.interact_debounceDelay]

theorem Button.interact_settled {t0 T r t : Nat} {b : Button}
    (h : b.SettledSince t0 T) (ht0 : t0 ≤ t) (hT : t ≤ T) (hr : r < 256) :
    (b.interact r t).SettledSince t0 T := by
  unfold Button.SettledSince at h ⊢
  rw [Button.interact_previousState, Button.interact_state, Button.interact_lastDebounceTime,
    Nat.mod_eq_of_lt hr]
  by_cases h1 : r = b._previousState
  · have e : (if r ≠ b._previousState then t else b._lastDebounceTime) = b._lastDebounceTime :=
      if_neg (not_not.mpr h1)
    rw [e]
    by_cases h2 : usub t b._lastDebounceTime > b._debounceDelay ∧ b._state ≠ r
    · rw [if_pos h2]
      exact Or.inl rfl
    · rw [if_neg h2]
      rcases h with h | h
      · exact Or.inl (h1.trans h)
      · exact Or.inr h
  · have e : (if r ≠ b._previousState then t else b._lastDebounceTime) = t := if_pos h1
    rw [e]
    exact Or.inr ⟨ht0, hT⟩

theorem Button.run_settled {t0 T : Nat} (xs : List (Nat × Nat)) :
    ∀ b : Button, b.SettledSince t0 T → (∀ x ∈ xs, t0 ≤ x.2 ∧ x.2 ≤ T ∧ x.1 < 256) →
      (b.run xs).SettledSince t0 T := by
  induction xs with
  | nil => intro b h _; exact h
  | cons x xs ih =>
    intro b h hx
    simp only [Button.run]
    obtain ⟨h1, h2, h3⟩ := hx x (List.mem_cons_self _ _)
    exact ih _ (Button.interact_settled h h1 h2 h3)
      (fun y hy => hx y (List.mem_cons_of_mem _ hy))

theorem Button.interact_changed {r t : Nat} {b : Button}
    (h : (b.interact r t)._state ≠ b._state) :
    usub t (if r ≠ b._previousState then t else b._lastDebounceTime) > b._debounceDelay
    ∧ b._state ≠ r ∧ (b.interact r t)._state = r % 256 := by
  rw [Button.interact_state] at h ⊢
  by_cases hc : usub t (if r ≠ b._previousState then t else b._lastDebounceTime)
      > b._debounceDelay ∧ b._state ≠ r
  · rw [if_pos hc]
    exact ⟨hc.1, hc.2, rfl⟩
  · rw [if_neg hc] at h
    exact absurd rfl h

/-- C10: in a sequence of `interact()` calls on a button (debounce delay 50) at
non-decreasing clock values below `2 ^ 32`, with raw samples `LOW` or `HIGH`,
two calls that each change the debounced value `_state` are more than 50 ms
apart. The sequence is `pre`, the first changing call `(ri, ti)`, `mid`, the
second changing call `(rj, tj)`. -/
theorem Button.debounced_changes_far_apart (b : Button) (pre mid : List (Nat × Nat))
    (ri ti rj tj : Nat)
    (hdelay : b._debounceDelay = 50)
    (hraw : ∀ x ∈ pre ++ (ri, ti) :: (mid ++ [(rj, tj)]), x.1 = LOW ∨ x.1 = HIGH)
    (htime : ((pre ++ (ri, ti) :: (mid ++ [(rj, tj)])).map Prod.snd).Pairwise (fun s t => s ≤ t))
    (hwrap : ∀ x ∈ pre ++ (ri, ti) :: (mid ++ [(rj, tj)]), x.2 < ULONG_RANGE)
    (hi : ((b.run pre).interact ri ti)._state ≠ (b.run pre)._state)
    (hj : ((((b.run pre).interact ri ti).run mid).interact rj tj)._state ≠
      (((b.run pre).interact ri ti).run mid)._state) :
    ti + 50 < tj := by
  -- ordering facts
  rw [List.map_append, List.pairwise_append] at htime
  obtain ⟨-, htail, -⟩ := htime
  rw [List.map_cons, List.pairwise_cons] at htail
  obtain ⟨hfrom, htail2⟩ := htail
  rw [List.map_append, List.pairwise_append] at htail2
  obtain ⟨-, -, hmidj⟩ := htail2
  have hij : ti ≤ tj := hfrom tj (by simp)
  have hmid : ∀ x ∈ mid, ti ≤ x.2 ∧ x.2 ≤ tj ∧ x.1 < 256 := by
    intro x hx
    refine ⟨hfrom x.2 (by simp; exact Or.inl ⟨x.1, hx⟩), ?_, ?_⟩
    · exact hmidj x.2 (List.mem_map_of_mem _ hx) tj (by simp)
    · rcases hraw x (by simp [hx]) with h | h <;> rw [h] <;> decide
  have hri : ri < 256 := by
    rcases hraw (ri, ti) (by simp) with h | h <;> simp only at h <;> rw [h] <;> decide
  have hrj : rj < 256 := by
    rcases hraw (rj, tj) (by simp) with h | h <;> simp only at h <;> rw [h] <;> decide
  have htj : tj < ULONG_RANGE := hwrap (rj, tj) (by simp)
  -- after the first change the last raw sample is the debounced value
  obtain ⟨-, -, hsi⟩ := Button.interact_changed hi
  have h0 : ((b.run pre).interact ri ti).SettledSince ti tj := by
    left
    rw [Button.interact_previousState, hsi]
  have h1 := Button.run_settled mid _ h0 hmid
  -- the second change
  obtain ⟨hgt, hne, -⟩ := Button.interact_changed hj
  rw [Button.run_debounceDelay, Button.interact_debounceDelay, Button.run_debounceDelay,
    hdelay] at hgt
  by_cases hp : rj = (((b.run pre).interact ri ti).run mid)._previousState
  · rw [if_neg (by simpa using hp)] at hgt
    rcases h1 with h1 | ⟨h2, h3⟩
    · exact absurd (h1.symm.trans hp.symm) hne
    · rw [usub_eq_sub h3 htj] at hgt
      omega
  · rw [if_pos hp, usub_self] at hgt
    omega

/-- C10, exercised on a fresh button: the sample goes `HIGH` at 10, is committed
at 61, goes `LOW` at 70 and is committed at 121; the two commits are 60 ms
apart. -/
theorem Button.debounced_changes_far_apart_witness :
    sampleButton._debounceDelay = 50
    ∧ ((([(HIGH, 10)] ++ (HIGH, 61) :: ([(LOW, 70)] ++ [(LOW, 121)])).map Prod.snd).Pairwise
        (fun s t => s ≤ t))
    ∧ ((sampleButton.run [(HIGH, 10)]).interact HIGH 61)._state ≠
        (sampleButton.run [(HIGH, 10)])._state
    ∧ ((((sampleButton.run [(HIGH, 10)]).interact HIGH 61).run [(LOW, 70)]).interact
          LOW 121)._state ≠
        (((sampleButton.run [(HIGH, 10)]).interact HIGH 61).run [(LOW, 70)])._state
    ∧ 61 + 50 < 121 :=
  ⟨rfl, by decide, by decide, by decide,
    Button.debounced_changes_far_apart sampleButton [(HIGH, 10)] [(LOW, 70)] HIGH 61 LOW 121
      rfl (by decide) (by decide) (by decide) (by decide) (by decide)⟩

/-! ### C11: the button callback is edge-triggered -/

theorem Button.interact_buttonPressedFunction (r now : Nat) (b : Button) :
    (b.interact r now)._buttonPressedFunction = b._buttonPressedFunction := by
  unfold Button.interact
  by_cases h1 : r = b._previousState <;> simp [h1] <;> split_ifs <;> rfl

theorem Button.interact_pressedCalls (r now : Nat) (b : Button) :
    (b.interact r now).pressedCalls =
      if (usub now (if r ≠ b._previousState then now else b._lastDebounceTime) > b._debounceDelay
          ∧ b._state ≠ r)
        ∧ b._buttonPressedFunction = true
        ∧ (if b._normallyClosed then r % 256 == HIGH else r % 256 == LOW) = true
      then b.pressedCalls + 1 else b.pressedCalls := by
  unfold Button.interact Button.isPressed
  by_cases h1 : r = b._previousState <;>
    by_cases h2 : usub now b._lastDebounceTime > b._debounceDelay <;>
    by_cases h3 : b._state = r <;>
    by_cases h4 : usub now now > b._debounceDelay <;>
    cases h5 : b._buttonPressedFunction <;>
    cases h6 : b._normallyClosed <;>
    simp [h1, h2, h3, h4, h5, h6] <;> split_ifs <;> simp_all


theorem Button.interact_isPressed (r now : Nat) (b : Button) :
    (b.interact r now).isPressed =
      if usub now (if r ≠ b._previousState then now else b._lastDebounceTime) > b._debounceDelay
          ∧ b._state ≠ r
      then (if b._normallyClosed then r % 256 == HIGH else r % 256 == LOW)
      else b.isPressed := by
  unfold Button.isPressed
  rw [Button.interact_normallyClosed, Button.interact_state]
  split_ifs <;> rfl

/-- One poll of a button with a registered callback, the sample being a
level: the callback runs at most once, and it runs exactly when the debounced
value changes to a pressed value, that is when the button goes from not
pressed to pressed. -/
theorem Button.interact_fires (r now : Nat) (b : Button)
    (hcb : b._buttonPressedFunction = true) (hr : r < 256) :
    ((b.interact r now).pressedCalls = b.pressedCalls
      ∨ (b.interact r now).pressedCalls = b.pressedCalls + 1)
    ∧ ((b.interact r now).pressedCalls = b.pressedCalls + 1 ↔
        ((b.interact r now)._state ≠ b._state ∧ (b.interact r now).isPressed = true))
    ∧ ((b.interact r now).pressedCalls = b.pressedCalls + 1 ↔
        (b.isPressed = false ∧ (b.interact r now).isPressed = true)) := by
  rw [Button.interact_pressedCalls, Button.interact_isPressed, Button.interact_state,
    Nat.mod_eq_of_lt hr]
  by_cases hc : usub now (if r ≠ b._previousState then now else b._lastDebounceTime)
      > b._debounceDelay ∧ b._state ≠ r
  · have hne : r ≠ b._state := fun e => hc.2 e.symm
    have hnp : (if b._normallyClosed then r == HIGH else r == LOW) = true →
        b.isPressed = false := by
      unfold Button.isPressed
      cases b._normallyClosed
      · simp only [Bool.false_eq_true, if_false, beq_iff_eq, beq_eq_false_iff_ne]
        intro e; rw [← e]; exact hc.2
      · simp only [if_true, beq_iff_eq, beq_eq_false_iff_ne]
        intro e; rw [← e]; exact hc.2
    by_cases hp : (if b._normallyClosed then r == HIGH else r == LOW) = true
    · rw [if_pos ⟨hc, hcb, hp⟩]
      rw [if_pos hc, if_pos hc]
      exact ⟨Or.inr rfl, ⟨fun _ => ⟨hne, hp⟩, fun _ => rfl⟩,
        ⟨fun _ => ⟨hnp hp, hp⟩, fun _ => rfl⟩⟩
    · rw [if_neg (fun h => hp h.2.2)]
      rw [if_pos hc, if_pos hc]
      exact ⟨Or.inl rfl, ⟨fun h => absurd h (by omega), fun h => absurd h.2 hp⟩,
        ⟨fun h => absurd h (by omega), fun h => absurd h.2 hp⟩⟩
  · rw [if_neg (fun h => hc h.1)]
    rw [if_neg hc, if_neg hc]
    refine ⟨Or.inl rfl, ⟨fun h => absurd h (by omega), fun h => absurd rfl h.1⟩,
      ⟨fun h => absurd h (by omega), fun h => ?_⟩⟩
    have h2 := h.2
    rw [h.1] at h2
    exact absurd h2 (by decide)

theorem Button.run_pressedCalls (xs : List (Nat × Nat)) :
    ∀ b : Button, b._buttonPressedFunction = true → (∀ x ∈ xs, x.1 < 256) →
      (b.run xs).pressedCalls = b.pressedCalls + b.pressEdges xs := by
  induction xs with
  | nil => intro b _ _; rfl
  | cons x xs ih =>
    intro b hcb hx
    simp only [Button.run, Button.pressEdges]
    rw [ih _ ((Button.interact_buttonPressedFunction _ _ _).trans hcb)
      (fun y hy => hx y (List.mem_cons_of_mem _ hy))]
    obtain ⟨h1, -, h3⟩ := Button.interact_fires x.1 x.2 b hcb (hx x (List.mem_cons_self _ _))
    by_cases hp : b.isPressed = false ∧ (b.interact x.1 x.2).isPressed = true
    · rw [h3.mpr hp, hp.1, hp.2]
      simp only [Bool.not_false, Bool.and_self, if_true]
      omega
    · have hne : (b.interact x.1 x.2).pressedCalls ≠ b.pressedCalls + 1 := fun e => hp (h3.mp e)
      have heq : (b.interact x.1 x.2).pressedCalls = b.pressedCalls := by
        rcases h1 with h | h
        · exact h
        · exact absurd h hne
      have hf : (!b.isPressed && (b.interact x.1 x.2).isPressed) = false := by
        cases h5 : b.isPressed <;> cases h6 : (b.interact x.1 x.2).isPressed <;>
          simp_all
      rw [heq, hf]
      simp

/-- C11: for every button with a registered callback (either polarity) and
every `interact()` call sampling `LOW` or `HIGH` at any clock value, the
callback runs at most once in the call, and it runs if and only if the call
changes the debounced value and the committed value satisfies `isPressed()`,
equivalently if and only if the button goes from not pressed to pressed: never
on a release and never while it stays pressed. Over any sequence of calls the
number of callback invocations is the number of transitions into the pressed
state. -/
theorem Button.callback_edge_triggered (b : Button)
    (hcb : b._buttonPressedFunction = true) :
    (∀ r now : Nat, (r = LOW ∨ r = HIGH) →
      ((b.interact r now).pressedCalls = b.pressedCalls
        ∨ (b.interact r now).pressedCalls = b.pressedCalls + 1)
      ∧ ((b.interact r now).pressedCalls = b.pressedCalls + 1 ↔
          ((b.interact r now)._state ≠ b._state ∧ (b.interact r now).isPressed = true))
      ∧ ((b.interact r now).pressedCalls = b.pressedCalls + 1 ↔
          (b.isPressed = false ∧ (b.interact r now).isPressed = true))
      ∧ ((b.interact r now).isPressed = false →
          (b.interact r now).pressedCalls = b.pressedCalls)
      ∧ (b.isPressed = true → (b.interact r now).pressedCalls = b.pressedCalls))
    ∧ (∀ xs : List (Nat × Nat), (∀ x ∈ xs, x.1 = LOW ∨ x.1 = HIGH) →
        (b.run xs).pressedCalls = b.pressedCalls + b.pressEdges xs) := by
  have hlevel : ∀ r : Nat, (r = LOW ∨ r = HIGH) → r < 256 := by
    intro r h
    rcases h with h | h <;> rw [h] <;> decide
  constructor
  · intro r now hr
    obtain ⟨h1, h2, h3⟩ := Button.interact_fires r now b hcb (hlevel r hr)
    refine ⟨h1, h2, h3, ?_, ?_⟩
    · intro hnp
      rcases h1 with h | h
      · exact h
      · rw [(h3.mp h).2] at hnp
        exact absurd hnp (by decide)
    · intro hp
      rcases h1 with h | h
      · exact h
      · rw [(h3.mp h).1] at hp
        exact absurd hp (by decide)
  · intro xs hx
    exact Button.run_pressedCalls xs b hcb (fun x h => hlevel x.1 (hx x h))

/-- C11, exercised on a fresh button with a callback: `HIGH` is sampled at 10
and 61 (commit, callback), again at 100 (still pressed, no callback), then `LOW`
at 110 and 170 (release, no callback). -/
theorem Button.callback_edge_triggered_witness :
    sampleCallbackButton._buttonPressedFunction = true
    ∧ (sampleCallbackButton.run
        [(HIGH, 10), (HIGH, 61), (HIGH, 100), (LOW, 110), (LOW, 170)]).pressedCalls = 1
    ∧ (sampleCallbackButton.run
        [(HIGH, 10), (HIGH, 61), (HIGH, 100), (LOW, 110), (LOW, 170)]).pressedCalls =
      sampleCallbackButton.pressedCalls
        + sampleCallbackButton.pressEdges
            [(HIGH, 10), (HIGH, 61), (HIGH, 100), (LOW, 110), (LOW, 170)] :=
  ⟨rfl, by decide,
    (Button.callback_edge_triggered sampleCallbackButton rfl).2
      [(HIGH, 10), (HIGH, 61), (HIGH, 100), (LOW, 110), (LOW, 170)] (by decide)⟩

/-! ### C12: when a held level is committed -/

/-- A poll that samples the level already seen at the previous poll keeps the
debounce bookkeeping and commits the level exactly when the timer has run for
more than the debounce delay. -/
theorem Button.interact_hold {v t0 : Nat} (t : Nat) {b : Button} (hv : v < 256)
    (hprev : b._previousState = v) (hlast : b._lastDebounceTime = t0)
    (hdelay : b._debounceDelay = 50) :
    (b.interact v t)._previousState = v ∧ (b.interact v t)._lastDebounceTime = t0
    ∧ (b.interact v t)._debounceDelay = 50
    ∧ (usub t t0 ≤ 50 → (b.interact v t)._state = b._state)
    ∧ (usub t t0 > 50 → (b.interact v t)._state = v)
    ∧ (b._state = v → (b.interact v t)._state = v) := by
  have e : (if v ≠ b._previousState then t else b._lastDebounceTime) = t0 := by
    rw [if_neg (not_not.mpr hprev.symm), hlast]
  rw [Button.interact_previousState, Button.interact_lastDebounceTime,
    Button.interact_debounceDelay, Button.interact_state, e, hdelay, Nat.mod_eq_of_lt hv]
  refine ⟨rfl, rfl, rfl, ?_, ?_, ?_⟩
  · intro h
    rw [if_neg (fun hc => absurd hc.1 (by omega))]
  · intro h
    by_cases hs : b._state = v
    · rw [if_neg (fun hc => hc.2 hs), hs]
    · rw [if_pos ⟨h, hs⟩]
  · intro hs
    rw [if_neg (fun hc => hc.2 hs), hs]

theorem Button.run_hold {v t0 : Nat} (hv : v < 256) (ts : List Nat) :
    ∀ b : Button, b._previousState = v → b._lastDebounceTime = t0 → b._debounceDelay = 50 →
      ((b.run (ts.map (Prod.mk v)))._previousState = v
        ∧ (b.run (ts.map (Prod.mk v)))._lastDebounceTime = t0
        ∧ (b.run (ts.map (Prod.mk v)))._debounceDelay = 50)
      ∧ ((∀ t ∈ ts, usub t t0 ≤ 50) → (b.run (ts.map (Prod.mk v)))._state = b._state)
      ∧ (b._state = v → (b.run (ts.map (Prod.mk v)))._state = v) := by
  induction ts with
  | nil => intro b h1 h2 h3; exact ⟨⟨h1, h2, h3⟩, fun _ => rfl, fun h => h⟩
  | cons t ts ih =>
    intro b h1 h2 h3
    obtain ⟨g1, g2, g3, g4, -, g6⟩ := Button.interact_hold t hv h1 h2 h3
    obtain ⟨k1, k2, k3⟩ := ih (b.interact v t) g1 g2 g3
    simp only [List.map_cons, Button.run]
    refine ⟨k1, ?_, ?_⟩
    · intro hle
      rw [k2 (fun s hs => hle s (List.mem_cons_of_mem _ hs)), g4 (hle t (List.mem_cons_self _ _))]
    · intro hs
      exact k3 (g6 hs)

theorem Button.run_split (xs ys : List (Nat × Nat)) :
    ∀ b : Button, b.run (xs ++ ys) = (b.run xs).run ys := by
  induction xs with
  | nil => intro b; rfl
  | cons x xs ih => intro b; exact ih _

/-- C12: a button (debounce delay 50) whose debounced value differs from the
level `v` is polled at `t0` with a sample `v` that differs from the previous
raw sample, and then keeps sampling `v` at the clock values `pre`, `tc`,
`post`, where every `t` of `pre` has `t - t0 <= 50` and `tc` is the first with
`tc - t0 > 50` (unsigned differences). The debounced value is unchanged after
the call at `t0` and after every call of `pre`, becomes `v` at the call `tc`,
and is `v` after every later call. -/
theorem Button.commit_after_window (b : Button) (v t0 tc : Nat) (pre post : List Nat)
    (hdelay : b._debounceDelay = 50) (hv : v = LOW ∨ v = HIGH)
    (hraw : v ≠ b._previousState) (hstate : b._state ≠ v)
    (hpre : ∀ t ∈ pre, usub t t0 ≤ 50) (htc : usub tc t0 > 50) :
    (b.interact v t0)._state = b._state
    ∧ (∀ p1 p2 : List Nat, pre = p1 ++ p2 →
        ((b.interact v t0).run (p1.map (Prod.mk v)))._state = b._state)
    ∧ ((b.interact v t0).run ((pre ++ [tc]).map (Prod.mk v)))._state = v
    ∧ ((b.interact v t0).run ((pre ++ [tc]).map (Prod.mk v)))._state ≠
        ((b.interact v t0).run (pre.map (Prod.mk v)))._state
    ∧ (∀ q1 q2 : List Nat, post = q1 ++ q2 →
        ((b.interact v t0).run ((pre ++ tc :: q1).map (Prod.mk v)))._state = v) := by
  have hv256 : v < 256 := by rcases hv with h | h <;> rw [h] <;> decide
  have h0s : (b.interact v t0)._state = b._state := by
    rw [Button.interact_state, if_pos hraw, usub_self, if_neg (fun hc => absurd hc.1 (by omega))]
  have h0p : (b.interact v t0)._previousState = v := by
    rw [Button.interact_previousState, Nat.mod_eq_of_lt hv256]
  have h0l : (b.interact v t0)._lastDebounceTime = t0 := by
    rw [Button.interact_lastDebounceTime, if_pos hraw]
  have h0d : (b.interact v t0)._debounceDelay = 50 := by
    rw [Button.interact_debounceDelay, hdelay]
  have hcommit : ∀ q1 : List Nat,
      ((b.interact v t0).run ((pre ++ tc :: q1).map (Prod.mk v)))._state = v := by
    intro q1
    obtain ⟨⟨k1, k2, k3⟩, -, -⟩ := Button.run_hold hv256 pre (b.interact v t0) h0p h0l h0d
    obtain ⟨g1, g2, g3, -, g5, -⟩ := Button.interact_hold tc hv256 k1 k2 k3
    obtain ⟨-, -, m3⟩ := Button.run_hold hv256 q1 _ g1 g2 g3
    rw [List.map_append, Button.run_split, List.map_cons, Button.run]
    exact m3 (g5 htc)
  have hkeep : ∀ p1 p2 : List Nat, pre = p1 ++ p2 →
      ((b.interact v t0).run (p1.map (Prod.mk v)))._state = b._state := by
    intro p1 p2 hp
    obtain ⟨-, k2, -⟩ := Button.run_hold hv256 p1 (b.interact v t0) h0p h0l h0d
    rw [k2 (fun t ht => hpre t (by rw [hp]; exact List.mem_append_left _ ht)), h0s]
  refine ⟨h0s, hkeep, hcommit [], ?_, fun q1 _ _ => hcommit q1⟩
  rw [hcommit [], hkeep pre [] (List.append_nil _).symm]
  exact fun e => hstate e.symm

/-- C12, exercised on a fresh button: `HIGH` first sampled at 10, held at 30
and 60 (exactly 50 ms, no commit), committed at 61, still `HIGH` at 200. -/
theorem Button.commit_after_window_witness :
    sampleButton._debounceDelay = 50 ∧ HIGH ≠ sampleButton._previousState
    ∧ sampleButton._state ≠ HIGH
    ∧ usub 60 10 ≤ 50 ∧ usub 61 10 > 50
    ∧ (sampleButton.interact HIGH 10)._state = sampleButton._state
    ∧ ((sampleButton.interact HIGH 10).run (([30, 60] ++ [61]).map (Prod.mk HIGH)))._state
        = HIGH :=
  have h := Button.commit_after_window sampleButton HIGH 10 61 [30, 60] [200] rfl
    (Or.inr rfl) (by decide) (by decide) (by decide) (by decide)
  ⟨rfl, by decide, by decide, by decide, by decide, h.1, h.2.2.1⟩

/-! ### When `on()` and `off()` return, and what they leave untouched -/

theorem LED.returns_samePeers {σ τ : LEDStore} (h : LEDStore.SamePeers σ τ) (n : Nat) :
    ∀ p, LED.returns n τ p = LED.returns n σ p := by
  induction n with
  | zero => intro p; rfl
  | succ n ih =>
    intro p
    simp only [LED.returns, h p]
    cases (σ p)._opposite with
    | none => rfl
    | some q => exact ih q

theorem LED.returns_succ (σ : LEDStore) (n : Nat) :
    ∀ p, LED.returns n σ p = true → LED.returns (n + 1) σ p = true := by
  induction n with
  | zero => intro p h; simp [LED.returns] at h
  | succ n ih =>
    intro p h
    simp only [LED.returns] at h ⊢
    cases hq : (σ p)._opposite with
    | none => rfl
    | some q =>
      rw [hq] at h
      exact ih q h

theorem LED.on_peer (n : Nat) {σ : LEDStore} {p q : Nat} (h : (σ p)._opposite = some q) :
    LED.on (n + 1) σ p =
      LED.off n (Function.update σ p
        { σ p with pinOut := HIGH, _state := LED.ON, _isOff := false }) q := by
  simp [LED.on, h]

theorem LED.off_peer (n : Nat) {σ : LEDStore} {p q : Nat} (h : (σ p)._opposite = some q) :
    LED.off (n + 1) σ p =
      LED.on n (Function.update σ p
        { σ p with pinOut := LOW, _state := LED.OFF, _isOff := true }) q := by
  simp [LED.off, h]

theorem LED.returns_peer (n : Nat) {σ : LEDStore} {p q : Nat} (h : (σ p)._opposite = some q) :
    LED.returns (n + 1) σ p = LED.returns n σ q := by
  simp [LED.returns, h]

theorem LED.returns_noPeer (n : Nat) {σ : LEDStore} {p : Nat} (h : (σ p)._opposite = none) :
    LED.returns (n + 1) σ p = true := by
  simp [LED.returns, h]

theorem LED.on_off_isSome (n : Nat) :
    ∀ (σ : LEDStore) (p : Nat),
      (LED.on n σ p).isSome = LED.returns n σ p
      ∧ (LED.off n σ p).isSome = LED.returns n σ p := by
  induction n with
  | zero => intro σ p; exact ⟨rfl, rfl⟩
  | succ n ih =>
    intro σ p
    have hon := LEDStore.SamePeers.update σ p
      { σ p with pinOut := HIGH, _state := LED.ON, _isOff := false } rfl
    have hoff := LEDStore.SamePeers.update σ p
      { σ p with pinOut := LOW, _state := LED.OFF, _isOff := true } rfl
    cases hq : (σ p)._opposite with
    | none =>
      rw [LED.on_noPeer n σ p hq, LED.off_noPeer n σ p hq, LED.returns_noPeer n hq]
      exact ⟨rfl, rfl⟩
    | some q =>
      rw [LED.on_peer n hq, LED.off_peer n hq, LED.returns_peer n hq]
      exact ⟨((ih _ q).2).trans (LED.returns_samePeers hon n q),
        ((ih _ q).1).trans (LED.returns_samePeers hoff n q)⟩

theorem LED.on_returns {n : Nat} {σ σ1 : LEDStore} {p : Nat} (h : LED.on n σ p = some σ1) :
    LED.returns n σ p = true := by
  rw [← (LED.on_off_isSome n σ p).1, h]; rfl

theorem LED.off_returns {n : Nat} {σ σ1 : LEDStore} {p : Nat} (h : LED.off n σ p = some σ1) :
    LED.returns n σ p = true := by
  rw [← (LED.on_off_isSome n σ p).2, h]; rfl

/-- A call whose peer chain ends within `k` LEDs does not touch an LED whose
own chain is longer. -/
theorem LED.on_off_far (k : Nat) :
    ∀ (n : Nat) (σ σ1 : LEDStore) (q x : Nat),
      LED.returns k σ q = true → LED.returns k σ x = false →
      (LED.on n σ q = some σ1 → σ1 x = σ x) ∧ (LED.off n σ q = some σ1 → σ1 x = σ x) := by
  induction k with
  | zero => intro n σ σ1 q x hq _; simp [LED.returns] at hq
  | succ k ih =>
    intro n σ σ1 q x hq hx
    have hne : x ≠ q := by
      rintro rfl
      rw [hq] at hx; cases hx
    have hxk : LED.returns k σ x = false := by
      cases h : LED.returns k σ x with
      | false => rfl
      | true => rw [LED.returns_succ σ k x h] at hx; cases hx
    cases n with
    | zero => constructor <;> intro h <;> simp [LED.on, LED.off] at h
    | succ n =>
      have hon := LEDStore.SamePeers.update σ q
        { σ q with pinOut := HIGH, _state := LED.ON, _isOff := false } rfl
      have hoff := LEDStore.SamePeers.update σ q
        { σ q with pinOut := LOW, _state := LED.OFF, _isOff := true } rfl
      cases hr : (σ q)._opposite with
      | none =>
        rw [LED.on_noPeer n σ q hr, LED.off_noPeer n σ q hr]
        constructor <;> intro h <;> cases h <;> exact Function.update_noteq hne _ _
      | some r =>
        rw [LED.on_peer n hr, LED.off_peer n hr]
        rw [LED.returns_peer k hr] at hq
        constructor
        · intro h
          rw [(ih n _ σ1 r x ((LED.returns_samePeers hon k r).trans hq)
            ((LED.returns_samePeers hon k x).trans hxk)).2 h]
          exact Function.update_noteq hne _ _
        · intro h
          rw [(ih n _ σ1 r x ((LED.returns_samePeers hoff k r).trans hq)
            ((LED.returns_samePeers hoff k x).trans hxk)).1 h]
          exact Function.update_noteq hne _ _

theorem LED.returns_shorter (σ : LEDStore) (p q : Nat) (hp : (σ p)._opposite = some q) (n : Nat) :
    LED.returns n σ q = true →
      ∃ k, LED.returns k σ q = true ∧ LED.returns k σ p = false := by
  induction n with
  | zero => intro h; simp [LED.returns] at h
  | succ n ih =>
    intro h
    cases hn : LED.returns n σ q with
    | true => exact ih hn
    | false =>
      refine ⟨n + 1, h, ?_⟩
      rw [LED.returns_peer n hp]
      exact hn

/-- A returning call on the mirror peer of an LED leaves that LED as it is. -/
theorem LED.peer_call_keeps_self {n : Nat} {σ σ1 : LEDStore} {p q : Nat}
    (hp : (σ p)._opposite = some q) :
    (LED.on n σ q = some σ1 → σ1 p = σ p) ∧ (LED.off n σ q = some σ1 → σ1 p = σ p) := by
  constructor
  · intro h
    obtain ⟨k, hk1, hk2⟩ := LED.returns_shorter σ p q hp n (LED.on_returns h)
    exact (LED.on_off_far k n σ σ1 q p hk1 hk2).1 h
  · intro h
    obtain ⟨k, hk1, hk2⟩ := LED.returns_shorter σ p q hp n (LED.off_returns h)
    exact (LED.on_off_far k n σ σ1 q p hk1 hk2).2 h

/-- A returning `on()` leaves its own LED on: pin `HIGH`, state `ON`. -/
theorem LED.on_self {n : Nat} {σ σ1 : LEDStore} {p : Nat} (h : LED.on n σ p = some σ1) :
    σ1 p = { σ p with pinOut := HIGH, _state := LED.ON, _isOff := false } := by
  cases n with
  | zero => simp [LED.on] at h
  | succ n =>
    simp only [LED.on] at h
    split at h
    · next q hq =>
      rw [(LED.peer_call_keeps_self hq).2 h]
      simp
    · cases h
      simp

/-- A returning `off()` leaves its own LED off: pin `LOW`, state `OFF`. -/
theorem LED.off_self {n : Nat} {σ σ1 : LEDStore} {p : Nat} (h : LED.off n σ p = some σ1) :
    σ1 p = { σ p with pinOut := LOW, _state := LED.OFF, _isOff := true } := by
  cases n with
  | zero => simp [LED.off] at h
  | succ n =>
    simp only [LED.off] at h
    split at h
    · next q hq =>
      rw [(LED.peer_call_keeps_self hq).1 h]
      simp
    · cases h
      simp

/-! ### One LED mirrored by a peerless one -/

theorem LED.on_mirror (fuel : Nat) (σ : LEDStore) {a b : Nat} (hab : a ≠ b)
    (ha : (σ a)._opposite = some b) (hb : (σ b)._opposite = none) :
    ∃ σ1, LED.on (fuel + 2) σ a = some σ1
      ∧ σ1 a = { σ a with pinOut := HIGH, _state := LED.ON, _isOff := false }
      ∧ σ1 b = { σ b with pinOut := LOW, _state := LED.OFF, _isOff := true } := by
  have hb1 : (Function.update σ a
      { σ a with pinOut := HIGH, _state := LED.ON, _isOff := false } b)._opposite = none := by
    rw [Function.update_noteq (Ne.symm hab)]; exact hb
  rw [LED.on_peer _ ha, LED.off_noPeer _ _ _ hb1]
  refine ⟨_, rfl, ?_, ?_⟩
  · rw [Function.update_noteq hab, Function.update_same]
  · rw [Function.update_same, Function.update_noteq (Ne.symm hab)]

theorem LED.off_mirror (fuel : Nat) (σ : LEDStore) {a b : Nat} (hab : a ≠ b)
    (ha : (σ a)._opposite = some b) (hb : (σ b)._opposite = none) :
    ∃ σ1, LED.off (fuel + 2) σ a = some σ1
      ∧ σ1 a = { σ a with pinOut := LOW, _state := LED.OFF, _isOff := true }
      ∧ σ1 b = { σ b with pinOut := HIGH, _state := LED.ON, _isOff := false } := by
  have hb1 : (Function.update σ a
      { σ a with pinOut := LOW, _state := LED.OFF, _isOff := true } b)._opposite = none := by
    rw [Function.update_noteq (Ne.symm hab)]; exact hb
  rw [LED.off_peer _ ha, LED.on_noPeer _ _ _ hb1]
  refine ⟨_, rfl, ?_, ?_⟩
  · rw [Function.update_noteq hab, Function.update_same]
  · rw [Function.update_same, Function.update_noteq (Ne.symm hab)]

/-- `a.setOpposite(b)` on a peerless `b` returns: `b` becomes the peer of `a`
and is switched on when `_isOff` of `a` is set, off otherwise. -/
theorem LED.setOpposite_noPeer (fuel : Nat) (σ : LEDStore) {a b : Nat} (hab : a ≠ b)
    (hb : (σ b)._opposite = none) :
    ∃ σ1, LED.setOpposite (fuel + 1) σ a b = some σ1
      ∧ σ1 a = { σ a with _opposite := some b }
      ∧ σ1 b = (if (σ a)._isOff then
          { σ b with pinOut := HIGH, _state := LED.ON, _isOff := false }
        else { σ b with pinOut := LOW, _state := LED.OFF, _isOff := true }) := by
  have hb1 : (Function.update σ a { σ a with _opposite := some b } b)._opposite = none := by
    rw [Function.update_noteq (Ne.symm hab)]; exact hb
  unfold LED.setOpposite
  simp only [Function.update_same]
  by_cases hoff : (σ a)._isOff = true
  · rw [if_pos hoff, if_pos hoff, LED.on_noPeer _ _ _ hb1]
    refine ⟨_, rfl, ?_, ?_⟩
    · rw [Function.update_noteq hab, Function.update_same]
    · rw [Function.update_same, Function.update_noteq (Ne.symm hab)]
  · rw [if_neg hoff, if_neg hoff, LED.off_noPeer _ _ _ hb1]
    refine ⟨_, rfl, ?_, ?_⟩
    · rw [Function.update_noteq hab, Function.update_same]
    · rw [Function.update_same, Function.update_noteq (Ne.symm hab)]

/-! ### C13: `setOpposite` on an LED that was only constructed -/

/-- C13 (evaluation of the code): the LED at address 10 was just constructed
with `initialState` `LOW` (pin `LOW`, state `OFF`, `_isOff` never assigned
and zero), the LED at address 11 has no mirror peer. After
`setOpposite` both pins are `LOW`: the peer does not carry the negation. -/
theorem LED.setOpposite_after_new_low :
    (sampleFreshStore 10).pinOut = LOW ∧ (sampleFreshStore 10)._state = LED.OFF
    ∧ (sampleFreshStore 11)._opposite = none
    ∧ ∃ σ1, LED.setOpposite 1 sampleFreshStore 10 11 = some σ1
        ∧ (σ1 10).pinOut = LOW ∧ (σ1 11).pinOut = LOW := by
  refine ⟨by decide, by decide, by decide, ?_⟩
  have hv : (LED.setOpposite 1 sampleFreshStore 10 11).map
      (fun σ => ((σ 10).pinOut, (σ 11).pinOut)) = some (LOW, LOW) := by decide
  cases hr : LED.setOpposite 1 sampleFreshStore 10 11 with
  | none => rw [hr] at hv; cases hv
  | some σ1 =>
    rw [hr] at hv
    simp only [Option.map_some', Option.some.injEq, Prod.mk.injEq] at hv
    exact ⟨σ1, rfl, hv.1, hv.2⟩

/-! ### C14: the mirror is pushed at every change -/

theorem LED.blink_mirror (fuel : Nat) (duration : Int) (now : Nat) (σ : LEDStore) {a b : Nat}
    (hab : a ≠ b) (ha : (σ a)._opposite = some b) (hb : (σ b)._opposite = none) :
    ∃ σ1, LED.blink (fuel + 2) duration now σ a = some σ1
      ∧ σ1 a = { σ a with
          pinOut := LOW, _state := LED.BLINK, _isOff := true
          _duration := duration, _timeLastChange := now }
      ∧ σ1 b = { σ b with pinOut := HIGH, _state := LED.ON, _isOff := false } := by
  have ha1 : (Function.update σ a
      { σ a with _duration := duration, _isOff := true, _timeLastChange := now } a)._opposite
        = some b := by
    rw [Function.update_same]; exact ha
  have hb1 : (Function.update σ a
      { σ a with _duration := duration, _isOff := true, _timeLastChange := now } b)._opposite
        = none := by
    rw [Function.update_noteq (Ne.symm hab)]; exact hb
  obtain ⟨σ2, h2, h2a, h2b⟩ := LED.off_mirror fuel _ hab ha1 hb1
  simp only [LED.blink]
  rw [h2]
  refine ⟨_, rfl, ?_, ?_⟩
  · rw [Function.update_same, h2a, Function.update_same]
  · rw [Function.update_noteq (Ne.symm hab), h2b, Function.update_noteq (Ne.symm hab)]

theorem LED.interact_idle (fuel now : Nat) (σ : LEDStore) (p : Nat)
    (h : (σ p)._state ≠ LED.BLINK
      ∨ ¬ usub now (σ p)._timeLastChange ≥ toULong (σ p)._duration) :
    LED.interact fuel now σ p = some σ := by
  unfold LED.interact
  by_cases hs : (σ p)._state = LED.BLINK
  · rw [if_pos hs]
    rcases h with h | h
    · exact absurd hs h
    · rw [if_neg h]
  · rw [if_neg hs]

theorem LED.interact_toggle_peer (fuel now : Nat) (σ : LEDStore) {p q : Nat}
    (hs : (σ p)._state = LED.BLINK)
    (he : usub now (σ p)._timeLastChange ≥ toULong (σ p)._duration)
    (hq : (σ p)._opposite = some q) :
    LED.interact fuel now σ p =
      match (if (σ p)._isOff then
          LED.off fuel (Function.update σ p { σ p with pinOut := HIGH }) q
        else LED.on fuel (Function.update σ p { σ p with pinOut := LOW }) q) with
      | some σ2 =>
        some (Function.update σ2 p
          { σ2 p with _timeLastChange := now, _isOff := !(σ2 p)._isOff })
      | none => none := by
  unfold LED.interact
  rw [if_pos hs, if_pos he]
  by_cases hoff : (σ p)._isOff = true
  · simp [hoff, hq]
  · simp [hoff, hq]

theorem LED.interact_toggle_noPeer (fuel now : Nat) (σ : LEDStore) {p : Nat}
    (hs : (σ p)._state = LED.BLINK)
    (he : usub now (σ p)._timeLastChange ≥ toULong (σ p)._duration)
    (hq : (σ p)._opposite = none) :
    LED.interact fuel now σ p =
      some (Function.update σ p
        { σ p with
          pinOut := if (σ p)._isOff then HIGH else LOW
          _timeLastChange := now, _isOff := !(σ p)._isOff }) := by
  unfold LED.interact
  rw [if_pos hs, if_pos he]
  by_cases hoff : (σ p)._isOff = true
  · simp [hoff, hq]
  · simp [hoff, hq]

theorem LED.interact_mirror (fuel now : Nat) (σ : LEDStore) {a b : Nat} (hab : a ≠ b)
    (hm : σ.Mirrored a b) :
    ∃ σ1, LED.interact (fuel + 1) now σ a = some σ1 ∧ σ1.Mirrored a b := by
  obtain ⟨ha, hb, hbs, hpins⟩ := hm
  by_cases hidle : (σ a)._state ≠ LED.BLINK
      ∨ ¬ usub now (σ a)._timeLastChange ≥ toULong (σ a)._duration
  · exact ⟨σ, LED.interact_idle _ _ _ _ hidle, ha, hb, hbs, hpins⟩
  · have hs : (σ a)._state = LED.BLINK := by
      by_contra h; exact hidle (Or.inl h)
    have he : usub now (σ a)._timeLastChange ≥ toULong (σ a)._duration := by
      by_contra h; exact hidle (Or.inr h)
    rw [LED.interact_toggle_peer _ _ _ hs he ha]
    rcases hpins with ⟨hoff, -, -⟩ | ⟨hoff, -, -⟩
    · rw [if_pos hoff]
      have hb1 : (Function.update σ a { σ a with pinOut := HIGH } b)._opposite = none := by
        rw [Function.update_noteq (Ne.symm hab)]; exact hb
      rw [LED.off_noPeer _ _ _ hb1]
      refine ⟨_, rfl, ?_, ?_, ?_, Or.inr ⟨?_, ?_, ?_⟩⟩ <;>
        simp [Function.update_noteq hab, Function.update_noteq (Ne.symm hab), ha, hb, hoff]
    · rw [if_neg (by rw [hoff]; decide)]
      have hb1 : (Function.update σ a { σ a with pinOut := LOW } b)._opposite = none := by
        rw [Function.update_noteq (Ne.symm hab)]; exact hb
      rw [LED.on_noPeer _ _ _ hb1]
      refine ⟨_, rfl, ?_, ?_, ?_, Or.inl ⟨?_, ?_, ?_⟩⟩ <;>
        simp [Function.update_noteq hab, Function.update_noteq (Ne.symm hab), ha, hb, hoff]

theorem LED.blink_self {n : Nat} {duration : Int} {now : Nat} {σ σ1 : LEDStore} {p : Nat}
    (h : LED.blink n duration now σ p = some σ1) :
    σ1 p = { σ p with
      pinOut := LOW, _state := LED.BLINK, _isOff := true
      _duration := duration, _timeLastChange := now } := by
  simp only [LED.blink] at h
  split at h
  · next σ2 h2 =>
    cases h
    rw [Function.update_same, LED.off_self h2, Function.update_same]
  · cases h

theorem LEDStore.Mirrored.opposed {σ : LEDStore} {a b : Nat} (h : σ.Mirrored a b) :
    σ.Opposed a b := by
  rcases h.2.2.2 with ⟨-, h1, h2⟩ | ⟨-, h1, h2⟩
  · exact Or.inr ⟨h1, h2⟩
  · exact Or.inl ⟨h1, h2⟩

theorem LEDStore.Mirrored.call {σ : LEDStore} {a b : Nat} (fuel : Nat) (hab : a ≠ b)
    (hm : σ.Mirrored a b) (c : LEDCall) (hc : c.isMirrorCall a b = true) :
    ∃ σ1, σ.call (fuel + 2) c = some σ1 ∧ σ1.Mirrored a b := by
  obtain ⟨ha, hb, hbs, hpins⟩ := hm
  rcases c with p | p | ⟨p, duration, now⟩ | ⟨p, now⟩
  · simp only [LEDCall.isMirrorCall, beq_iff_eq] at hc
    subst hc
    obtain ⟨σ1, h1, h1a, h1b⟩ := LED.on_mirror fuel σ hab ha hb
    refine ⟨σ1, h1, ?_, ?_, ?_, Or.inr ⟨?_, ?_, ?_⟩⟩ <;> simp [h1a, h1b, ha, hb]
  · simp only [LEDCall.isMirrorCall, beq_iff_eq] at hc
    subst hc
    obtain ⟨σ1, h1, h1a, h1b⟩ := LED.off_mirror fuel σ hab ha hb
    refine ⟨σ1, h1, ?_, ?_, ?_, Or.inl ⟨?_, ?_, ?_⟩⟩ <;> simp [h1a, h1b, ha, hb]
  · simp only [LEDCall.isMirrorCall, beq_iff_eq] at hc
    subst hc
    obtain ⟨σ1, h1, h1a, h1b⟩ := LED.blink_mirror fuel duration now σ hab ha hb
    refine ⟨σ1, h1, ?_, ?_, ?_, Or.inl ⟨?_, ?_, ?_⟩⟩ <;> simp [h1a, h1b, ha, hb]
  · simp only [LEDCall.isMirrorCall, Bool.or_eq_true, beq_iff_eq] at hc
    rcases hc with rfl | rfl
    · exact LED.interact_mirror (fuel + 1) now σ hab ⟨ha, hb, hbs, hpins⟩
    · exact ⟨σ, LED.interact_idle _ _ _ _ (Or.inl hbs), ha, hb, hbs, hpins⟩

theorem LEDStore.Mirrored.calls {a b : Nat} (fuel : Nat) (hab : a ≠ b) (cs : List LEDCall) :
    ∀ σ : LEDStore, σ.Mirrored a b → (∀ c ∈ cs, c.isMirrorCall a b = true) →
      ∃ σ1, σ.calls (fuel + 2) cs = some σ1 ∧ σ1.Mirrored a b := by
  induction cs with
  | nil => intro σ hm _; exact ⟨σ, rfl, hm⟩
  | cons c cs ih =>
    intro σ hm hc
    obtain ⟨σ1, h1, hm1⟩ := hm.call fuel hab c (hc c (List.mem_cons_self _ _))
    obtain ⟨σ2, h2, hm2⟩ := ih σ1 hm1 (fun x hx => hc x (List.mem_cons_of_mem _ hx))
    refine ⟨σ2, ?_, hm2⟩
    simp only [LEDStore.calls, h1]
    exact h2

theorem LED.setOpposite_zero (σ : LEDStore) (a b : Nat) : LED.setOpposite 0 σ a b = none := by
  simp only [LED.setOpposite]
  split_ifs <;> rfl

/-- After a returning command on an LED, its `_isOff` flag agrees with its
pin, and no mirror relation has changed. -/
theorem LEDStore.call_command {f0 : Nat} {σ σ0 : LEDStore} {a : Nat} {cmd : LEDCall}
    (hcmd : cmd.isCommandOn a = true) (h : σ.call f0 cmd = some σ0) :
    LEDStore.SamePeers σ σ0
    ∧ (((σ0 a)._isOff = true ∧ (σ0 a).pinOut = LOW)
      ∨ ((σ0 a)._isOff = false ∧ (σ0 a).pinOut = HIGH)) := by
  rcases cmd with p | p | ⟨p, duration, now⟩ | ⟨p, now⟩
  · simp only [LEDCall.isCommandOn, beq_iff_eq] at hcmd
    subst hcmd
    exact ⟨LED.on_samePeers h, Or.inr (by rw [LED.on_self h]; exact ⟨rfl, rfl⟩)⟩
  · simp only [LEDCall.isCommandOn, beq_iff_eq] at hcmd
    subst hcmd
    exact ⟨LED.off_samePeers h, Or.inl (by rw [LED.off_self h]; exact ⟨rfl, rfl⟩)⟩
  · simp only [LEDCall.isCommandOn, beq_iff_eq] at hcmd
    subst hcmd
    exact ⟨LED.blink_samePeers h, Or.inl (by rw [LED.blink_self h]; exact ⟨rfl, rfl⟩)⟩
  · simp [LEDCall.isCommandOn] at hcmd

/-- A command on `a` followed by `a.setOpposite(b)` establishes the mirror. -/
theorem LEDStore.mirrored_of_command_setOpposite {f0 f1 : Nat} {σ σ0 σ1 : LEDStore} {a b : Nat}
    {cmd : LEDCall} (hab : a ≠ b) (hb : (σ b)._opposite = none)
    (hcmd : cmd.isCommandOn a = true) (h0 : σ.call f0 cmd = some σ0)
    (h1 : LED.setOpposite f1 σ0 a b = some σ1) : σ1.Mirrored a b := by
  obtain ⟨hsp, hcons⟩ := LEDStore.call_command hcmd h0
  have hb0 : (σ0 b)._opposite = none := (hsp b).trans hb
  cases f1 with
  | zero =>
    rw [LED.setOpposite_zero] at h1
    cases h1
  | succ k =>
    obtain ⟨σ2, h2, h2a, h2b⟩ := LED.setOpposite_noPeer k σ0 hab hb0
    rw [h2] at h1
    cases h1
    rcases hcons with ⟨hoff, hpin⟩ | ⟨hoff, hpin⟩
    · rw [hoff] at h2b
      refine ⟨?_, ?_, ?_, Or.inl ⟨?_, ?_, ?_⟩⟩ <;> simp [h2a, h2b, hb0, hoff, hpin]
    · rw [hoff] at h2b
      refine ⟨?_, ?_, ?_, Or.inr ⟨?_, ?_, ?_⟩⟩ <;> simp [h2a, h2b, hb0, hoff, hpin]

/-- The call `a.setOpposite(b)` followed by a command on `a` establishes the mirror. -/
theorem LEDStore.mirrored_of_setOpposite_command {f0 f1 : Nat} {σ σ0 σ1 : LEDStore} {a b : Nat}
    {cmd : LEDCall} (hab : a ≠ b) (hb : (σ b)._opposite = none)
    (hcmd : cmd.isCommandOn a = true) (h0 : LED.setOpposite f1 σ a b = some σ0)
    (h1 : σ0.call f0 cmd = some σ1) : σ1.Mirrored a b := by
  have hpeers : (σ0 a)._opposite = some b ∧ (σ0 b)._opposite = none := by
    cases f1 with
    | zero =>
      rw [LED.setOpposite_zero] at h0
      cases h0
    | succ k =>
      obtain ⟨σ2, h2, h2a, h2b⟩ := LED.setOpposite_noPeer k σ hab hb
      rw [h2] at h0
      cases h0
      constructor
      · rw [h2a]
      · rw [h2b]; split_ifs <;> exact hb
  obtain ⟨ha0, hb0⟩ := hpeers
  have hret : ∃ k, f0 = k + 2 := by
    have hr : LED.returns f0 σ0 a = true := by
      rcases cmd with p | p | ⟨p, duration, now⟩ | ⟨p, now⟩
      · simp only [LEDCall.isCommandOn, beq_iff_eq] at hcmd
        subst hcmd
        exact LED.on_returns h1
      · simp only [LEDCall.isCommandOn, beq_iff_eq] at hcmd
        subst hcmd
        exact LED.off_returns h1
      · simp only [LEDCall.isCommandOn, beq_iff_eq] at hcmd
        subst hcmd
        simp only [LEDStore.call, LED.blink] at h1
        split at h1
        · next σ2 h2 =>
          have h3 := LED.off_returns h2
          rw [← LED.returns_samePeers (LEDStore.SamePeers.update σ0 p
            { σ0 p with _duration := duration, _isOff := true, _timeLastChange := now } rfl)]
          exact h3
        · cases h1
      · simp [LEDCall.isCommandOn] at hcmd
    match f0, hr with
    | 0, hr => simp [LED.returns] at hr
    | 1, hr => simp [LED.returns, ha0] at hr
    | k + 2, _ => exact ⟨k, rfl⟩
  obtain ⟨k, rfl⟩ := hret
  rcases cmd with p | p | ⟨p, duration, now⟩ | ⟨p, now⟩
  · simp only [LEDCall.isCommandOn, beq_iff_eq] at hcmd
    subst hcmd
    obtain ⟨σ2, h2, h2a, h2b⟩ := LED.on_mirror k σ0 hab ha0 hb0
    simp only [LEDStore.call] at h1
    rw [h2] at h1
    cases h1
    refine ⟨?_, ?_, ?_, Or.inr ⟨?_, ?_, ?_⟩⟩ <;> simp [h2a, h2b, ha0, hb0]
  · simp only [LEDCall.isCommandOn, beq_iff_eq] at hcmd
    subst hcmd
    obtain ⟨σ2, h2, h2a, h2b⟩ := LED.off_mirror k σ0 hab ha0 hb0
    simp only [LEDStore.call] at h1
    rw [h2] at h1
    cases h1
    refine ⟨?_, ?_, ?_, Or.inl ⟨?_, ?_, ?_⟩⟩ <;> simp [h2a, h2b, ha0, hb0]
  · simp only [LEDCall.isCommandOn, beq_iff_eq] at hcmd
    subst hcmd
    obtain ⟨σ2, h2, h2a, h2b⟩ := LED.blink_mirror k duration now σ0 hab ha0 hb0
    simp only [LEDStore.call] at h1
    rw [h2] at h1
    cases h1
    refine ⟨?_, ?_, ?_, Or.inl ⟨?_, ?_, ?_⟩⟩ <;> simp [h2a, h2b, ha0, hb0]
  · simp [LEDCall.isCommandOn] at hcmd

/-- C14: `a` and `b` are distinct LEDs and `b` has no mirror peer. Once a
command `on()`, `off()` or `blink(p)` on `a` and the call `a.setOpposite(b)`
have both returned, in either order, the pin of `b` carries the negation of
the pin of `a`; and every sequence of calls among `a.on()`, `a.off()`,
`a.blink(p)`, `a.interact()` and `b.interact()`, at any clock values, returns
with the pin of `b` again carrying the negation of the pin of `a` (so this
holds after every step, each prefix being such a sequence). In particular an
`a.interact()` that toggles the pin of `a` flips the pin of `b` in the same
call. -/
theorem LEDStore.mirror_pushed (σ σ1 : LEDStore) (a b : Nat) (cmd : LEDCall) (f0 f1 : Nat)
    (hab : a ≠ b) (hb : (σ b)._opposite = none) (hcmd : cmd.isCommandOn a = true)
    (hest : (∃ σ0, σ.call f0 cmd = some σ0 ∧ LED.setOpposite f1 σ0 a b = some σ1)
      ∨ (∃ σ0, LED.setOpposite f1 σ a b = some σ0 ∧ σ0.call f0 cmd = some σ1)) :
    σ1.Opposed a b
    ∧ ∀ (fuel : Nat) (cs : List LEDCall), (∀ c ∈ cs, c.isMirrorCall a b = true) →
        ∃ σ2, σ1.calls (fuel + 2) cs = some σ2 ∧ σ2.Opposed a b
          ∧ ∀ now : Nat, ∃ σ3, LED.interact (fuel + 2) now σ2 a = some σ3
              ∧ σ3.Opposed a b
              ∧ ((σ3 a).pinOut ≠ (σ2 a).pinOut → (σ3 b).pinOut ≠ (σ2 b).pinOut) := by
  have hm : σ1.Mirrored a b := by
    rcases hest with ⟨σ0, h0, h1⟩ | ⟨σ0, h0, h1⟩
    · exact LEDStore.mirrored_of_command_setOpposite hab hb hcmd h0 h1
    · exact LEDStore.mirrored_of_setOpposite_command hab hb hcmd h0 h1
  refine ⟨hm.opposed, ?_⟩
  intro fuel cs hcs
  obtain ⟨σ2, h2, hm2⟩ := LEDStore.Mirrored.calls fuel hab cs σ1 hm hcs
  refine ⟨σ2, h2, hm2.opposed, ?_⟩
  intro now
  obtain ⟨σ3, h3, hm3⟩ := LED.interact_mirror (fuel + 1) now σ2 hab hm2
  refine ⟨σ3, h3, hm3.opposed, ?_⟩
  intro hne
  rcases hm2.opposed with ⟨p1, p2⟩ | ⟨p1, p2⟩ <;>
    rcases hm3.opposed with ⟨q1, q2⟩ | ⟨q1, q2⟩
  · rw [p1, q1] at hne; exact absurd rfl hne
  · rw [p2, q2]; decide
  · rw [p2, q2]; decide
  · rw [p1, q1] at hne; exact absurd rfl hne

/-- C14, exercised on the sample store: `on()` on the LED at address 10, then
`setOpposite` with the LED at address 11, then blinking with period 100 from
clock value 0 and polls of both LEDs. -/
theorem LEDStore.mirror_pushed_witness :
    (10 : Nat) ≠ 11 ∧ (sampleStore 11)._opposite = none
    ∧ (LEDCall.on 10).isCommandOn 10 = true
    ∧ (∃ σ0, sampleStore.call 1 (LEDCall.on 10) = some σ0
        ∧ LED.setOpposite 1 σ0 10 11 = some sampleMirrorStore)
    ∧ sampleMirrorStore.Opposed 10 11
    ∧ ∃ σ2, sampleMirrorStore.calls 2
          [LEDCall.blink 10 100 0, LEDCall.interact 10 50, LEDCall.interact 11 60,
            LEDCall.interact 10 100] = some σ2
        ∧ σ2.Opposed 10 11 :=
  have hest : ∃ σ0, sampleStore.call 1 (LEDCall.on 10) = some σ0
      ∧ LED.setOpposite 1 σ0 10 11 = some sampleMirrorStore := ⟨sampleOnStore, rfl, rfl⟩
  have h := LEDStore.mirror_pushed sampleStore sampleMirrorStore 10 11 (LEDCall.on 10) 1 1
    (by decide) rfl rfl (Or.inl hest)
  have h2 := h.2 0 [LEDCall.blink 10 100 0, LEDCall.interact 10 50, LEDCall.interact 11 60,
    LEDCall.interact 10 100] (by decide)
  ⟨by decide, rfl, rfl, hest, h.1,
    h2.elim fun σ2 hσ => ⟨σ2, hσ.1, hσ.2.1⟩⟩

/-! ### C15: blink cadence -/

theorem toULong_natCast {P : Nat} (hP : P < ULONG_RANGE) : toULong (P : Int) = P := by
  unfold toULong
  have h : ((P : Int) % 4294967296) = (P : Int) := by
    apply Int.emod_eq_of_lt
    · exact Int.natCast_nonneg P
    · exact_mod_cast hP
  rw [h]
  exact Int.toNat_natCast P

theorem LED.blink_isSome (fuel : Nat) (duration : Int) (now : Nat) (σ : LEDStore) (p : Nat) :
    (LED.blink fuel duration now σ p).isSome = LED.returns fuel σ p := by
  have hu := LEDStore.SamePeers.update σ p
    { σ p with _duration := duration, _isOff := true, _timeLastChange := now } rfl
  rw [← LED.returns_samePeers hu fuel p, ← (LED.on_off_isSome fuel _ p).2]
  simp only [LED.blink]
  cases LED.off fuel (Function.update σ p
    { σ p with _duration := duration, _isOff := true, _timeLastChange := now }) p <;> rfl

/-- One poll of a blinking LED whose `_isOff` flag agrees with its pin: when
the period has elapsed the pin is flipped and the toggle time becomes `now`,
otherwise nothing changes. -/
theorem LED.interact_blinking {fuel now : Nat} {τ τ1 : LEDStore} {p : Nat}
    (hs : (τ p)._state = LED.BLINK) (hph : (τ p).InPhase)
    (h : LED.interact fuel now τ p = some τ1) :
    (usub now (τ p)._timeLastChange ≥ toULong (τ p)._duration →
        (τ1 p).pinOut = (if (τ p).pinOut = LOW then HIGH else LOW)
        ∧ (τ1 p).pinOut ≠ (τ p).pinOut
        ∧ (τ1 p)._timeLastChange = now ∧ (τ1 p)._state = LED.BLINK
        ∧ (τ1 p)._duration = (τ p)._duration ∧ (τ1 p).InPhase)
    ∧ (¬ usub now (τ p)._timeLastChange ≥ toULong (τ p)._duration → τ1 = τ) := by
  constructor
  · intro he
    cases hq : (τ p)._opposite with
    | none =>
      rw [LED.interact_toggle_noPeer _ _ _ hs he hq] at h
      cases h
      rcases hph with ⟨h1, h2⟩ | ⟨h1, h2⟩
      · simp [LED.InPhase, h1, h2, hs]
      · simp [LED.InPhase, h1, h2, hs]
    | some q =>
      rw [LED.interact_toggle_peer _ _ _ hs he hq] at h
      rcases hph with ⟨h1, h2⟩ | ⟨h1, h2⟩
      · rw [if_pos h1] at h
        split at h
        · next σ2 h3 =>
          cases h
          have hq1 : (Function.update τ p { τ p with pinOut := HIGH } p)._opposite = some q := by
            rw [Function.update_same]; exact hq
          have hk := (LED.peer_call_keeps_self hq1).2 h3
          rw [Function.update_same] at hk
          simp [LED.InPhase, hk, h1, h2, hs]
        · cases h
      · rw [if_neg (by rw [h1]; decide)] at h
        split at h
        · next σ2 h3 =>
          cases h
          have hq1 : (Function.update τ p { τ p with pinOut := LOW } p)._opposite = some q := by
            rw [Function.update_same]; exact hq
          have hk := (LED.peer_call_keeps_self hq1).1 h3
          rw [Function.update_same] at hk
          simp [LED.InPhase, hk, h1, h2, hs]
        · cases h
  · intro he
    rw [LED.interact_idle _ _ _ _ (Or.inr he)] at h
    cases h
    rfl

theorem LEDStore.calls_append (fuel : Nat) (xs ys : List LEDCall) :
    ∀ σ : LEDStore,
      σ.calls fuel (xs ++ ys) = (σ.calls fuel xs).bind (fun σ1 => σ1.calls fuel ys) := by
  induction xs with
  | nil => intro σ; rfl
  | cons c xs ih =>
    intro σ
    simp only [List.cons_append, LEDStore.calls]
    cases σ.call fuel c with
    | none => rfl
    | some σ1 => exact ih σ1

/-- Polls that find the LED not blinking, or the period not elapsed, change
nothing. -/
theorem LEDStore.calls_polls_idle (fuel : Nat) (σ : LEDStore) (p : Nat) (ts : List Nat)
    (h : ∀ t ∈ ts, (σ p)._state ≠ LED.BLINK
      ∨ ¬ usub t (σ p)._timeLastChange ≥ toULong (σ p)._duration) :
    σ.calls fuel (LEDCall.polls p ts) = some σ := by
  induction ts with
  | nil => rfl
  | cons t ts ih =>
    simp only [LEDCall.polls, List.map_cons, LEDStore.calls, LEDStore.call]
    rw [LED.interact_idle _ _ _ _ (h t (List.mem_cons_self _ _))]
    exact ih (fun s hs => h s (List.mem_cons_of_mem _ hs))

/-- Clock values chained by "not earlier, and at most `g` later" are
non-decreasing. -/
theorem chain_gap_mono {g T2 : Nat} (pre : List Nat) :
    ∀ s : Nat, List.Chain (fun x y => x ≤ y ∧ y ≤ x + g) s (pre ++ [T2]) →
      s ≤ T2 ∧ ∀ t ∈ pre, s ≤ t ∧ t ≤ T2 := by
  induction pre with
  | nil =>
    intro s hc
    simp only [List.nil_append, List.chain_cons, List.Chain.nil, and_true] at hc
    exact ⟨hc.1, fun t ht => absurd ht (List.not_mem_nil t)⟩
  | cons t pre ih =>
    intro s hc
    simp only [List.cons_append, List.chain_cons] at hc
    obtain ⟨⟨h1, -⟩, hrest⟩ := hc
    obtain ⟨k1, k2⟩ := ih t hrest
    refine ⟨le_trans h1 k1, ?_⟩
    intro u hu
    rcases List.mem_cons.mp hu with rfl | hu
    · exact ⟨h1, k1⟩
    · exact ⟨le_trans h1 (k2 u hu).1, (k2 u hu).2⟩

/-- If the start and all clock values but the last are at most `bound`, the
last is at most `bound + g`. -/
theorem chain_gap_bound {g bound T2 : Nat} (pre : List Nat) :
    ∀ s : Nat, List.Chain (fun x y => x ≤ y ∧ y ≤ x + g) s (pre ++ [T2]) →
      s ≤ bound → (∀ t ∈ pre, t ≤ bound) → T2 ≤ bound + g := by
  induction pre with
  | nil =>
    intro s hc hs _
    simp only [List.nil_append, List.chain_cons, List.Chain.nil, and_true] at hc
    omega
  | cons t pre ih =>
    intro s hc _ hb
    simp only [List.cons_append, List.chain_cons] at hc
    exact ih t hc.2 (hb t (List.mem_cons_self _ _))
      (fun u hu => hb u (List.mem_cons_of_mem _ hu))

/-- After a returning `on()` or `off()` the LED does not blink: polls of it
change nothing. -/
theorem LEDStore.calls_polls_settled (f : Nat) (σ : LEDStore) (p : Nat) (ts : List Nat)
    (h : (σ p)._state ≠ LED.BLINK) : σ.calls f (LEDCall.polls p ts) = some σ :=
  LEDStore.calls_polls_idle f σ p ts (fun _ _ => Or.inl h)

/-- C15: `blink(P)` with `0 <= P < 2 ^ 32` at clock value `t0` returns exactly
when the chain of mirror peers ends, and leaves the pin `LOW` (off phase),
last-toggle time `t0`, state `BLINK`. While blinking, an `interact()` at clock
value `now` flips the pin and sets the last-toggle time to `now` if and only
if `now - lastToggle >= P` (unsigned difference) and otherwise changes nothing.
Hence, for polls at most `g` apart without clock wraparound, the toggle that
follows a toggle at `T1` comes at `T2` with `T1 + P <= T2 <= T1 + P + g`.
`slowBlink()` is `blink(1000)`, `fastBlink()` is `blink(250)`. After a
returning `on()` or `off()` no later poll of the LED changes anything. -/
theorem LED.blink_cadence (fuel : Nat) (σ : LEDStore) (p P t0 : Nat) (hP : P < ULONG_RANGE) :
    (LED.blink fuel (P : Int) t0 σ p).isSome = LED.returns fuel σ p
    ∧ (∀ σ1, LED.blink fuel (P : Int) t0 σ p = some σ1 →
        (σ1 p).pinOut = LOW ∧ (σ1 p)._timeLastChange = t0 ∧ (σ1 p)._state = LED.BLINK
        ∧ (σ1 p)._duration = (P : Int) ∧ (σ1 p).InPhase)
    ∧ (∀ (τ τ1 : LEDStore) (now : Nat), (τ p)._state = LED.BLINK →
        (τ p)._duration = (P : Int) → (τ p).InPhase →
        LED.interact fuel now τ p = some τ1 →
        ((τ1 p).pinOut ≠ (τ p).pinOut ↔ usub now (τ p)._timeLastChange ≥ P)
        ∧ (usub now (τ p)._timeLastChange ≥ P →
            (τ1 p).pinOut = (if (τ p).pinOut = LOW then HIGH else LOW)
            ∧ (τ1 p)._timeLastChange = now ∧ (τ1 p)._state = LED.BLINK
            ∧ (τ1 p)._duration = (P : Int) ∧ (τ1 p).InPhase)
        ∧ (usub now (τ p)._timeLastChange < P → τ1 = τ))
    ∧ (∀ (τ : LEDStore) (now : Nat), (τ p)._opposite = none →
        (LED.interact fuel now τ p).isSome = true)
    ∧ (∀ (τ : LEDStore) (T1 T2 g : Nat) (pre : List Nat), (τ p)._opposite = none →
        (τ p)._state = LED.BLINK → (τ p)._duration = (P : Int) → (τ p).InPhase →
        (τ p)._timeLastChange = T1 →
        List.Chain (fun x y => x ≤ y ∧ y ≤ x + g) T1 (pre ++ [T2]) → T2 < ULONG_RANGE →
        (∀ t ∈ pre, usub t T1 < P) → usub T2 T1 ≥ P →
        τ.calls fuel (LEDCall.polls p pre) = some τ
        ∧ (∃ τ2, τ.calls fuel (LEDCall.polls p (pre ++ [T2])) = some τ2
            ∧ (τ2 p).pinOut ≠ (τ p).pinOut ∧ (τ2 p)._timeLastChange = T2)
        ∧ T1 + P ≤ T2 ∧ T2 ≤ T1 + P + g)
    ∧ (LED.slowBlink fuel t0 σ p = LED.blink fuel 1000 t0 σ p
        ∧ LED.fastBlink fuel t0 σ p = LED.blink fuel 250 t0 σ p)
    ∧ (∀ σ1, (LED.on fuel σ p = some σ1 ∨ LED.off fuel σ p = some σ1) →
        ∀ (f : Nat) (ts : List Nat), σ1.calls f (LEDCall.polls p ts) = some σ1) := by
  have hPu : toULong (P : Int) = P := toULong_natCast hP
  refine ⟨LED.blink_isSome _ _ _ _ _, ?_, ?_, ?_, ?_, ⟨rfl, rfl⟩, ?_⟩
  · intro σ1 h
    rw [LED.blink_self h]
    exact ⟨rfl, rfl, rfl, rfl, Or.inl ⟨rfl, rfl⟩⟩
  · intro τ τ1 now hs hd hph h
    obtain ⟨h1, h2⟩ := LED.interact_blinking hs hph h
    rw [hd, hPu] at h1 h2
    refine ⟨⟨fun hne => ?_, fun he => (h1 he).2.1⟩, fun he => ?_, fun hlt => h2 (by omega)⟩
    · by_contra hc
      rw [h2 hc] at hne
      exact hne rfl
    · obtain ⟨g1, -, g3, g4, g5, g6⟩ := h1 he
      exact ⟨g1, g3, g4, g5, g6⟩
  · intro τ now hq
    unfold LED.interact
    split_ifs <;> simp [hq]
  · intro τ T1 T2 g pre hq hs hd hph htlc hchain hT2 hpre hlast
    obtain ⟨m1, m2⟩ := chain_gap_mono pre T1 hchain
    have e2 : usub T2 T1 = T2 - T1 := usub_eq_sub m1 hT2
    have hlow : T1 + P ≤ T2 := by omega
    have hb : ∀ t ∈ pre, t ≤ T1 + P := by
      intro t ht
      have h1 := hpre t ht
      rw [usub_eq_sub (m2 t ht).1 (lt_of_le_of_lt (m2 t ht).2 hT2)] at h1
      omega
    have hidle : τ.calls fuel (LEDCall.polls p pre) = some τ := by
      apply LEDStore.calls_polls_idle
      intro t ht
      right
      rw [htlc, hd, hPu]
      have := hpre t ht
      omega
    have he : usub T2 (τ p)._timeLastChange ≥ toULong (τ p)._duration := by
      rw [htlc, hd, hPu]; exact hlast
    refine ⟨hidle, ?_, hlow, chain_gap_bound pre T1 hchain (by omega) hb⟩
    have hcall : LED.interact fuel T2 τ p = some (Function.update τ p
        { τ p with
          pinOut := if (τ p)._isOff then HIGH else LOW
          _timeLastChange := T2, _isOff := !(τ p)._isOff }) :=
      LED.interact_toggle_noPeer _ _ _ hs he hq
    refine ⟨Function.update τ p
        { τ p with
          pinOut := if (τ p)._isOff then HIGH else LOW
          _timeLastChange := T2, _isOff := !(τ p)._isOff }, ?_, ?_, ?_⟩
    · unfold LEDCall.polls at hidle ⊢
      rw [List.map_append, LEDStore.calls_append, hidle]
      simp only [Option.some_bind, List.map_cons, List.map_nil, LEDStore.calls, LEDStore.call,
        hcall]
    · rcases hph with ⟨h1, h2⟩ | ⟨h1, h2⟩ <;> simp [h1, h2]
    · simp
  · intro σ1 h f ts
    apply LEDStore.calls_polls_settled
    rcases h with h | h
    · rw [LED.on_self h]; simp
    · rw [LED.off_self h]; simp

/-- C15, exercised on the sample store: `blink(100)` at clock value 1000 on
the LED at address 10, then polls at 1040, 1080 and 1120 (at most 40 apart):
the first toggle comes at 1120, between 1100 and 1140. -/
theorem LED.blink_cadence_witness :
    (100 : Nat) < ULONG_RANGE
    ∧ LED.blink 1 (100 : Nat) 1000 sampleStore 10 = some sampleBlinkStore
    ∧ (sampleBlinkStore 10).pinOut = LOW ∧ (sampleBlinkStore 10)._timeLastChange = 1000
    ∧ sampleBlinkStore.calls 1 (LEDCall.polls 10 [1040, 1080]) = some sampleBlinkStore
    ∧ (∃ τ2, sampleBlinkStore.calls 1 (LEDCall.polls 10 ([1040, 1080] ++ [1120])) = some τ2
        ∧ (τ2 10).pinOut ≠ (sampleBlinkStore 10).pinOut ∧ (τ2 10)._timeLastChange = 1120)
    ∧ 1000 + 100 ≤ 1120 ∧ 1120 ≤ 1000 + 100 + 40 :=
  have h := LED.blink_cadence 1 sampleStore 10 100 1000 (by decide)
  have hb := h.2.1 sampleBlinkStore rfl
  have hc := h.2.2.2.2.1 sampleBlinkStore 1000 1120 40 [1040, 1080] rfl rfl rfl
    (Or.inl ⟨rfl, rfl⟩) rfl (by simp) (by decide) (by decide) (by decide)
  ⟨by decide, rfl, hb.1, hb.2.1, hc.1, hc.2.1, hc.2.2.1, hc.2.2.2⟩

/-! ### C16: two LEDs mirroring each other -/

theorem LED.returns_cycle {σ : LEDStore} {a b : Nat} (ha : (σ a)._opposite = some b)
    (hb : (σ b)._opposite = some a) (n : Nat) :
    LED.returns n σ a = false ∧ LED.returns n σ b = false := by
  induction n with
  | zero => exact ⟨rfl, rfl⟩
  | succ n ih =>
    rw [LED.returns_peer n ha, LED.returns_peer n hb]
    exact ⟨ih.2, ih.1⟩

theorem LED.on_off_cycle {σ : LEDStore} {a b : Nat} (ha : (σ a)._opposite = some b)
    (hb : (σ b)._opposite = some a) (n : Nat) :
    LED.on n σ a = none ∧ LED.off n σ a = none := by
  have h1 := (LED.on_off_isSome n σ a).1
  have h2 := (LED.on_off_isSome n σ a).2
  rw [(LED.returns_cycle ha hb n).1] at h1 h2
  constructor
  · cases h : LED.on n σ a with
    | none => rfl
    | some s => rw [h] at h1; cases h1
  · cases h : LED.off n σ a with
    | none => rfl
    | some s => rw [h] at h2; cases h2

/-- When `a` already mirrors `b`, the call `b.setOpposite(a)` closes a cycle
and never returns. -/
theorem LED.setOpposite_closing_cycle {σ : LEDStore} {a b : Nat} (hab : a ≠ b)
    (ha : (σ a)._opposite = some b) (n : Nat) : LED.setOpposite n σ b a = none := by
  have ha1 : (Function.update σ b { σ b with _opposite := some a } a)._opposite = some b := by
    rw [Function.update_noteq hab]; exact ha
  have hb1 : (Function.update σ b { σ b with _opposite := some a } b)._opposite = some a := by
    rw [Function.update_same]
  obtain ⟨h1, h2⟩ := LED.on_off_cycle ha1 hb1 n
  simp only [LED.setOpposite]
  split_ifs
  · exact h1
  · exact h2

/-- Two distinct LEDs, `a` mirroring `b`. If `b` mirrors `a` as well (a
2-cycle), `a.on()` and `a.off()` never return. If `b` has no mirror peer,
`a.on()` and `a.off()` return with `a` in the commanded state and `b` in the
opposite one. In both cases the call `b.setOpposite(a)`, which closes the
cycle, never returns. -/
theorem LED.mirror_calls_return_iff_acyclic (σ : LEDStore) (a b : Nat) (hab : a ≠ b)
    (ha : (σ a)._opposite = some b) :
    ((σ b)._opposite = some a →
        ∀ fuel : Nat, LED.on fuel σ a = none ∧ LED.off fuel σ a = none)
    ∧ ((σ b)._opposite = none → ∀ fuel : Nat,
        (∃ σ1, LED.on (fuel + 2) σ a = some σ1
          ∧ (σ1 a)._state = LED.ON ∧ (σ1 a).pinOut = HIGH
          ∧ (σ1 b)._state = LED.OFF ∧ (σ1 b).pinOut = LOW)
        ∧ (∃ σ1, LED.off (fuel + 2) σ a = some σ1
          ∧ (σ1 a)._state = LED.OFF ∧ (σ1 a).pinOut = LOW
          ∧ (σ1 b)._state = LED.ON ∧ (σ1 b).pinOut = HIGH))
    ∧ (∀ fuel : Nat, LED.setOpposite fuel σ b a = none) := by
  refine ⟨fun hb fuel => LED.on_off_cycle ha hb fuel, fun hb fuel => ⟨?_, ?_⟩,
    fun fuel => LED.setOpposite_closing_cycle hab ha fuel⟩
  · obtain ⟨σ1, h1, h1a, h1b⟩ := LED.on_mirror fuel σ hab ha hb
    refine ⟨σ1, h1, ?_, ?_, ?_, ?_⟩ <;> simp [h1a, h1b]
  · obtain ⟨σ1, h1, h1a, h1b⟩ := LED.off_mirror fuel σ hab ha hb
    refine ⟨σ1, h1, ?_, ?_, ?_, ?_⟩ <;> simp [h1a, h1b]

/-- C16 (evaluation of the code): two LEDs without mirror peer at addresses 10
and 11. `on()` on the first and `setOpposite` making the second its mirror
peer both return, and `on()` on the first then still returns, leaving it `ON`
(pin `HIGH`) and the second `OFF` (pin `LOW`). The call of `setOpposite` on the
second with the address of the first, which establishes the second half of the
cycle, returns for no call-depth budget: once it has assigned `_opposite` the
two LEDs mirror each other, and the `on()` it then calls on the first, like
every `on()` and `off()` on either LED of that 2-cycle, never returns. -/
theorem LED.setOpposite_back_never_returns :
    (sampleStore 10)._opposite = none ∧ (sampleStore 11)._opposite = none
    ∧ sampleStore.call 1 (LEDCall.on 10) = some sampleOnStore
    ∧ LED.setOpposite 1 sampleOnStore 10 11 = some sampleMirrorStore
    ∧ (sampleMirrorStore 10)._opposite = some 11 ∧ (sampleMirrorStore 11)._opposite = none
    ∧ (∃ σ1, LED.on 2 sampleMirrorStore 10 = some σ1
          ∧ (σ1 10)._state = LED.ON ∧ (σ1 10).pinOut = HIGH
          ∧ (σ1 11)._state = LED.OFF ∧ (σ1 11).pinOut = LOW)
    ∧ (∀ fuel : Nat, LED.setOpposite fuel sampleMirrorStore 11 10 = none)
    ∧ (∀ fuel : Nat,
        LED.setOpposite fuel sampleMirrorStore 11 10 = LED.on fuel sampleCycleStore 10)
    ∧ (sampleCycleStore 10)._opposite = some 11 ∧ (sampleCycleStore 11)._opposite = some 10
    ∧ ∀ fuel : Nat,
        LED.on fuel sampleCycleStore 10 = none ∧ LED.off fuel sampleCycleStore 10 = none
        ∧ LED.on fuel sampleCycleStore 11 = none ∧ LED.off fuel sampleCycleStore 11 = none := by
  have hon : ∃ σ1, LED.on 2 sampleMirrorStore 10 = some σ1
      ∧ (σ1 10)._state = LED.ON ∧ (σ1 10).pinOut = HIGH
      ∧ (σ1 11)._state = LED.OFF ∧ (σ1 11).pinOut = LOW := by
    obtain ⟨σ1, h1, h1a, h1b⟩ :=
      @LED.on_mirror 0 sampleMirrorStore 10 11 (by decide) rfl rfl
    refine ⟨σ1, h1, ?_, ?_, ?_, ?_⟩ <;> simp [h1a, h1b]
  refine ⟨rfl, rfl, rfl, rfl, rfl, rfl, hon,
    fun fuel => @LED.setOpposite_closing_cycle sampleMirrorStore 10 11 (by decide) rfl fuel,
    fun fuel => rfl, rfl, rfl, fun fuel => ?_⟩
  obtain ⟨h1, h2⟩ := @LED.on_off_cycle sampleCycleStore 10 11 rfl rfl fuel
  obtain ⟨h3, h4⟩ := @LED.on_off_cycle sampleCycleStore 11 10 rfl rfl fuel
  exact ⟨h1, h2, h3, h4⟩

/-! ### C17: the limit switch comes before the jam check -/

theorem Door.changeLEDState_isSome (fuel now : Nat) (d : Door) :
    (d._state = OPEN → (d.changeLEDState fuel now).isSome = LED.returns fuel d.leds d._greenLED)
    ∧ (d._state = CLOSED →
        (d.changeLEDState fuel now).isSome = LED.returns fuel d.leds d._redLED) := by
  constructor
  · intro hs
    unfold Door.changeLEDState
    rw [if_pos hs]
    split_ifs
    · rw [Option.isSome_map', LED.fastBlink, LED.blink_isSome]
    · rw [Option.isSome_map', (LED.on_off_isSome _ _ _).1]
  · intro hs
    unfold Door.changeLEDState
    rw [if_neg (by rw [hs]; decide), if_pos hs]
    split_ifs
    · rw [Option.isSome_map', LED.fastBlink, LED.blink_isSome]
    · rw [Option.isSome_map', (LED.on_off_isSome _ _ _).1]

/-- C17: when a door in state `OPENING` (resp. `CLOSING`) is polled and, after
the polling of this very call, its open-limit (resp. closed-limit) button is
debounced-pressed, then whatever the clock value and the motion-start
timestamp, `interact()` sets the state to `OPEN` (resp. `CLOSED`), stops the
motor and then refreshes the LEDs, without invoking the halt callback. The
call returns exactly when the LED command of the refresh does, that is when
the chain of mirror peers of the green (resp. red) LED ends. -/
theorem Door.limit_switch_before_jam (fuel : Nat) (d : Door) (closedRead openRead now : Nat)
    (h : (d._state = OPENING ∧ (d._openButton.interact openRead now).isPressed = true)
      ∨ (d._state = CLOSING ∧ (d._closedButton.interact closedRead now).isPressed = true)) :
    d.interact fuel closedRead openRead now =
        Door.changeLEDState fuel now
          { d.poll closedRead openRead now with
            _state := if d._state = OPENING then OPEN else CLOSED
            _motor := d._motor.stop }
    ∧ (∀ d1, d.interact fuel closedRead openRead now = some d1 →
        d1._state = (if d._state = OPENING then OPEN else CLOSED)
        ∧ d1._motor.running = false ∧ d1._motor.speedOut = 0
        ∧ d1._motor.startCalls = d._motor.startCalls
        ∧ d1.haltCalls = d.haltCalls)
    ∧ (d.interact fuel closedRead openRead now).isSome =
        LED.returns fuel d.leds (if d._state = OPENING then d._greenLED else d._redLED) := by
  have heq : d.interact fuel closedRead openRead now =
      Door.changeLEDState fuel now
        { d.poll closedRead openRead now with
          _state := if d._state = OPENING then OPEN else CLOSED
          _motor := d._motor.stop } := by
    unfold Door.interact
    simp only
    rcases h with ⟨hs, hp⟩ | ⟨hs, hp⟩
    · rw [if_pos hs, if_pos hp, if_pos hs]
      rfl
    · rw [if_neg (by rw [hs]; decide), if_pos hs, if_pos hp, if_neg (by rw [hs]; decide)]
      rfl
  refine ⟨heq, ?_, ?_⟩
  · intro d1 h1
    rw [heq] at h1
    obtain ⟨σ, rfl⟩ := Door.changeLEDState_eq_some h1
    exact ⟨rfl, rfl, rfl, rfl, rfl⟩
  · rw [heq]
    rcases h with ⟨hs, -⟩ | ⟨hs, -⟩
    · rw [if_pos hs, if_pos hs]
      exact (Door.changeLEDState_isSome fuel now _).1 rfl
    · rw [if_neg (by rw [hs]; decide), if_neg (by rw [hs]; decide)]
      exact (Door.changeLEDState_isSome fuel now _).2 rfl

/-- C17, exercised on the sample door opened at clock value 20 whose open-limit
pin reads `HIGH` since clock value 10: polled at 200000, the button becomes
pressed in that call, 199980 ms after motion start; the door opens and the
halt callback is not invoked. -/
theorem Door.limit_switch_before_jam_witness :
    sampleLateDoor._state = OPENING
    ∧ sampleLateDoor._openButton.isPressed = false
    ∧ (sampleLateDoor._openButton.interact HIGH 200000).isPressed = true
    ∧ usub 200000 sampleLateDoor._motorStartTime > 120000
    ∧ (sampleLateDoor.interact 1 LOW HIGH 200000).isSome = true
    ∧ ∀ d1, sampleLateDoor.interact 1 LOW HIGH 200000 = some d1 →
        d1._state = OPEN ∧ d1._motor.running = false ∧ d1._motor.speedOut = 0
        ∧ d1._motor.startCalls = sampleLateDoor._motor.startCalls
        ∧ d1.haltCalls = sampleLateDoor.haltCalls :=
  have h := Door.limit_switch_before_jam 1 sampleLateDoor LOW HIGH 200000
    (Or.inl ⟨by decide, by decide⟩)
  ⟨by decide, by decide, by decide, by decide, by decide, h.2.1⟩

/-! ### C18: a running motor means a door in motion -/

/-- C18: in every state reachable from construction by `interact()`,
`openDoor(m)`, `closeDoor(m)`, `autoCloseOn()` and `stop()` calls, a running
motor implies state `OPENING` or `CLOSING`; equivalently the motor is not
running in the states `UNKNOWN`, `OPEN`, `CLOSED` and `HALTED`. Every
`interact()` that takes the door out of `OPENING` or `CLOSING` leaves the
motor stopped (`Motor::stop` sets the speed output to 0) without starting it. -/
theorem Door.motor_runs_only_in_motion (d : Door) (h : Door.Reachable Op.isCommand d) :
    (d._motor.running = true → (d._state = OPENING ∨ d._state = CLOSING))
    ∧ ((d._state = UNKNOWN ∨ d._state = OPEN ∨ d._state = CLOSED ∨ d._state = HALTED) →
        d._motor.running = false)
    ∧ (∀ (fuel closedRead openRead now : Nat) (d1 : Door),
        d.interact fuel closedRead openRead now = some d1 →
        (d._state = OPENING ∨ d._state = CLOSING) → d1._state ≠ d._state →
        d1._motor.running = false ∧ d1._motor.speedOut = 0
        ∧ d1._motor.startCalls = d._motor.startCalls) := by
  have hinv := Door.reachable_motorInv h
  unfold Door.MotorInv at hinv
  have h1 : d._motor.running = true → (d._state = OPENING ∨ d._state = CLOSING) := by
    intro hr
    rcases hinv hr with ⟨hs, -⟩ | ⟨hs, -⟩
    · exact Or.inl hs
    · exact Or.inr hs
  refine ⟨h1, ?_, ?_⟩
  · intro hs
    cases hr : d._motor.running with
    | false => rfl
    | true =>
      rcases h1 hr with h2 | h2 <;> rw [h2] at hs <;> simp at hs
  · intro fuel c o now d1 hi _ hne
    rcases Door.interact_eq_some hi with ⟨_, _, σ, rfl⟩ | ⟨_, _, rfl⟩ | ⟨_, _, σ, rfl⟩ |
      ⟨_, _, rfl⟩ | ⟨_, _, rfl⟩
    · exact ⟨rfl, rfl, rfl⟩
    · simp only [Door.checkForJam, Door.poll] at hne ⊢
      split_ifs at hne ⊢
      · exact ⟨rfl, rfl, rfl⟩
      · exact absurd rfl hne
    · exact ⟨rfl, rfl, rfl⟩
    · simp only [Door.checkForJam, Door.poll] at hne ⊢
      split_ifs at hne ⊢
      · exact ⟨rfl, rfl, rfl⟩
      · exact absurd rfl hne
    · exact absurd rfl hne

/-- C18, exercised on the sample door halted by the jam check. -/
theorem Door.motor_runs_only_in_motion_witness :
    Door.Reachable Op.isCommand sampleHaltedDoor
    ∧ sampleHaltedDoor._state = HALTED
    ∧ sampleHaltedDoor._motor.running = false :=
  have hreach : Door.Reachable Op.isCommand sampleHaltedDoor :=
    Door.Reachable.step 1 (Op.interact LOW LOW 120001)
      (Door.Reachable.step 1 (Op.openDoor false 0)
        (Door.Reachable.init 2 3 4 5 10 11 LOW LOW 0 0 sampleStore) rfl rfl) rfl rfl
  ⟨hreach, by decide,
    (Door.motor_runs_only_in_motion sampleHaltedDoor hreach).2.1
      (Or.inr (Or.inr (Or.inr (by decide))))⟩

/-! ### C20: the jam check across clock rollover -/

/-- C20: for a motion-start timestamp `s` (a 32-bit field; no bound on it is
needed here, `usub` reducing its operands) and a true elapsed time
`e < 2 ^ 32`, the clock reads `now = (s + e) mod 2 ^ 32`; the unsigned
difference `now - s` computed by `checkForJam()` is `e`, so `checkForJam()`
halts the door (motor stopped, state `HALTED`, halt callback invoked) if and
only if `e > 120000`, and changes nothing otherwise, also when `now < s`. -/
theorem Door.checkForJam_rollover (d : Door) (e : Nat) (he : e < ULONG_RANGE) :
    usub ((d._motorStartTime + e) % ULONG_RANGE) d._motorStartTime = e
    ∧ (e > 120000 →
        d.checkForJam ((d._motorStartTime + e) % ULONG_RANGE) =
          { d with _motor := d._motor.stop, _state := HALTED, haltCalls := d.haltCalls + 1 })
    ∧ (e ≤ 120000 → d.checkForJam ((d._motorStartTime + e) % ULONG_RANGE) = d)
    ∧ ((d.checkForJam ((d._motorStartTime + e) % ULONG_RANGE)).haltCalls = d.haltCalls + 1
        ↔ e > 120000) := by
  have hu : usub ((d._motorStartTime + e) % ULONG_RANGE) d._motorStartTime = e := by
    unfold usub
    simp only [ULONG_RANGE] at he ⊢
    omega
  refine ⟨hu, ?_, ?_, ?_⟩
  · intro hgt
    unfold Door.checkForJam
    rw [hu, if_pos hgt]
  · intro hle
    unfold Door.checkForJam
    rw [hu, if_neg (by omega)]
  · unfold Door.checkForJam
    rw [hu]
    split_ifs with hc
    · exact ⟨fun _ => hc, fun _ => rfl⟩
    · exact ⟨fun h => absurd h (by omega), fun h => absurd h hc⟩

/-- C20, exercised on a door whose motion started 296 ms before the rollover:
120001 ms later the clock reads 119705, below the timestamp, and the jam check
halts the door. -/
theorem Door.checkForJam_rollover_witness :
    (120001 : Nat) < ULONG_RANGE
    ∧ sampleRolloverDoor._motorStartTime = 4294967000
    ∧ (sampleRolloverDoor._motorStartTime + 120001) % ULONG_RANGE = 119705
    ∧ usub ((sampleRolloverDoor._motorStartTime + 120001) % ULONG_RANGE)
        sampleRolloverDoor._motorStartTime = 120001
    ∧ ((sampleRolloverDoor.checkForJam
          ((sampleRolloverDoor._motorStartTime + 120001) % ULONG_RANGE)).haltCalls =
        sampleRolloverDoor.haltCalls + 1 ↔ 120001 > 120000) :=
  have h := Door.checkForJam_rollover sampleRolloverDoor 120001 (by decide)
  ⟨by decide, rfl, by decide, h.1, h.2.2.2⟩

/-! ### C19: the two indicators are never lit together -/

/-- Effect of `changeLEDState()` on a door whose two indicators are distinct
LEDs without mirror peer: only the indicator of the current end position is
commanded, and it is not switched off. -/
theorem Door.changeLEDState_indicators (fuel now : Nat) (d : Door) (hp : d.NoPeers)
    (hne : d._redLED ≠ d._greenLED) :
    ∃ σ, d.changeLEDState (fuel + 1) now = some { d with leds := σ }
      ∧ LEDStore.SamePeers d.leds σ
      ∧ (d._state = OPEN → σ d._redLED = d.leds d._redLED)
      ∧ (d._state = CLOSED → σ d._greenLED = d.leds d._greenLED)
      ∧ (d._state ≠ OPEN → d._state ≠ CLOSED → σ = d.leds) := by
  obtain ⟨cb, ob, m, r, g, st, t0, ov, hc, σ⟩ := d
  obtain ⟨hr, hg⟩ := hp
  simp only at hr hg hne
  unfold Door.changeLEDState
  simp only [LED.fastBlink]
  by_cases h1 : st = OPEN
  · rw [if_pos h1]
    by_cases h3 : ov = true
    · rw [if_pos h3, LED.blink_noPeer _ _ _ _ _ hg]
      exact ⟨_, rfl, LEDStore.SamePeers.update _ _ _ rfl,
        fun _ => Function.update_noteq hne _ _, fun h => absurd (h1.symm.trans h) (by decide),
        fun h => absurd h1 h⟩
    · rw [if_neg h3, LED.on_noPeer _ _ _ hg]
      exact ⟨_, rfl, LEDStore.SamePeers.update _ _ _ rfl,
        fun _ => Function.update_noteq hne _ _, fun h => absurd (h1.symm.trans h) (by decide),
        fun h => absurd h1 h⟩
  · rw [if_neg h1]
    by_cases h2 : st = CLOSED
    · rw [if_pos h2]
      by_cases h3 : ov = true
      · rw [if_pos h3, LED.blink_noPeer _ _ _ _ _ hr]
        exact ⟨_, rfl, LEDStore.SamePeers.update _ _ _ rfl, fun h => absurd h h1,
          fun _ => Function.update_noteq (Ne.symm hne) _ _, fun _ h => absurd h2 h⟩
      · rw [if_neg h3, LED.on_noPeer _ _ _ hr]
        exact ⟨_, rfl, LEDStore.SamePeers.update _ _ _ rfl, fun h => absurd h h1,
          fun _ => Function.update_noteq (Ne.symm hne) _ _, fun _ h => absurd h2 h⟩
    · rw [if_neg h2]
      exact ⟨σ, rfl, LEDStore.SamePeers.refl _, fun h => absurd h h1, fun h => absurd h h2,
        fun _ _ => rfl⟩

/-- Effect of `stop()` on a door whose indicators have no mirror peer. -/
theorem Door.stop_indicators (fuel : Nat) (d : Door) (hp : d.NoPeers) :
    ∃ σ, d.stop (fuel + 1) = some { d with _motor := d._motor.stop, leds := σ }
      ∧ LEDStore.SamePeers d.leds σ
      ∧ (σ d._redLED)._state = LED.OFF ∧ (σ d._greenLED)._state = LED.OFF := by
  obtain ⟨cb, ob, m, r, g, st, t0, ov, hc, σ⟩ := d
  obtain ⟨hr, hg⟩ := hp
  simp only at hr hg
  have hg1 : (Function.update σ r
      { σ r with pinOut := LOW, _state := LED.OFF, _isOff := true } g)._opposite = none := by
    by_cases e : g = r
    · subst e; simpa using hr
    · simpa [Function.update_noteq e] using hg
  unfold Door.stop
  simp only
  rw [LED.off_noPeer _ _ _ hr]
  simp only
  rw [LED.off_noPeer _ _ _ hg1]
  refine ⟨_, rfl, ?_, ?_, ?_⟩
  · refine LEDStore.SamePeers.trans (LEDStore.SamePeers.update σ r _ ?_)
      (LEDStore.SamePeers.update _ g _ ?_) <;> rfl
  · by_cases e : r = g
    · subst e; simp
    · simp [Function.update_noteq e]
  · simp

/-- A poll of an LED without mirror peer returns; it changes neither the state
field nor the mirror relation of any LED. -/
theorem LED.interact_noPeer_frame (fuel now : Nat) (σ : LEDStore) (p : Nat)
    (hq : (σ p)._opposite = none) :
    ∃ σ1, LED.interact fuel now σ p = some σ1
      ∧ ∀ x, (σ1 x)._state = (σ x)._state ∧ (σ1 x)._opposite = (σ x)._opposite := by
  by_cases hidle : (σ p)._state ≠ LED.BLINK
      ∨ ¬ usub now (σ p)._timeLastChange ≥ toULong (σ p)._duration
  · exact ⟨σ, LED.interact_idle _ _ _ _ hidle, fun _ => ⟨rfl, rfl⟩⟩
  · have hs : (σ p)._state = LED.BLINK := by
      by_contra h; exact hidle (Or.inl h)
    have he : usub now (σ p)._timeLastChange ≥ toULong (σ p)._duration := by
      by_contra h; exact hidle (Or.inr h)
    refine ⟨_, LED.interact_toggle_noPeer _ _ _ hs he hq, ?_⟩
    intro x
    by_cases e : x = p
    · subst e; simp
    · simp [Function.update_noteq e]

theorem Door.IndicatorInv.of_leds {d : Door} (hinv : d.IndicatorInv) (s : Nat) (σ : LEDStore)
    (d1 : Door) (hr : d1._redLED = d._redLED) (hg : d1._greenLED = d._greenLED)
    (hs : d1._state = s) (hl : d1.leds = σ) (hsp : LEDStore.SamePeers d.leds σ)
    (h1 : (σ d._redLED)._state = LED.OFF ∨ (σ d._greenLED)._state = LED.OFF)
    (h2 : (s = OPENING ∨ s = OPEN) → (σ d._redLED)._state = LED.OFF)
    (h3 : (s = CLOSING ∨ s = CLOSED) → (σ d._greenLED)._state = LED.OFF) :
    d1.IndicatorInv := by
  obtain ⟨⟨hpr, hpg⟩, hne, -, -, -⟩ := hinv
  unfold Door.IndicatorInv Door.NoPeers
  rw [hr, hg, hs, hl]
  exact ⟨⟨(hsp _).trans hpr, (hsp _).trans hpg⟩, hne, h1, h2, h3⟩

theorem Door.IndicatorInv.interact {d : Door} (hinv : d.IndicatorInv)
    (fuel closedRead openRead now : Nat) :
    ∃ d1, d.interact (fuel + 1) closedRead openRead now = some d1 ∧ d1.IndicatorInv := by
  have hinv0 := hinv
  obtain ⟨hp, hne, h1, h2, h3⟩ := hinv
  have hno : ∀ s : Nat, s = OPEN ∨ s = CLOSED ∨ s = HALTED →
      ((s = OPENING ∨ s = OPEN) → s = OPEN) ∧ ((s = CLOSING ∨ s = CLOSED) → s = CLOSED) := by
    intro s h
    rcases h with h | h | h <;> subst h <;> decide
  unfold Door.interact
  simp only
  by_cases hs : d._state = OPENING
  · rw [if_pos hs]
    have hred : (d.leds d._redLED)._state = LED.OFF := h2 (Or.inl hs)
    split_ifs with hpr
    · obtain ⟨σ, hσ, hsp, hkeep, -, -⟩ := Door.changeLEDState_indicators fuel now
        { d.poll closedRead openRead now with _state := OPEN, _motor := d._motor.stop } hp hne
      have hk : σ d._redLED = d.leds d._redLED := hkeep rfl
      have hA : (σ d._redLED)._state = LED.OFF := by rw [hk]; exact hred
      exact ⟨_, hσ, hinv0.of_leds OPEN σ _ rfl rfl rfl rfl hsp (Or.inl hA) (fun _ => hA)
        (fun h => absurd ((hno OPEN (Or.inl rfl)).2 h) (by decide))⟩
    · refine ⟨_, rfl, ?_⟩
      unfold Door.checkForJam
      split_ifs
      · exact hinv0.of_leds HALTED d.leds _ rfl rfl rfl rfl (LEDStore.SamePeers.refl _) h1
          (fun h => absurd ((hno HALTED (Or.inr (Or.inr rfl))).1 h) (by decide))
          (fun h => absurd ((hno HALTED (Or.inr (Or.inr rfl))).2 h) (by decide))
      · exact hinv0.of_leds d._state d.leds _ rfl rfl rfl rfl (LEDStore.SamePeers.refl _)
          h1 h2 h3
  · rw [if_neg hs]
    by_cases hs2 : d._state = CLOSING
    · rw [if_pos hs2]
      have hgreen : (d.leds d._greenLED)._state = LED.OFF := h3 (Or.inl hs2)
      split_ifs with hpr
      · obtain ⟨σ, hσ, hsp, -, hkeep, -⟩ := Door.changeLEDState_indicators fuel now
          { d.poll closedRead openRead now with _state := CLOSED, _motor := d._motor.stop }
          hp hne
        have hk : σ d._greenLED = d.leds d._greenLED := hkeep rfl
        have hA : (σ d._greenLED)._state = LED.OFF := by rw [hk]; exact hgreen
        exact ⟨_, hσ, hinv0.of_leds CLOSED σ _ rfl rfl rfl rfl hsp (Or.inr hA)
          (fun h => absurd ((hno CLOSED (Or.inr (Or.inl rfl))).1 h) (by decide))
          (fun _ => hA)⟩
      · refine ⟨_, rfl, ?_⟩
        unfold Door.checkForJam
        split_ifs
        · exact hinv0.of_leds HALTED d.leds _ rfl rfl rfl rfl (LEDStore.SamePeers.refl _) h1
            (fun h => absurd ((hno HALTED (Or.inr (Or.inr rfl))).1 h) (by decide))
            (fun h => absurd ((hno HALTED (Or.inr (Or.inr rfl))).2 h) (by decide))
        · exact hinv0.of_leds d._state d.leds _ rfl rfl rfl rfl (LEDStore.SamePeers.refl _)
            h1 h2 h3
    · rw [if_neg hs2]
      exact ⟨_, rfl, hinv0.of_leds d._state d.leds _ rfl rfl rfl rfl
        (LEDStore.SamePeers.refl _) h1 h2 h3⟩

/-- What `changeLEDState()` leaves of the invariant, the state being unchanged. -/
theorem Door.IndicatorInv.refresh {d : Door} (hinv : d.IndicatorInv) {σ : LEDStore}
    (hsp : LEDStore.SamePeers d.leds σ)
    (hk1 : d._state = OPEN → σ d._redLED = d.leds d._redLED)
    (hk2 : d._state = CLOSED → σ d._greenLED = d.leds d._greenLED)
    (hk3 : d._state ≠ OPEN → d._state ≠ CLOSED → σ = d.leds)
    (d1 : Door) (hr : d1._redLED = d._redLED) (hg : d1._greenLED = d._greenLED)
    (hs : d1._state = d._state) (hl : d1.leds = σ) : d1.IndicatorInv := by
  have hinv0 := hinv
  obtain ⟨hp, hne, h1, h2, h3⟩ := hinv
  refine hinv0.of_leds d._state σ d1 hr hg hs hl hsp ?_ ?_ ?_
  · by_cases e1 : d._state = OPEN
    · left; rw [hk1 e1]; exact h2 (Or.inr e1)
    · by_cases e2 : d._state = CLOSED
      · right; rw [hk2 e2]; exact h3 (Or.inr e2)
      · rw [hk3 e1 e2]; exact h1
  · intro h
    by_cases e1 : d._state = OPEN
    · rw [hk1 e1]; exact h2 h
    · rw [hk3 e1 (by rcases h with h | h <;> rw [h] <;> decide)]; exact h2 h
  · intro h
    by_cases e2 : d._state = CLOSED
    · rw [hk2 e2]; exact h3 h
    · rw [hk3 (by rcases h with h | h <;> rw [h] <;> decide) e2]; exact h3 h

theorem Door.IndicatorInv.step {d : Door} (hinv : d.IndicatorInv) (fuel : Nat) (op : Op) :
    ∃ d1, d.step (fuel + 1) op = some d1 ∧ d1.IndicatorInv := by
  have hinv0 := hinv
  obtain ⟨hp, hne, h1, h2, h3⟩ := hinv
  cases op with
  | interact c o now => exact hinv0.interact fuel c o now
  | openDoor m now =>
    by_cases hs : d._state ≠ OPEN ∧ d._state ≠ OPENING
    · obtain ⟨σ, hσ, hsp, -, -, -, -, hred⟩ := Door.openDoor_noPeers fuel m now d hs hp
      exact ⟨_, hσ, hinv0.of_leds OPENING σ _ rfl rfl rfl rfl hsp (Or.inl (hred hne).1)
        (fun _ => (hred hne).1) (fun h => by rcases h with h | h <;> cases h)⟩
    · refine ⟨d, ?_, hinv0⟩
      simp only [Door.step, Door.openDoor]
      rw [if_neg hs]
  | closeDoor m now =>
    by_cases hs : d._state ≠ CLOSED ∧ d._state ≠ CLOSING
    · obtain ⟨σ, hσ, hsp, -, -, -, -, hgreen⟩ := Door.closeDoor_noPeers fuel m now d hs hp
      exact ⟨_, hσ, hinv0.of_leds CLOSING σ _ rfl rfl rfl rfl hsp (Or.inr (hgreen hne).1)
        (fun h => by rcases h with h | h <;> cases h) (fun _ => (hgreen hne).1)⟩
    · refine ⟨d, ?_, hinv0⟩
      simp only [Door.step, Door.closeDoor]
      rw [if_neg hs]
  | autoCloseOn now =>
    obtain ⟨σ, hσ, hsp, hk1, hk2, hk3⟩ := Door.changeLEDState_indicators fuel now
      { d with _manualOverride := false } hp hne
    exact ⟨_, hσ, hinv0.refresh hsp hk1 hk2 hk3 _ rfl rfl rfl rfl⟩
  | changeLEDState now =>
    obtain ⟨σ, hσ, hsp, hk1, hk2, hk3⟩ := Door.changeLEDState_indicators fuel now d hp hne
    exact ⟨_, hσ, hinv0.refresh hsp hk1 hk2 hk3 _ rfl rfl rfl rfl⟩
  | stop =>
    obtain ⟨σ, hσ, hsp, hr, hg⟩ := Door.stop_indicators fuel d hp
    exact ⟨_, hσ, hinv0.of_leds d._state σ _ rfl rfl rfl rfl hsp (Or.inl hr) (fun _ => hr)
      (fun _ => hg)⟩

theorem Door.IndicatorInv.drive {d : Door} (hinv : d.IndicatorInv) (fuel : Nat)
    (c : DriverCall) : ∃ d1, d.drive (fuel + 1) c = some d1 ∧ d1.IndicatorInv := by
  have hinv0 := hinv
  obtain ⟨hp, hne, h1, h2, h3⟩ := hinv
  cases c with
  | door op => exact hinv0.step fuel op
  | pollRed now =>
    obtain ⟨σ, hσ, hf⟩ := LED.interact_noPeer_frame (fuel + 1) now d.leds d._redLED hp.1
    refine ⟨{ d with leds := σ }, ?_, ?_⟩
    · simp only [Door.drive, hσ, Option.map_some']
    · refine hinv0.of_leds d._state σ _ rfl rfl rfl rfl (fun q => (hf q).2) ?_ ?_ ?_
      · rw [(hf _).1, (hf _).1]; exact h1
      · rw [(hf _).1]; exact h2
      · rw [(hf _).1]; exact h3
  | pollGreen now =>
    obtain ⟨σ, hσ, hf⟩ := LED.interact_noPeer_frame (fuel + 1) now d.leds d._greenLED hp.2
    refine ⟨{ d with leds := σ }, ?_, ?_⟩
    · simp only [Door.drive, hσ, Option.map_some']
    · refine hinv0.of_leds d._state σ _ rfl rfl rfl rfl (fun q => (hf q).2) ?_ ?_ ?_
      · rw [(hf _).1, (hf _).1]; exact h1
      · rw [(hf _).1]; exact h2
      · rw [(hf _).1]; exact h3

theorem Door.IndicatorInv.drives (fuel : Nat) (cs : List DriverCall) :
    ∀ d : Door, d.IndicatorInv → ∃ d1, d.drives (fuel + 1) cs = some d1 ∧ d1.IndicatorInv := by
  induction cs with
  | nil => intro d h; exact ⟨d, rfl, h⟩
  | cons c cs ih =>
    intro d h
    obtain ⟨d1, h1, hi1⟩ := h.drive fuel c
    obtain ⟨d2, h2, hi2⟩ := ih d1 hi1
    refine ⟨d2, ?_, hi2⟩
    simp only [Door.drives, h1]
    exact h2

/-- C19: a door whose red and green LEDs are two LEDs without mirror peer,
both in state `OFF` (as when a door has just been constructed on two fresh
LEDs), is driven by any sequence of `interact()`, `openDoor(m)`,
`closeDoor(m)`, `autoCloseOn()`, `changeLEDState()` and `stop()` calls, and of
polls of the two LEDs. Every such sequence returns, and afterwards at most one
of the two LEDs is not `OFF`: the red LED is `OFF` whenever the state is
`OPENING` or `OPEN`, the green LED is `OFF` whenever the state is `CLOSING` or
`CLOSED`. -/
theorem Door.indicators_exclusive (fuel : Nat) (d : Door) (calls : List DriverCall)
    (hp : d.NoPeers) (hne : d._redLED ≠ d._greenLED)
    (hr : (d.leds d._redLED)._state = LED.OFF) (hg : (d.leds d._greenLED)._state = LED.OFF) :
    ∃ d1, d.drives (fuel + 1) calls = some d1
      ∧ ((d1.leds d1._redLED)._state = LED.OFF ∨ (d1.leds d1._greenLED)._state = LED.OFF)
      ∧ ((d1._state = OPENING ∨ d1._state = OPEN) → (d1.leds d1._redLED)._state = LED.OFF)
      ∧ ((d1._state = CLOSING ∨ d1._state = CLOSED) →
          (d1.leds d1._greenLED)._state = LED.OFF) := by
  have hinv : d.IndicatorInv := ⟨hp, hne, Or.inl hr, fun _ => hr, fun _ => hg⟩
  obtain ⟨d1, h1, -, -, k1, k2, k3⟩ := Door.IndicatorInv.drives fuel calls d hinv
  exact ⟨d1, h1, k1, k2, k3⟩

/-- C19, exercised on the sample door: opened, polled until the open limit is
committed, closed by hand, then stopped. -/
theorem Door.indicators_exclusive_witness :
    sampleDoor.NoPeers ∧ sampleDoor._redLED ≠ sampleDoor._greenLED
    ∧ (sampleDoor.leds sampleDoor._redLED)._state = LED.OFF
    ∧ (sampleDoor.leds sampleDoor._greenLED)._state = LED.OFF
    ∧ ∃ d1, sampleDoor.drives 1
          [DriverCall.door (Op.openDoor false 0), DriverCall.pollGreen 1000,
            DriverCall.door (Op.interact LOW HIGH 1010),
            DriverCall.door (Op.interact LOW HIGH 1061),
            DriverCall.door (Op.closeDoor true 1070), DriverCall.pollRed 2100,
            DriverCall.door Op.stop] = some d1
        ∧ ((d1.leds d1._redLED)._state = LED.OFF ∨ (d1.leds d1._greenLED)._state = LED.OFF)
        ∧ ((d1._state = OPENING ∨ d1._state = OPEN) → (d1.leds d1._redLED)._state = LED.OFF)
        ∧ ((d1._state = CLOSING ∨ d1._state = CLOSED) →
            (d1.leds d1._greenLED)._state = LED.OFF) :=
  ⟨⟨rfl, rfl⟩, by decide, rfl, rfl,
    Door.indicators_exclusive 0 sampleDoor _ ⟨rfl, rfl⟩ (by decide) rfl rfl⟩

/-! ### Driver calls that leave the door in its state -/

/-- A call that returns with the door in the state it was in either leaves the
override flag as it was, or is `autoCloseOn()` and has cleared it. -/
theorem Door.step_override {fuel : Nat} {op : Op} {d d1 : Door}
    (h : d.step fuel op = some d1) (hs1 : d1._state = d._state) :
    d1._manualOverride = d._manualOverride
    ∨ ((∃ now, op = Op.autoCloseOn now) ∧ d1._manualOverride = false) := by
  cases op with
  | interact c o now =>
    left
    rcases Door.interact_eq_some h with ⟨_, _, σ, rfl⟩ | ⟨_, _, rfl⟩ | ⟨_, _, σ, rfl⟩ |
      ⟨_, _, rfl⟩ | ⟨_, _, rfl⟩
    · rfl
    · simp only [Door.checkForJam, Door.poll]
      split_ifs <;> rfl
    · rfl
    · simp only [Door.checkForJam, Door.poll]
      split_ifs <;> rfl
    · rfl
  | openDoor m now =>
    left
    rcases Door.openDoor_eq_some h with ⟨_, h2, σ, rfl⟩ | ⟨_, rfl⟩
    · exact absurd hs1.symm h2
    · rfl
  | closeDoor m now =>
    left
    rcases Door.closeDoor_eq_some h with ⟨_, h2, σ, rfl⟩ | ⟨_, rfl⟩
    · exact absurd hs1.symm h2
    · rfl
  | autoCloseOn now =>
    right
    obtain ⟨σ, rfl⟩ := Door.autoCloseOn_eq_some h
    exact ⟨⟨now, rfl⟩, rfl⟩
  | changeLEDState now =>
    left
    obtain ⟨σ, rfl⟩ := Door.changeLEDState_eq_some h
    rfl
  | stop =>
    left
    obtain ⟨σ, rfl⟩ := Door.stop_eq_some h
    rfl

/-- One driver call on a door whose LEDs have no mirror peer: the LEDs still
have none afterwards and, if the state is the same, the override flag is the
same unless the call was `autoCloseOn()`, which clears it. -/
theorem Door.drive_noPeers {fuel : Nat} {c : DriverCall} {d d1 : Door} (hp : d.NoPeers)
    (h : d.drive fuel c = some d1) :
    d1.NoPeers
    ∧ (d1._state = d._state →
        d1._manualOverride = d._manualOverride
        ∨ (c.isAutoCloseOn = true ∧ d1._manualOverride = false)) := by
  rcases c with op | now | now
  · obtain ⟨hr, hg, hsp⟩ := Door.step_samePeers h
    refine ⟨⟨?_, ?_⟩, fun hs1 => ?_⟩
    · rw [hr, hsp]; exact hp.1
    · rw [hg, hsp]; exact hp.2
    · rcases Door.step_override h hs1 with e | ⟨⟨now, rfl⟩, e⟩
      · exact Or.inl e
      · exact Or.inr ⟨rfl, e⟩
  · obtain ⟨σ1, e, hf⟩ := LED.interact_noPeer_frame fuel now d.leds d._redLED hp.1
    simp only [Door.drive] at h
    rw [e] at h
    cases h
    exact ⟨⟨(hf _).2.trans hp.1, (hf _).2.trans hp.2⟩, fun _ => Or.inl rfl⟩
  · obtain ⟨σ1, e, hf⟩ := LED.interact_noPeer_frame fuel now d.leds d._greenLED hp.2
    simp only [Door.drive] at h
    rw [e] at h
    cases h
    exact ⟨⟨(hf _).2.trans hp.1, (hf _).2.trans hp.2⟩, fun _ => Or.inl rfl⟩

/-- Driver calls that each return with the door still in state `s`, on a door
whose LEDs have no mirror peer: the LEDs still have none, the state is `s`, a
cleared override flag is still cleared, and the flag is as it was if none of
the calls is `autoCloseOn()`. -/
theorem Door.drives_stayIn {fuel s : Nat} (cs : List DriverCall) :
    ∀ {d d2 : Door}, d.NoPeers → d._state = s → d.drivesStayIn s fuel cs = true →
      d.drives fuel cs = some d2 →
      d2.NoPeers ∧ d2._state = s
      ∧ (d._manualOverride = false → d2._manualOverride = false)
      ∧ ((∀ c ∈ cs, c.isAutoCloseOn = false) → d2._manualOverride = d._manualOverride) := by
  induction cs with
  | nil =>
    intro d d2 hp hs _ hrun
    simp only [Door.drives] at hrun
    cases hrun
    exact ⟨hp, hs, fun h => h, fun _ => rfl⟩
  | cons c cs ih =>
    intro d d2 hp hs hst hrun
    simp only [Door.drives, Door.drivesStayIn] at hrun hst
    cases hstep : d.drive fuel c with
    | none => rw [hstep] at hrun; cases hrun
    | some d1 =>
      rw [hstep] at hrun hst
      simp only [Bool.and_eq_true, beq_iff_eq] at hst
      obtain ⟨hp1, hov1⟩ := Door.drive_noPeers hp hstep
      obtain ⟨hp2, hs2, hf2, hk2⟩ := ih hp1 hst.1 hst.2 hrun
      have hov := hov1 (hst.1.trans hs.symm)
      refine ⟨hp2, hs2, fun h0 => hf2 ?_, fun hall => ?_⟩
      · rcases hov with e | ⟨_, e⟩
        · rw [e]; exact h0
        · exact e
      · rw [hk2 (fun x hx => hall x (List.mem_cons_of_mem _ hx))]
        rcases hov with e | ⟨e, _⟩
        · exact e
        · rw [hall c (List.mem_cons_self _ _)] at e
          cases e

/-! ### C6: opening from `UNKNOWN` -/

/-- C6: for every door in state `UNKNOWN` whose red and green LEDs are two
LEDs without mirror peer, `openDoor(false)` at clock value `t` returns with
state `OPENING`, the motor started once with direction `FORWARDS` and speed
255, motion-start timestamp `t`, the red LED `OFF` (pin `LOW`), the green LED
in `BLINK` with period 1000 and the override flag cleared. After any further
driver calls (calls of the door's methods and polls of its two LEDs, in any
order) that each return with the state still `OPENING`, an `interact()` in
which the open-limit button is debounced-pressed returns with state `OPEN`, the
motor stopped and the green LED `ON` with its pin `HIGH`. -/
theorem Door.openDoor_from_unknown_then_limit (fuel : Nat) (d : Door) (t : Nat)
    (hs : d._state = UNKNOWN) (hp : d.NoPeers) (hne : d._redLED ≠ d._greenLED) :
    ∃ d1, d.openDoor (fuel + 1) false t = some d1
      ∧ d1._state = OPENING
      ∧ d1._motor.running = true ∧ d1._motor.directionOut = FORWARDS
      ∧ d1._motor.speedOut = 255 ∧ d1._motor.startCalls = d._motor.startCalls + 1
      ∧ d1._motorStartTime = t
      ∧ (d1.leds d1._redLED)._state = LED.OFF ∧ (d1.leds d1._redLED).pinOut = LOW
      ∧ (d1.leds d1._greenLED)._state = LED.BLINK ∧ (d1.leds d1._greenLED)._duration = 1000
      ∧ d1._manualOverride = false
      ∧ ∀ (calls : List DriverCall) (d2 : Door) (closedRead openRead now : Nat),
          d1.drivesStayIn OPENING (fuel + 1) calls = true →
          d1.drives (fuel + 1) calls = some d2 →
          (d2._openButton.interact openRead now).isPressed = true →
          ∃ d3, d2.interact (fuel + 1) closedRead openRead now = some d3
            ∧ d3._state = OPEN
            ∧ d3._motor.running = false ∧ d3._motor.speedOut = 0
            ∧ (d3.leds d3._greenLED)._state = LED.ON
            ∧ (d3.leds d3._greenLED).pinOut = HIGH := by
  have hg : d._state ≠ OPEN ∧ d._state ≠ OPENING := by rw [hs]; decide
  obtain ⟨σ, hopen, hsp, hb, hdur, _, _, hred⟩ := Door.openDoor_noPeers fuel false t d hg hp
  refine ⟨_, hopen, rfl, rfl, rfl, rfl, rfl, rfl, (hred hne).1, (hred hne).2, hb, hdur, rfl, ?_⟩
  intro calls d2 c o now hst hrun hpressed
  have hp1 : Door.NoPeers
      { d with
        _state := OPENING, _motor := d._motor.start FORWARDS 255
        _motorStartTime := t, leds := σ, _manualOverride := false } :=
    ⟨(hsp _).trans hp.1, (hsp _).trans hp.2⟩
  obtain ⟨hp2, hs2, hov2, -⟩ := Door.drives_stayIn calls hp1 rfl hst hrun
  have hs2 : d2._state = OPENING := hs2
  have hov2 : d2._manualOverride = false := hov2 rfl
  have hnp : (d2.leds d2._greenLED)._opposite = none := hp2.2
  unfold Door.interact
  simp only
  rw [if_pos hs2, if_pos hpressed]
  obtain ⟨cb, ob, m, r, g, st, t0, ov, hc, σ2⟩ := d2
  simp only at hs2 hov2 hnp
  subst hov2
  unfold Door.changeLEDState
  simp only [if_true, Bool.false_eq_true, if_false]
  rw [LED.on_noPeer _ _ _ hnp]
  refine ⟨_, rfl, rfl, rfl, rfl, ?_, ?_⟩ <;> simp

/-- C6, exercised on the sample door (state `UNKNOWN` after construction):
`openDoor(false)` at clock value 7; while the door travels, an `interact()` at
500, a poll of the green LED at 1007 that toggles it (pin `HIGH`), a poll of
the red LED at 1010 and an `interact()` at 2000 in which the open-limit pin
first reads `HIGH`; the `interact()` at 2051 finds the button debounced-pressed
and leaves the door `OPEN`, the motor stopped and the green LED `ON`. -/
theorem Door.openDoor_from_unknown_then_limit_witness :
    sampleDoor._state = UNKNOWN ∧ sampleDoor.NoPeers ∧ sampleDoor._redLED ≠ sampleDoor._greenLED
    ∧ sampleDoor.openDoor 1 false 7 = some sampleOpenedDoor
    ∧ sampleOpenedDoor._state = OPENING
    ∧ sampleOpenedDoor._motor.running = true
    ∧ sampleOpenedDoor._motor.directionOut = FORWARDS
    ∧ sampleOpenedDoor._motor.speedOut = 255
    ∧ sampleOpenedDoor._motor.startCalls = sampleDoor._motor.startCalls + 1
    ∧ sampleOpenedDoor._motorStartTime = 7
    ∧ (sampleOpenedDoor.leds 10)._state = LED.OFF ∧ (sampleOpenedDoor.leds 10).pinOut = LOW
    ∧ (sampleOpenedDoor.leds 11)._state = LED.BLINK
    ∧ (sampleOpenedDoor.leds 11)._duration = 1000
    ∧ sampleOpenedDoor._manualOverride = false
    ∧ sampleOpenedDoor.drivesStayIn OPENING 1 sampleOpeningCalls = true
    ∧ sampleOpenedDoor.drives 1 sampleOpeningCalls = some sampleTravellingDoor
    ∧ (sampleOpenedDoor.leds 11).pinOut = LOW ∧ (sampleTravellingDoor.leds 11).pinOut = HIGH
    ∧ (sampleTravellingDoor.leds 11)._state = LED.BLINK
    ∧ sampleTravellingDoor._openButton.isPressed = false
    ∧ (sampleTravellingDoor._openButton.interact HIGH 2051).isPressed = true
    ∧ ∃ d3, sampleTravellingDoor.interact 1 LOW HIGH 2051 = some d3
        ∧ d3._state = OPEN
        ∧ d3._motor.running = false ∧ d3._motor.speedOut = 0
        ∧ (d3.leds d3._greenLED)._state = LED.ON
        ∧ (d3.leds d3._greenLED).pinOut = HIGH := by
  obtain ⟨d1, h1, a1, a2, a3, a4, a5, a6, a7, a8, a9, a10, a11, hall⟩ :=
    Door.openDoor_from_unknown_then_limit 0 sampleDoor 7 (by decide) ⟨rfl, rfl⟩ (by decide)
  have e : d1 = sampleOpenedDoor :=
    Option.some.inj (h1.symm.trans (rfl : sampleDoor.openDoor 1 false 7 = some sampleOpenedDoor))
  subst e
  exact ⟨by decide, ⟨rfl, rfl⟩, by decide, h1, a1, a2, a3, a4, a5, a6, a7, a8, a9, a10, a11,
    by decide, rfl, by decide, by decide, by decide, by decide, by decide,
    hall sampleOpeningCalls sampleTravellingDoor LOW HIGH 2051 (by decide) rfl (by decide)⟩

/-! ### C7: manual close, then `autoCloseOn()` -/

/-- C7: for every door in a state other than `CLOSED` and `CLOSING` whose LEDs
have no mirror peer, `closeDoor(true)` at clock value `t0` returns with state
`CLOSING` and the override flag set, the closed-limit button untouched. After
any driver calls (calls of the door's methods other than `autoCloseOn()` and
polls of its two LEDs, in any order) that each return with the state still
`CLOSING`, an `interact()` in which the closed-limit button is debounced-pressed
returns with state `CLOSED`, the motor stopped, the override flag set and the
red LED in `BLINK` with period 250. After any further driver calls that each
return with the state still `CLOSED`, `autoCloseOn()` returns with the override
flag cleared and the red LED `ON` (pin `HIGH`), the state, the motor and the
motion-start timestamp being unchanged. -/
theorem Door.closeDoor_manual_then_autoCloseOn (fuel : Nat) (d : Door) (t0 : Nat)
    (hs : d._state ≠ CLOSED ∧ d._state ≠ CLOSING) (hp : d.NoPeers) :
    ∃ d1, d.closeDoor (fuel + 1) true t0 = some d1
      ∧ d1._state = CLOSING ∧ d1._manualOverride = true
      ∧ d1._closedButton = d._closedButton
      ∧ ∀ (calls : List DriverCall) (d2 : Door) (closedRead openRead t1 : Nat),
          d1.drivesStayIn CLOSING (fuel + 1) calls = true →
          (∀ c ∈ calls, c.isAutoCloseOn = false) →
          d1.drives (fuel + 1) calls = some d2 →
          (d2._closedButton.interact closedRead t1).isPressed = true →
          ∃ d3, d2.interact (fuel + 1) closedRead openRead t1 = some d3
            ∧ d3._state = CLOSED
            ∧ d3._motor.running = false ∧ d3._motor.speedOut = 0
            ∧ d3._manualOverride = true
            ∧ (d3.leds d3._redLED)._state = LED.BLINK
            ∧ (d3.leds d3._redLED)._duration = 250
            ∧ ∀ (later : List DriverCall) (d4 : Door) (t2 : Nat),
                d3.drivesStayIn CLOSED (fuel + 1) later = true →
                d3.drives (fuel + 1) later = some d4 →
                ∃ d5, d4.autoCloseOn (fuel + 1) t2 = some d5
                  ∧ d5._manualOverride = false
                  ∧ (d5.leds d5._redLED)._state = LED.ON
                  ∧ (d5.leds d5._redLED).pinOut = HIGH
                  ∧ d5._state = d4._state ∧ d5._state = CLOSED
                  ∧ d5._motor = d4._motor
                  ∧ d5._motorStartTime = d4._motorStartTime := by
  obtain ⟨σ1, hclose, hsp1, -⟩ := Door.closeDoor_noPeers fuel true t0 d hs hp
  refine ⟨_, hclose, rfl, rfl, rfl, ?_⟩
  intro calls d2 c o t1 hst hno hrun hpressed
  have hp1 : Door.NoPeers
      { d with
        _state := CLOSING, _motor := d._motor.start BACKWARDS 255
        _motorStartTime := t0, leds := σ1, _manualOverride := true } :=
    ⟨(hsp1 _).trans hp.1, (hsp1 _).trans hp.2⟩
  obtain ⟨hp2, hs2, -, hov2⟩ := Door.drives_stayIn calls hp1 rfl hst hrun
  have hs2 : d2._state = CLOSING := hs2
  have hov2 : d2._manualOverride = true := hov2 hno
  have hp2a : Door.NoPeers
      { d2.poll c o t1 with _state := CLOSED, _motor := (d2.poll c o t1)._motor.stop } := hp2
  obtain ⟨σ3, hled, hsp3, -, -, -, hblink⟩ := Door.changeLEDState_noPeers fuel t1 _ hp2a
  have hp3 : Door.NoPeers
      { d2.poll c o t1 with
        _state := CLOSED, _motor := (d2.poll c o t1)._motor.stop, leds := σ3 } :=
    ⟨(hsp3 _).trans hp2.1, (hsp3 _).trans hp2.2⟩
  refine ⟨{ d2.poll c o t1 with
        _state := CLOSED, _motor := (d2.poll c o t1)._motor.stop, leds := σ3 },
    ?_, rfl, rfl, rfl, hov2, (hblink rfl hov2).1, (hblink rfl hov2).2, ?_⟩
  · unfold Door.interact
    simp only
    rw [if_neg (by rw [hs2]; decide), if_pos hs2, if_pos hpressed]
    exact hled
  · intro later d4 t2 hst4 hrun4
    obtain ⟨hp4, hs4, -, -⟩ := Door.drives_stayIn later hp3 rfl hst4 hrun4
    have hs4 : d4._state = CLOSED := hs4
    have hp4a : Door.NoPeers { d4 with _manualOverride := false } := hp4
    obtain ⟨σ5, hled5, -, -, -, hon, -⟩ := Door.changeLEDState_noPeers fuel t2 _ hp4a
    refine ⟨{ d4 with _manualOverride := false, leds := σ5 }, ?_, rfl,
      (hon hs4 rfl).1, (hon hs4 rfl).2, rfl, hs4, rfl, rfl⟩
    unfold Door.autoCloseOn
    exact hled5

/-- C7, exercised on the sample door (state `UNKNOWN`, closed-limit switch
released): `closeDoor(true)` at clock value 20; while the door travels, an
`interact()` at 100, a poll of the red LED at 1020 that toggles it (pin
`HIGH`), a poll of the green LED at 1030 and an `interact()` at 5000 in which
the closed-limit pin first reads `HIGH`, the button being not yet pressed; the
`interact()` at 5051 finds it debounced-pressed and leaves the door `CLOSED`;
after a poll of the red LED at 5400 and an `interact()` at 5500,
`autoCloseOn()` at 6000 clears the override flag and turns the red LED `ON`. -/
theorem Door.closeDoor_manual_then_autoCloseOn_witness :
    (sampleDoor._state ≠ CLOSED ∧ sampleDoor._state ≠ CLOSING) ∧ sampleDoor.NoPeers
    ∧ sampleDoor._closedButton.isPressed = false
    ∧ sampleDoor.closeDoor 1 true 20 = some sampleClosingDoor
    ∧ sampleClosingDoor._state = CLOSING ∧ sampleClosingDoor._manualOverride = true
    ∧ sampleClosingDoor.drivesStayIn CLOSING 1 sampleClosingCalls = true
    ∧ (∀ c ∈ sampleClosingCalls, c.isAutoCloseOn = false)
    ∧ sampleClosingDoor.drives 1 sampleClosingCalls = some sampleArrivingDoor
    ∧ (sampleClosingDoor.leds 10).pinOut = LOW ∧ (sampleArrivingDoor.leds 10).pinOut = HIGH
    ∧ sampleArrivingDoor._closedButton.isPressed = false
    ∧ (sampleArrivingDoor._closedButton.interact HIGH 5051).isPressed = true
    ∧ sampleArrivingDoor.interact 1 HIGH LOW 5051 = some sampleClosedDoor
    ∧ sampleClosedDoor._state = CLOSED
    ∧ sampleClosedDoor._motor.running = false ∧ sampleClosedDoor._motor.speedOut = 0
    ∧ sampleClosedDoor._manualOverride = true
    ∧ (sampleClosedDoor.leds 10)._state = LED.BLINK
    ∧ (sampleClosedDoor.leds 10)._duration = 250
    ∧ sampleClosedDoor.drivesStayIn CLOSED 1 sampleClosedCalls = true
    ∧ sampleClosedDoor.drives 1 sampleClosedCalls = some sampleRestingDoor
    ∧ ∃ d5, sampleRestingDoor.autoCloseOn 1 6000 = some d5
        ∧ d5._manualOverride = false
        ∧ (d5.leds d5._redLED)._state = LED.ON
        ∧ (d5.leds d5._redLED).pinOut = HIGH
        ∧ d5._state = sampleRestingDoor._state ∧ d5._state = CLOSED
        ∧ d5._motor = sampleRestingDoor._motor
        ∧ d5._motorStartTime = sampleRestingDoor._motorStartTime := by
  obtain ⟨d1, h1, a1, a2, -, hall⟩ :=
    Door.closeDoor_manual_then_autoCloseOn 0 sampleDoor 20 (by decide) ⟨rfl, rfl⟩
  have e1 : d1 = sampleClosingDoor :=
    Option.some.inj (h1.symm.trans (rfl : sampleDoor.closeDoor 1 true 20 = some sampleClosingDoor))
  subst e1
  obtain ⟨d3, h3, b1, b2, b3, b4, b5, b6, hlater⟩ :=
    hall sampleClosingCalls sampleArrivingDoor HIGH LOW 5051 (by decide) (by decide) rfl
      (by decide)
  have e3 : d3 = sampleClosedDoor :=
    Option.some.inj
      (h3.symm.trans (rfl : sampleArrivingDoor.interact 1 HIGH LOW 5051 = some sampleClosedDoor))
  subst e3
  exact ⟨by decide, ⟨rfl, rfl⟩, by decide, h1, a1, a2, by decide, by decide, rfl,
    by decide, by decide, by decide, by decide, h3, b1, b2, b3, b4, b5, b6, by decide, rfl,
    hlater sampleClosedCalls sampleRestingDoor 6000 (by decide) rfl⟩

end ChookDoor
